import Mathlib

/-!
# eseries_exporter: collectors, registry and one-hot status encoding

A shallow embedding of `internal/collectors` (collector.go, drives.go,
storage-systems.go, storage-pools.go, volumes.go).

Conventions of the embedding.

* A Go `string` is a Lean `String`: every string the collectors see comes out of
  the JSON or YAML decoder or is a literal, hence is valid UTF-8.
* A Go `map` is an association list with pairwise distinct keys; `range` walks it
  in stored order, and results are compared as key sets.
* A `chan<- prometheus.Metric` is the list of metrics sent, in sending order.
* Logging has no effect on what is returned or sent and is left out.
* Library behaviour that is not part of the repository (Unicode case folding
  tables, `net/url`, `encoding/json`, `strconv.ParseFloat`, the wall clock) is
  taken as a parameter of the function that uses it.
-/

namespace Eseries

/-! ## strings.EqualFold and sliceContains (collector.go) -/

/-- One step of `strings.EqualFold`: do the runes `sr` and `tr` match under simple
case folding.  Equal runes match; two ASCII runes match when the smaller is an
upper-case letter and the larger is its lower-case form; for any other pair the
library walks the `unicode.SimpleFold` orbit of the smaller rune up to the larger
one, and `orbit lo hi` is the outcome of that walk. -/
def foldRune (orbit : Char → Char → Bool) (sr tr : Char) : Bool :=
  if tr = sr then true
  else
    let lo := if tr.toNat < sr.toNat then tr else sr
    let hi := if tr.toNat < sr.toNat then sr else tr
    if hi.toNat < 0x80 then
      decide ('A'.toNat ≤ lo.toNat ∧ lo.toNat ≤ 'Z'.toNat ∧ hi.toNat = lo.toNat + 32)
    else orbit lo hi

/-- Rune by rune comparison of `strings.EqualFold`: both strings must run out
together and every pair of runes must match. -/
def equalFoldRunes (orbit : Char → Char → Bool) : List Char → List Char → Bool
  | [], [] => true
  | sr :: s, tr :: t => foldRune orbit sr tr && equalFoldRunes orbit s t
  | _, _ => false

/-- Model of `strings.EqualFold(s, t)`. -/
def EqualFold (orbit : Char → Char → Bool) (s t : String) : Bool :=
  equalFoldRunes orbit s.data t.data

/-- Model of `sliceContains` (collector.go, lines 65-72): the first element that
is `EqualFold` to `str` makes the loop return true. -/
def sliceContains (orbit : Char → Char → Bool) : List String → String → Bool
  | [], _ => false
  | s :: slice, str => if EqualFold orbit s str then true else sliceContains orbit slice str

/-! ## Metric values -/

/-- A Go `float64` as far as the collectors use it: a finite number given by its
exact value, an infinity, or NaN.  The two zeros are the one value `num 0`: the
sign of zero is not modelled. -/
inductive F64 where
  | num (q : ℚ)
  | posInf
  | negInf
  | nan
  deriving DecidableEq

namespace F64

/-- The comparison `x > 0` of float64 (false for NaN). -/
def gtZero : F64 → Bool
  | num q => decide (0 < q)
  | posInf => true
  | negInf => false
  | nan => false

/-- An infinity of the given sign. -/
def inf (neg : Bool) : F64 := if neg then negInf else posInf

/-- The natural number nearest to `n / d`, the even one of the two when `n / d`
lies half way between them. -/
def roundHalfEven (n d : Nat) : Nat :=
  if 2 * (n % d) < d then n / d
  else if d < 2 * (n % d) then n / d + 1
  else if (n / d) % 2 = 0 then n / d else n / d + 1

/-- The integer `l` with `2 ^ l ≤ n / d < 2 ^ (l + 1)`, for positive `n` and `d`. -/
def floorLog2 (n d : Nat) : Int :=
  let l : Int := (Nat.log2 n : Int) - (Nat.log2 d : Int)
  if d * 2 ^ l.toNat ≤ n * 2 ^ (-l).toNat then l else l - 1

/-- The float64 that an arithmetic operation with exact result `q` returns (IEEE
754 binary64, round to nearest, ties to even): `q` is scaled by the power of two
`e` that leaves 53 significant bits, `e` being at least -1074 (below that the
result is subnormal or 0), the scaled value is rounded to an integer `m`, and the
result is `m * 2 ^ e`, or an infinity when that reaches `2 ^ 1024`. -/
def round (q : ℚ) : F64 :=
  if q = 0 then num 0
  else
    let n := q.num.natAbs
    let d := q.den
    let e : Int := max (floorLog2 n d - 52) (-1074)
    let m := roundHalfEven (n * 2 ^ (-e).toNat) (d * 2 ^ e.toNat)
    if 2 ^ 1024 ≤ m * 2 ^ e.toNat then inf (decide (q < 0))
    else
      num ((if q < 0 then -1 else 1) * ((m * 2 ^ e.toNat : Nat) : ℚ)
        / ((2 ^ (-e).toNat : Nat) : ℚ))

/-- Division `x / y` of float64: the exact quotient of two finite values, rounded
to float64.  A finite `x` divided by zero takes its sign from `x`, the sign of
the zero not being modelled; the collectors divide by positive values only. -/
def div : F64 → F64 → F64
  | nan, _ => nan
  | _, nan => nan
  | num a, num b =>
      if b = 0 then (if a = 0 then nan else inf (decide (a < 0))) else round (a / b)
  | num _, posInf => num 0
  | num _, negInf => num 0
  | posInf, num b => inf (decide (b < 0))
  | negInf, num b => inf (!decide (b < 0))
  | posInf, posInf => nan
  | posInf, negInf => nan
  | negInf, posInf => nan
  | negInf, negInf => nan

/-- Addition `x + y` of float64: the exact sum of two finite values, rounded to
float64. -/
def add : F64 → F64 → F64
  | nan, _ => nan
  | _, nan => nan
  | num a, num b => round (a + b)
  | num _, posInf => posInf
  | num _, negInf => negInf
  | posInf, num _ => posInf
  | negInf, num _ => negInf
  | posInf, posInf => posInf
  | negInf, negInf => negInf
  | posInf, negInf => nan
  | negInf, posInf => nan

end F64

/-- A constant metric as built by `prometheus.MustNewConstMetric`: the fully
qualified name of its descriptor, its value and its label values in the order of
the descriptor's variable labels. -/
structure Metric where
  desc : String
  value : F64
  labels : List String
  deriving DecidableEq

/-- The variable `namespace` of collector.go. -/
def namespace_ : String := "eseries"

/-- Model of `prometheus.BuildFQName` for non-empty parts. -/
def BuildFQName (ns subsystem name : String) : String :=
  ns ++ "_" ++ subsystem ++ "_" ++ name

/-- The descriptor `collectDuration` of collector.go. -/
def collectDuration : String := BuildFQName namespace_ "exporter" "collector_duration_seconds"

/-- The descriptor `collectError` of collector.go. -/
def collectError : String := BuildFQName namespace_ "exporter" "collect_error"

/-- Sum of the values of a list of metrics, starting from 0. -/
def sumValues (ms : List Metric) : F64 :=
  ms.foldl (fun acc m => F64.add acc m.value) (F64.num 0)

/-! ## Go maps -/

/-- The assignment `m[k] = v` on a Go map kept as an association list: an
existing entry for `k` is overwritten in place, a new key is added at the end. -/
def mapSet {α : Type} : List (String × α) → String → α → List (String × α)
  | [], k, v => [(k, v)]
  | (k', v') :: m, k, v => if k' = k then (k, v) :: m else (k', v') :: mapSet m k v

/-- The lookup `v, ok := m[k]` on a Go map. -/
def mapGet {α : Type} : List (String × α) → String → Option α
  | [], _ => none
  | (k', v') :: m, k => if k' = k then some v' else mapGet m k

/-- The keys of a Go map. -/
def mapKeys {α : Type} (m : List (String × α)) : List String := m.map Prod.fst

/-! ## Targets and the fetch helper (collector.go) -/

/-- An outgoing `http.Request` as far as `getRequest` sets it up. -/
structure Request where
  Method : String
  URL : String
  Header : List (String × String)
  BasicAuth : Option (String × String)

/-- An `http.Response`: its status code and what `io.ReadAll(resp.Body)` gives. -/
structure Response where
  StatusCode : Int
  Body : Except String String

/-- The struct `config.Target` as the collectors use it.  `Collectors` is `none`
for a nil slice and `some l` for a non-nil slice, `HttpClient` is the method
`Do` of the configured client, `BaseURL` the text of the base address. -/
structure Target where
  Name : String
  User : String
  Password : String
  BaseURL : String
  Collectors : Option (List String)
  HttpClient : Request → Except String Response

/-- The behaviour of `net/url` that `getRequest` relies on:
`ResolveReference base path` is the text of
`base.ResolveReference(&url.URL{Path: path})`, `PathUnescape` is
`url.PathUnescape`, and `Parse` is the parsing of the address done by
`http.NewRequest`. -/
structure NetLib where
  ResolveReference : String → String → String
  PathUnescape : String → Except String String
  Parse : String → Except String String

/-- Model of `http.NewRequest(method, url, nil)`. -/
def NewRequest (net : NetLib) (method url : String) : Except String Request :=
  match net.Parse url with
  | .error e => .error e
  | .ok u => .ok { Method := method, URL := u, Header := [], BasicAuth := none }

/-- The constant `http.StatusOK`. -/
def StatusOK : Int := 200

/-- Model of `getRequest` (collector.go, lines 74-110): the body on status 200, an
error otherwise. -/
def getRequest (net : NetLib) (target : Target) (path : String) : Except String String :=
  let u := net.ResolveReference target.BaseURL path
  let unescaped :=
    match net.PathUnescape u with
    | .error _ => u
    | .ok s => s
  match NewRequest net "GET" unescaped with
  | .error err => .error err
  | .ok req =>
    let req := { req with Header := mapSet req.Header "Accept" "application/json" }
    let req := { req with BasicAuth := some (target.User, target.Password) }
    match target.HttpClient req with
    | .error err => .error err
    | .ok resp =>
      match resp.Body with
      | .error err => .error err
      | .ok body =>
        if resp.StatusCode ≠ StatusOK then .error body
        else .ok body

/-! ## Drives (drives.go) -/

/-- The variable `driveStatuses` of drives.go. -/
def driveStatuses : List String :=
  [ "optimal",
    "failed",
    "replaced",
    "bypassed",
    "unresponsive",
    "removed",
    "incompatible",
    "dataRelocation",
    "preFailCopy",
    "preFailCopyPending",
    "__UNDEFINED" ]

/-- The struct `DrivePhysicalLocation`. -/
structure DrivePhysicalLocation where
  Slot : Int
  TrayRef : String
  deriving DecidableEq

/-- The struct `Drive`.  `TrayID` and `Slot` carry no JSON tag; they hold whatever
the decoder left in them until `Collect` assigns them. -/
structure Drive where
  ID : String
  Status : String
  PhysicalLocation : DrivePhysicalLocation
  TrayID : String
  Slot : String
  deriving DecidableEq

/-- Modelled from the spec: the struct `Tray` is declared in a file of the
package that is not among the sources; drives.go uses its fields `TrayRef` (a
string, the key of the tray map) and `ID` (an int, the value of the tray map). -/
structure Tray where
  TrayRef : String
  ID : Int
  deriving DecidableEq

/-- The struct `DrivesInventory`. -/
structure DrivesInventory where
  Drives : List Drive
  Trays : List Tray
  deriving DecidableEq

/-- Model of `strconv.Itoa`. -/
def Itoa (n : Int) : String := toString n

/-- The descriptor `c.Status` built by `NewDrivesExporter`. -/
def driveStatusDesc : String := BuildFQName namespace_ "drive" "status"

/-- The tray map built by the first loop of `DrivesCollector.Collect`. -/
def trayMap (trays : List Tray) : List (String × Int) :=
  trays.foldl (fun m t => mapSet m t.TrayRef t.ID) []

/-- The drive after the two assignments at the head of the drive loop: `TrayID`
is set when the tray map knows the drive's `trayRef`, `Slot` is always set. -/
def resolveDrive (trays : List (String × Int)) (d : Drive) : Drive :=
  let d :=
    match mapGet trays d.PhysicalLocation.TrayRef with
    | some trayId => { d with TrayID := Itoa trayId }
    | none => d
  { d with Slot := Itoa d.PhysicalLocation.Slot }

/-- The duplicate-detection key `fmt.Sprintf("%s-%s", d.TrayID, d.Slot)`. -/
def driveKey (d : Drive) : String := d.TrayID ++ "-" ++ d.Slot

/-- The metrics sent for one drive that is not skipped: one series per entry of
`driveStatuses`, then the "unknown" series (drives.go, lines 99-110). -/
def driveSeries (orbit : Char → Char → Bool) (d : Drive) : List Metric :=
  driveStatuses.map (fun driveStatus =>
      { desc := driveStatusDesc
        value := if driveStatus = d.Status then F64.num 1 else F64.num 0
        labels := [d.TrayID, d.Slot, driveStatus] }) ++
    [ { desc := driveStatusDesc
        value := if !sliceContains orbit driveStatuses d.Status then F64.num 1 else F64.num 0
        labels := [d.TrayID, d.Slot, "unknown"] } ]

/-- The variables the drive loop of `Collect` updates: the keys seen, the error
flag and the metrics sent so far. -/
structure DriveLoop where
  ids : List String
  errorMetric : Int
  ch : List Metric
  deriving DecidableEq

/-- One iteration of the drive loop of `DrivesCollector.Collect` (lines 87-111). -/
def driveStep (orbit : Char → Char → Bool) (trays : List (String × Int))
    (st : DriveLoop) (d : Drive) : DriveLoop :=
  let d := resolveDrive trays d
  let id := driveKey d
  if sliceContains orbit st.ids id then
    { st with errorMetric := 1 }
  else
    { ids := st.ids ++ [id]
      errorMetric := st.errorMetric
      ch := st.ch ++ driveSeries orbit d }

/-- Model of `DrivesCollector.collect` (lines 117-131); `unmarshal body` is the
inventory `json.Unmarshal` leaves behind together with its error, if any. -/
def DrivesCollector.collect (net : NetLib)
    (unmarshal : String → DrivesInventory × Option String) (target : Target) :
    DrivesInventory × Option String :=
  match getRequest net target
      ("/devmgr/v2/storage-systems/" ++ target.Name ++ "/hardware-inventory") with
  | .error err => ({ Drives := [], Trays := [] }, some err)
  | .ok body =>
    match unmarshal body with
    | (metrics, some err) => (metrics, some err)
    | (metrics, none) =>
      if metrics.Drives.length = 0 then (metrics, some "No drives returned")
      else (metrics, none)

/-- Model of `DrivesCollector.Collect` (lines 72-115); `dur` is the value of
`time.Since(collectTime).Seconds()`. -/
def DrivesCollector.Collect (orbit : Char → Char → Bool) (net : NetLib)
    (unmarshal : String → DrivesInventory × Option String) (target : Target)
    (dur : F64) : List Metric :=
  let (metrics, err) := DrivesCollector.collect net unmarshal target
  let errorMetric : Int := if err.isSome then 1 else 0
  let trays := trayMap metrics.Trays
  let st := metrics.Drives.foldl (driveStep orbit trays)
    { ids := [], errorMetric := errorMetric, ch := [] }
  st.ch ++
    [ { desc := collectError, value := F64.num st.errorMetric, labels := ["drives"] },
      { desc := collectDuration, value := dur, labels := ["drives"] } ]

/-! ## Storage systems (storage-systems.go) -/

/-- The variable `storageSystemsStatuses` of storage-systems.go. -/
def storageSystemsStatuses : List String :=
  [ "neverContacted",
    "offline",
    "optimal",
    "needsAttn",
    "removed",
    "newDevice",
    "lockDown" ]

/-- The struct `StorageSystem`. -/
structure StorageSystem where
  ID : String
  Status : String
  deriving DecidableEq

/-- The descriptor `c.Status` built by `NewStorageSystemsExporter`. -/
def storageSystemStatusDesc : String := BuildFQName namespace_ "storage_system" "status"

/-- The status metrics sent on a successful fetch: one series per entry of
`storageSystemsStatuses`, then the "unknown" series (lines 65-76). -/
def storageSystemSeries (orbit : Char → Char → Bool) (metric : StorageSystem) : List Metric :=
  storageSystemsStatuses.map (fun status =>
      { desc := storageSystemStatusDesc
        value := if status = metric.Status then F64.num 1 else F64.num 0
        labels := [status] }) ++
    [ { desc := storageSystemStatusDesc
        value :=
          if !sliceContains orbit storageSystemsStatuses metric.Status then F64.num 1
          else F64.num 0
        labels := ["unknown"] } ]

/-- Model of `StorageSystemsCollector.collect` (lines 82-96). -/
def StorageSystemsCollector.collect (net : NetLib)
    (unmarshal : String → StorageSystem × Option String) (target : Target) :
    StorageSystem × Option String :=
  match getRequest net target ("/devmgr/v2/storage-systems/" ++ target.Name) with
  | .error err => ({ ID := "", Status := "" }, some err)
  | .ok body =>
    match unmarshal body with
    | (metrics, some err) => (metrics, some err)
    | (metrics, none) =>
      if metrics.ID = "" then (metrics, some "Not storage systems returned")
      else (metrics, none)

/-- Model of `StorageSystemsCollector.Collect` (lines 54-80). -/
def StorageSystemsCollector.Collect (orbit : Char → Char → Bool) (net : NetLib)
    (unmarshal : String → StorageSystem × Option String) (target : Target)
    (dur : F64) : List Metric :=
  let (metric, err) := StorageSystemsCollector.collect net unmarshal target
  let errorMetric : Int := if err.isSome then 1 else 0
  (if err.isNone then storageSystemSeries orbit metric else []) ++
    [ { desc := collectError, value := F64.num errorMetric, labels := ["storage-systems"] },
      { desc := collectDuration, value := dur, labels := ["storage-systems"] } ]

/-! ## Storage pools (storage-pools.go) -/

/-- The struct `StoragePool`. -/
structure StoragePool where
  ID : String
  Name : String
  Label : String
  TotalRaidedSpace : String
  UsedSpace : String
  FreeSpace : String
  RaidLevel : String
  RaidStatus : String
  State : String
  DiskPool : Bool
  Offline : Bool
  deriving DecidableEq

/-- The seven metrics sent for one pool (storage-pools.go, lines 107-188);
`ParseFloat str` is the value `strconv.ParseFloat(str, 64)` returns together with
its error, if any, and the error is dropped as in the source. -/
def poolSeries (ParseFloat : String → F64 × Option String) (pool : StoragePool) : List Metric :=
  let poolType := if pool.DiskPool then "disk_pool" else "volume_group"
  let totalCapacity := (ParseFloat pool.TotalRaidedSpace).1
  let usedCapacity := (ParseFloat pool.UsedSpace).1
  let freeCapacity := (ParseFloat pool.FreeSpace).1
  let utilizationRatio :=
    if totalCapacity.gtZero then F64.div usedCapacity totalCapacity else F64.num 0
  let statusValue := if pool.RaidStatus = "optimal" then F64.num 1 else F64.num 0
  let stateValue := if pool.State = "complete" then F64.num 1 else F64.num 0
  let offlineValue := if pool.Offline then F64.num 1 else F64.num 0
  [ { desc := BuildFQName namespace_ "pool" "capacity_bytes"
      value := totalCapacity
      labels := [pool.Label, pool.RaidLevel, pool.RaidStatus, poolType] },
    { desc := BuildFQName namespace_ "pool" "used_bytes"
      value := usedCapacity
      labels := [pool.Label, pool.RaidLevel, pool.RaidStatus] },
    { desc := BuildFQName namespace_ "pool" "free_bytes"
      value := freeCapacity
      labels := [pool.Label, pool.RaidLevel, pool.RaidStatus] },
    { desc := BuildFQName namespace_ "pool" "utilization_ratio"
      value := utilizationRatio
      labels := [pool.Label, pool.RaidLevel] },
    { desc := BuildFQName namespace_ "pool" "status"
      value := statusValue
      labels := [pool.Label, pool.RaidLevel, pool.RaidStatus] },
    { desc := BuildFQName namespace_ "pool" "state"
      value := stateValue
      labels := [pool.Label, pool.RaidLevel, pool.State] },
    { desc := BuildFQName namespace_ "pool" "offline"
      value := offlineValue
      labels := [pool.Label, pool.RaidLevel] } ]

/-- Model of `StoragePoolsCollector.collectStoragePools` (lines 192-204). -/
def StoragePoolsCollector.collectStoragePools (net : NetLib)
    (unmarshal : String → List StoragePool × Option String) (target : Target) :
    Except String (List StoragePool) :=
  match getRequest net target
      ("/devmgr/v2/storage-systems/" ++ target.Name ++ "/storage-pools") with
  | .error err => .error err
  | .ok poolsBody =>
    match unmarshal poolsBody with
    | (_, some err) => .error ("failed to unmarshal storage pools: " ++ err)
    | (pools, none) => .ok pools

/-- Model of `StoragePoolsCollector.Collect` (lines 100-190). -/
def StoragePoolsCollector.Collect (net : NetLib)
    (unmarshal : String → List StoragePool × Option String)
    (ParseFloat : String → F64 × Option String) (target : Target) : List Metric :=
  match StoragePoolsCollector.collectStoragePools net unmarshal target with
  | .error _ => []
  | .ok pools => pools.foldl (fun ch pool => ch ++ poolSeries ParseFloat pool) []

/-! ## Volumes (volumes.go) -/

/-- The struct `VolumeMapping`. -/
structure VolumeMapping where
  ID : String
  deriving DecidableEq

/-- The struct `Volume`. -/
structure Volume where
  ID : String
  Name : String
  Label : String
  Capacity : String
  TotalSizeInBytes : String
  Status : String
  ThinProvisioned : Bool
  ListOfMappings : List VolumeMapping
  VolumeGroupRef : String
  DiskPool : Bool
  Offline : Bool
  Mapped : Bool
  RaidLevel : String
  VolumeUse : String
  deriving DecidableEq

/-- Model of `VolumesCollector.getPoolLabel` (lines 191-196). -/
def VolumesCollector.getPoolLabel (poolRef : String) : String :=
  if poolRef = "" then "unknown" else poolRef

/-- The six metrics sent for one volume (volumes.go, lines 107-174). -/
def volumeSeries (ParseFloat : String → F64 × Option String) (volume : Volume) : List Metric :=
  let poolLabel := VolumesCollector.getPoolLabel volume.VolumeGroupRef
  let capacity := (ParseFloat volume.TotalSizeInBytes).1
  let statusValue := if volume.Status = "optimal" then F64.num 1 else F64.num 0
  let mappedValue := if volume.Mapped then F64.num 1 else F64.num 0
  let thinValue := if volume.ThinProvisioned then F64.num 1 else F64.num 0
  let offlineValue := if volume.Offline then F64.num 1 else F64.num 0
  [ { desc := BuildFQName namespace_ "volume" "capacity_bytes"
      value := capacity
      labels := [volume.Label, poolLabel, volume.Status, volume.RaidLevel, volume.VolumeUse] },
    { desc := BuildFQName namespace_ "volume" "status"
      value := statusValue
      labels := [volume.Label, poolLabel, volume.Status] },
    { desc := BuildFQName namespace_ "volume" "mapped"
      value := mappedValue
      labels := [volume.Label, poolLabel] },
    { desc := BuildFQName namespace_ "volume" "mappings_total"
      value := F64.num (volume.ListOfMappings.length : ℕ)
      labels := [volume.Label, poolLabel] },
    { desc := BuildFQName namespace_ "volume" "thin_provisioned"
      value := thinValue
      labels := [volume.Label, poolLabel] },
    { desc := BuildFQName namespace_ "volume" "offline"
      value := offlineValue
      labels := [volume.Label, poolLabel] } ]

/-- Model of `VolumesCollector.collectVolumes` (lines 177-189). -/
def VolumesCollector.collectVolumes (net : NetLib)
    (unmarshal : String → List Volume × Option String) (target : Target) :
    Except String (List Volume) :=
  match getRequest net target
      ("/devmgr/v2/storage-systems/" ++ target.Name ++ "/volumes") with
  | .error err => .error err
  | .ok volumesBody =>
    match unmarshal volumesBody with
    | (_, some err) => .error ("failed to unmarshal volumes: " ++ err)
    | (volumes, none) => .ok volumes

/-- Model of `VolumesCollector.Collect` (lines 100-175). -/
def VolumesCollector.Collect (net : NetLib)
    (unmarshal : String → List Volume × Option String)
    (ParseFloat : String → F64 × Option String) (target : Target) : List Metric :=
  match VolumesCollector.collectVolumes net unmarshal target with
  | .error _ => []
  | .ok volumes => volumes.foldl (fun ch volume => ch ++ volumeSeries ParseFloat volume) []

/-! ## The collector registry (collector.go) -/

/-- The two package-level maps `collectorState` and `factories`; `κ` is the type
of collector instances and a factory builds one from a target. -/
structure Registry (κ : Type) where
  collectorState : List (String × Bool)
  factories : List (String × (Target → κ))

/-- The registry before any `init` function has run: both maps empty. -/
def Registry.empty (κ : Type) : Registry κ := { collectorState := [], factories := [] }

/-- Model of `registerCollector` (lines 41-44). -/
def registerCollector {κ : Type} (reg : Registry κ) (collector : String)
    (isDefaultEnabled : Bool) (factory : Target → κ) : Registry κ :=
  { collectorState := mapSet reg.collectorState collector isDefaultEnabled
    factories := mapSet reg.factories collector factory }

/-- The registry after a sequence of `registerCollector` calls, first call first. -/
def registerAll {κ : Type} (calls : List (String × Bool × (Target → κ))) : Registry κ :=
  calls.foldl (fun reg c => registerCollector reg c.1 c.2.1 c.2.2) (Registry.empty κ)

/-- The test `enable` of `NewCollector` (lines 49-54) for one registry entry. -/
def collectorEnabled (orbit : Char → Char → Bool) (target : Target) (key : String)
    (enabled : Bool) : Bool :=
  if target.Collectors.isNone && enabled then true
  else if sliceContains orbit (target.Collectors.getD []) key then true
  else false

/-- The loop of `NewCollector` over the entries of `collectorState`.  The result
is `none` when an enabled key has no factory: calling the nil function panics. -/
def newCollectorLoop {κ : Type} (orbit : Char → Char → Bool)
    (factories : List (String × (Target → κ))) (target : Target) :
    List (String × Bool) → List (String × κ) → Option (List (String × κ))
  | [], collectors => some collectors
  | (key, enabled) :: rest, collectors =>
    if collectorEnabled orbit target key enabled then
      match mapGet factories key with
      | none => none
      | some factory =>
        newCollectorLoop orbit factories target rest (mapSet collectors key (factory target))
    else newCollectorLoop orbit factories target rest collectors

/-- Model of `NewCollector` (lines 46-63): the map `Collectors` of the returned
`EseriesCollector`. -/
def NewCollector {κ : Type} (orbit : Char → Char → Bool) (reg : Registry κ)
    (target : Target) : Option (List (String × κ)) :=
  newCollectorLoop orbit reg.factories target reg.collectorState []

/-! ## Reading metric lists -/

/-- The values of the series of `ms` that carry exactly the label values `labels`,
in sending order. -/
def valuesAt (ms : List Metric) (labels : List String) : List F64 :=
  (ms.filter (fun m => decide (m.labels = labels))).map (fun m => m.value)

/-! ## Sample data -/

/-- A drive record with status "failed" whose tray label is "0" and whose slot
label is "53", the labels of the first drive in `TestDrivesCollector`. -/
def failedDrive : Drive :=
  { ID := "d53", Status := "failed", PhysicalLocation := { Slot := 53, TrayRef := "tray0" },
    TrayID := "0", Slot := "53" }

/-- A fold walk that never links two runes: `strings.EqualFold` restricted to
exact matches and ASCII letter case. -/
def asciiOrbit : Char → Char → Bool := fun _ _ => false

/-- The four registrations made by the `init` functions of drives.go,
storage-systems.go, storage-pools.go and volumes.go; a collector instance is
represented by the name of the factory that built it. -/
def sourceCalls : List (String × Bool × (Target → String)) :=
  [ ("drives", true, fun _ => "NewDrivesExporter"),
    ("storage-systems", true, fun _ => "NewStorageSystemsExporter"),
    ("storage-pools", false, fun _ => "NewStoragePoolsExporter"),
    ("volumes", false, fun _ => "NewVolumesExporter") ]

/-- A sample `net/url`: references resolve by concatenation, every address
unescapes to itself and parses. -/
def plainNet : NetLib :=
  { ResolveReference := fun base path => base ++ path
    PathUnescape := fun s => .ok s
    Parse := fun s => .ok s }

/-- A target named "test" with the given enabled-collector list whose backend
answers every request with the given status code and body. -/
def testTarget (collectors : Option (List String)) (code : Int) (body : String) : Target :=
  { Name := "test", User := "test", Password := "test", BaseURL := "http://localhost",
    Collectors := collectors,
    HttpClient := fun _ => .ok { StatusCode := code, Body := .ok body } }

/-- A target whose backend answers 200 with an undecodable body on the volumes
path and 404 on every other path. -/
def mixedTarget : Target :=
  { Name := "test", User := "test", Password := "test", BaseURL := "http://localhost",
    Collectors := none,
    HttpClient := fun req =>
      if req.URL = "http://localhost/devmgr/v2/storage-systems/test/volumes" then
        .ok { StatusCode := 200, Body := .ok "<html>" }
      else .ok { StatusCode := 404, Body := .ok "error" } }

/-- The drive at tray reference "tray0", slot 58, status "optimal". -/
def optimalDrive : Drive :=
  { ID := "d58", Status := "optimal", PhysicalLocation := { Slot := 58, TrayRef := "tray0" },
    TrayID := "", Slot := "" }

/-- A second record for slot 53 of the same tray, as decoded (labels not yet set). -/
def repeatedDrive : Drive :=
  { ID := "d53b", Status := "optimal", PhysicalLocation := { Slot := 53, TrayRef := "tray0" },
    TrayID := "", Slot := "" }

/-- The tray with reference "tray0" and id 0. -/
def tray0 : Tray := { TrayRef := "tray0", ID := 0 }

/-- A decoder that returns the given value without error for every body. -/
def decodeTo {α : Type} (a : α) : String → α × Option String := fun _ => (a, none)

/-- A decoder that fails on every body, leaving the given value behind. -/
def decodeFail {α : Type} (a : α) : String → α × Option String :=
  fun _ => (a, some "invalid character")

/-- A `strconv.ParseFloat` that rejects every string, returning 0 and an error. -/
def parseNothing : String → F64 × Option String := fun _ => (F64.num 0, some "invalid syntax")

/-! ## Descriptors and their variable labels -/

/-- The descriptors built by `NewStoragePoolsExporter` (storage-pools.go, lines
52-86): fully qualified name and variable label names, in declaration order. -/
def poolDescs : List (String × List String) :=
  [ (BuildFQName namespace_ "pool" "capacity_bytes", ["pool", "raid_level", "status", "type"]),
    (BuildFQName namespace_ "pool" "used_bytes", ["pool", "raid_level", "status"]),
    (BuildFQName namespace_ "pool" "free_bytes", ["pool", "raid_level", "status"]),
    (BuildFQName namespace_ "pool" "utilization_ratio", ["pool", "raid_level"]),
    (BuildFQName namespace_ "pool" "status", ["pool", "raid_level", "status"]),
    (BuildFQName namespace_ "pool" "state", ["pool", "raid_level", "state"]),
    (BuildFQName namespace_ "pool" "offline", ["pool", "raid_level"]) ]

/-- The value a metric carries for the variable label `name` of its descriptor,
the descriptors being given with their label names; `none` when the descriptor is
not listed or has no such label. -/
def labelOf (descs : List (String × List String)) (m : Metric) (name : String) :
    Option String :=
  match mapGet descs m.desc with
  | none => none
  | some names => mapGet (names.zip m.labels) name

/-- The series of `ms` whose descriptor has the fully qualified name `desc`, in
sending order. -/
def seriesAt (ms : List Metric) (desc : String) : List Metric :=
  ms.filter (fun m => decide (m.desc = desc))

/-- The duplicate-detection keys of a list of drives, in input order, as the
drive loop computes them against the given trays. -/
def driveKeys (trays : List Tray) (drives : List Drive) : List String :=
  drives.map (fun d => driveKey (resolveDrive (trayMap trays) d))

/-- The address `getRequest` hands to `http.NewRequest` (collector.go, lines
75-85): the resolved address, percent-unescaped when unescaping succeeds. -/
def requestURL (net : NetLib) (target : Target) (path : String) : String :=
  match net.PathUnescape (net.ResolveReference target.BaseURL path) with
  | .error _ => net.ResolveReference target.BaseURL path
  | .ok s => s

/-! ## More sample data -/

/-- The number written by a non-empty string of decimal digits. -/
def parseDigits (cs : List Char) : Option Nat :=
  if cs = [] then none
  else cs.foldl (fun acc c =>
    match acc with
    | some n => if c.isDigit then some (10 * n + (c.toNat - 48)) else none
    | none => none) (some 0)

/-- A `strconv.ParseFloat` for the sample data.  It agrees with the library on the
strings the samples use: a string of decimal digits parses to that number,
"1e400" is out of the float64 range and gives +Inf together with an error, "NaN"
gives NaN without error, and "" and "abc" are rejected with value 0.  Every other
string is rejected here with value 0, which the samples never rely on. -/
def sampleParseFloat (s : String) : F64 × Option String :=
  if s = "1e400" then (F64.posInf, some "value out of range")
  else if s = "NaN" then (F64.nan, none)
  else
    match parseDigits s.data with
    | some n => (F64.num n, none)
    | none => (F64.num 0, some "invalid syntax")

/-- A disk pool in optimal state whose capacity is fully used. -/
def pool1 : StoragePool :=
  { ID := "p1", Name := "Pool_1", Label := "Pool_1", TotalRaidedSpace := "100",
    UsedSpace := "100", FreeSpace := "0", RaidLevel := "raidDiskPool",
    RaidStatus := "optimal", State := "complete", DiskPool := true, Offline := false }

/-- A degraded volume group with 60 of 100 used. -/
def pool2 : StoragePool :=
  { ID := "p2", Name := "Pool_2", Label := "Pool_2", TotalRaidedSpace := "100",
    UsedSpace := "60", FreeSpace := "40", RaidLevel := "raid5",
    RaidStatus := "degraded", State := "reconstructing", DiskPool := false, Offline := false }

/-- A pool that reports more used space than total capacity. -/
def overfullPool : StoragePool := { pool2 with UsedSpace := "200" }

/-- A pool whose total capacity is a number beyond the float64 range. -/
def hugePool : StoragePool := { pool2 with TotalRaidedSpace := "1e400" }

/-- A pool whose three capacity strings are not numbers. -/
def garbledPool : StoragePool :=
  { pool2 with TotalRaidedSpace := "abc", UsedSpace := "", FreeSpace := "abc" }

/-- A standard volume with one host mapping. -/
def volume1 : Volume :=
  { ID := "v1", Name := "Volume_1", Label := "Volume_1", Capacity := "100",
    TotalSizeInBytes := "100", Status := "optimal", ThinProvisioned := false,
    ListOfMappings := [{ ID := "m1" }], VolumeGroupRef := "0400", DiskPool := true,
    Offline := false, Mapped := true, RaidLevel := "raid6", VolumeUse := "standardVolume" }

/-- A thin volume without host mapping. -/
def volume2 : Volume :=
  { volume1 with
    ID := "v2"
    Name := "Volume_2"
    Label := "Volume_2"
    ThinProvisioned := true
    ListOfMappings := []
    Mapped := false
    VolumeUse := "thinVolume" }

/-- A failed, offline volume without host mapping and without pool reference. -/
def volume3 : Volume :=
  { volume1 with
    ID := "v3"
    Name := "Volume_3"
    Label := "Volume_3"
    Status := "failed"
    ListOfMappings := []
    Mapped := false
    Offline := true
    VolumeGroupRef := "" }

/-! ## The request `getRequest` sends -/

/-- What `getRequest` does once it has chosen the address `addr` to request
(collector.go, lines 85-110): build the GET request for `addr`, set the Accept
header and the basic authentication, hand it to the client and read the answer. -/
def requestTo (net : NetLib) (target : Target) (addr : String) : Except String String :=
  match NewRequest net "GET" addr with
  | .error err => .error err
  | .ok req =>
    let req := { req with Header := mapSet req.Header "Accept" "application/json" }
    let req := { req with BasicAuth := some (target.User, target.Password) }
    match target.HttpClient req with
    | .error err => .error err
    | .ok resp =>
      match resp.Body with
      | .error err => .error err
      | .ok body =>
        if resp.StatusCode ≠ StatusOK then .error body
        else .ok body

/-- A sample `net/url` that agrees with the library on the addresses used below.
Resolving the path "/a?b" (resp. a path with a line feed, the path "/a%zz")
against a base escapes the "?" as "%3F" (resp. the line feed as "%0A", the "%" as
"%25"); unescaping turns them back; an address with a line feed or with "%zz",
which is no escape, is refused by the parser of `http.NewRequest`. -/
def escapingNet : NetLib :=
  { ResolveReference := fun base path =>
      if path = "/a?b" then base ++ "/a%3Fb"
      else if path = "/a\nb" then base ++ "/a%0Ab"
      else if path = "/a%zz" then base ++ "/a%25zz"
      else base ++ path
    PathUnescape := fun s =>
      if s = "http://localhost/a%3Fb" then .ok "http://localhost/a?b"
      else if s = "http://localhost/a%0Ab" then .ok "http://localhost/a\nb"
      else if s = "http://localhost/a%25zz" then .ok "http://localhost/a%zz"
      else .ok s
    Parse := fun s =>
      if s = "http://localhost/a\nb" then
        .error "parse \"http://localhost/a\\nb\": net/url: invalid control character in URL"
      else if s = "http://localhost/a%zz" then
        .error "parse \"http://localhost/a%zz\": invalid URL escape \"%zz\""
      else .ok s }

/-- A URL library whose unescaping refuses every string; it drives `getRequest`
through its fallback branch. -/
def refusingNet : NetLib :=
  { ResolveReference := fun base path => base ++ path
    PathUnescape := fun _ => .error "invalid URL escape"
    Parse := fun s => .ok s }

/-- A target whose backend answers every request with status 200 and, as body,
the address it was asked for. -/
def echoTarget : Target :=
  { Name := "test", User := "test", Password := "test", BaseURL := "http://localhost",
    Collectors := none,
    HttpClient := fun req => .ok { StatusCode := 200, Body := .ok req.URL } }

/-! ## The scrape handler (cmd/eseries_exporter/main.go) -/

/-- Modelled from the spec: the struct `config.Module` is declared in a package
that is not among the sources; these are the fields `metricsHandler` reads.
`Collectors` is `none` for a nil slice. -/
structure Module where
  User : String
  Password : String
  ProxyURL : String
  Collectors : Option (List String)
  Timeout : Int
  RootCA : String
  InsecureSSL : Bool

/-- Modelled from the spec: the struct `config.Config` is declared in a package
that is not among the sources; `metricsHandler` reads its map `Modules`. -/
structure Config where
  Modules : List (String × Module)

/-- A parsed address as `metricsHandler` uses it: its text and its scheme. -/
structure ParsedURL where
  text : String
  Scheme : String

/-- The `tls.Config` built by `metricsHandler`: the `InsecureSkipVerify` flag and
the certificates of the root pool. -/
structure TLSConfig where
  InsecureSkipVerify : Bool
  RootCAs : List String

/-- The library and the operating system as `metricsHandler` relies on them:
`Parse` is `url.Parse`, `SystemCertPool` is `x509.SystemCertPool`, `ReadFile` is
`os.ReadFile`, `AppendCertsFromPEM pool pem` is the pool after
`pool.AppendCertsFromPEM(pem)`, and `Client timeout tls` is the method `Do` of an
`http.Client` with that timeout and, when `tls` is given, a transport with that
TLS configuration. -/
structure HandlerLib where
  Parse : String → Except String ParsedURL
  SystemCertPool : Except String (List String)
  ReadFile : String → Except String String
  AppendCertsFromPEM : List String → String → List String
  Client : Int → Option TLSConfig → Request → Except String Response

/-- What `metricsHandler` does with a request: it answers through `http.Error`
with a status code and a message, or it builds the collector set of a target and
hands the request to the exposition handler, or the call of a nil factory
panics. -/
inductive Outcome (κ : Type) where
  | httpError (code : Int) (msg : String)
  | scrape (target : Target) (collectors : List (String × κ))
  | panic

/-- The method `Get` of `url.Values`: the first value stored under the key, or
the empty string. -/
def queryGet (query : List (String × List String)) (key : String) : String :=
  match mapGet query key with
  | some (v :: _) => v
  | _ => ""

/-- The constant `http.StatusBadRequest`. -/
def StatusBadRequest : Int := 400

/-- The constant `http.StatusNotFound`. -/
def StatusNotFound : Int := 404

/-- Model of the handler returned by `metricsHandler` (main.go, lines 29-105);
`query` is `r.URL.Query()`.  The field `ProxyURL` of the target, which no
collector reads, is left out, and `BaseURL` is the text of the parsed address. -/
def metricsHandler {κ : Type} (orbit : Char → Char → Bool) (lib : HandlerLib)
    (reg : Registry κ) (c : Config) (query : List (String × List String)) : Outcome κ :=
  let t := queryGet query "target"
  if t = "" then
    .httpError StatusBadRequest "'target' parameter must be specified"
  else
    let m := queryGet query "module"
    let m := if m = "" then "default" else m
    match mapGet c.Modules m with
    | none => .httpError StatusNotFound ("Unknown module " ++ m)
    | some module =>
      match lib.Parse module.ProxyURL with
      | .error _ => .httpError StatusNotFound ("Unable to parse ProxyURL " ++ module.ProxyURL)
      | .ok proxyURL =>
        let build : Option TLSConfig → Outcome κ := fun tls =>
          let target : Target :=
            { Name := t, User := module.User, Password := module.Password,
              BaseURL := proxyURL.text, Collectors := module.Collectors,
              HttpClient := lib.Client module.Timeout tls }
          match NewCollector orbit reg target with
          | none => .panic
          | some collectors => .scrape target collectors
        if proxyURL.Scheme = "https" then
          let rootCAs :=
            match lib.SystemCertPool with
            | .error _ => []
            | .ok pool => pool
          if module.RootCA ≠ "" then
            match lib.ReadFile module.RootCA with
            | .error _ => .httpError StatusBadRequest "Error loading root CA"
            | .ok certs =>
              build (some { InsecureSkipVerify := module.InsecureSSL,
                            RootCAs := lib.AppendCertsFromPEM rootCAs certs })
          else
            build (some { InsecureSkipVerify := module.InsecureSSL, RootCAs := rootCAs })
        else build none

/-- A sample library for the handler: every address parses with scheme "http",
the system pool is empty, no file can be read, and every client answers 200 with
an empty body. -/
def plainHandlerLib : HandlerLib :=
  { Parse := fun s => .ok { text := s, Scheme := "http" }
    SystemCertPool := .ok []
    ReadFile := fun _ => .error "no such file"
    AppendCertsFromPEM := fun pool pem => pool ++ [pem]
    Client := fun _ _ _ => .ok { StatusCode := 200, Body := .ok "" } }

/-- The configuration of `SetupServer` in the test of the handler, as far as the
module names go: the modules "default", "ssl" and "ssl-error". -/
def testConfig : Config :=
  { Modules :=
      [ ("default", { User := "test", Password := "test", ProxyURL := "http://127.0.0.1:1",
                      Collectors := some ["drives"], Timeout := 0, RootCA := "",
                      InsecureSSL := false }),
        ("ssl", { User := "test", Password := "test", ProxyURL := "https://127.0.0.1:2",
                  Collectors := some ["drives"], Timeout := 0,
                  RootCA := "../../internal/collectors/testdata/rootCA.crt",
                  InsecureSSL := true }),
        ("ssl-error", { User := "test", Password := "test", ProxyURL := "https://127.0.0.1:2",
                        Collectors := some ["drives"], Timeout := 0, RootCA := "/dne",
                        InsecureSSL := true }) ] }

/-- The status code of an outcome that answers through `http.Error`. -/
def Outcome.errorCode {κ : Type} : Outcome κ → Option Int
  | .httpError code _ => some code
  | _ => none

/-! ## Decimal texts -/

/-- A decimal digit, by its code point. -/
def isDig (c : Char) : Prop := 48 ≤ c.toNat ∧ c.toNat ≤ 57

/-- A non-empty list of decimal digits. -/
def IsNum (cs : List Char) : Prop := cs ≠ [] ∧ ∀ c ∈ cs, isDig c

/-- The characters of the text `strconv.Itoa` can return: a number, or a minus
sign followed by a number. -/
def IsSigned (cs : List Char) : Prop := IsNum cs ∨ ∃ ds, IsNum ds ∧ cs = '-' :: ds

/-- The number a list of decimal digits writes. -/
def digitsValue (cs : List Char) : Nat :=
  cs.foldl (fun a c => 10 * a + (c.toNat - 48)) 0

/-! ## Removing repeated drive keys, after the specification -/

/-- The (tray, slot) key of a drive record: its tray label and its slot label as
the drive loop assigns them. -/
def traySlot (trays : List Tray) (d : Drive) : String × String :=
  ((resolveDrive (trayMap trays) d).TrayID, (resolveDrive (trayMap trays) d).Slot)

/-- The drive list with every record removed whose (tray, slot) key is among
`earlier` or occurred earlier in the list; `earlier` collects the key of every
record passed, kept or not. -/
def dropRepeatedFrom (trays : List Tray) : List (String × String) → List Drive → List Drive
  | _, [] => []
  | earlier, d :: rest =>
    if traySlot trays d ∈ earlier then
      dropRepeatedFrom trays (earlier ++ [traySlot trays d]) rest
    else d :: dropRepeatedFrom trays (earlier ++ [traySlot trays d]) rest

/-- The drive list with every record whose (tray, slot) key occurred earlier in
the list removed: the first record of a key is kept, every later one is dropped. -/
def dropRepeated (trays : List Tray) (drives : List Drive) : List Drive :=
  dropRepeatedFrom trays [] drives

/-- A drive at slot 53 whose tray reference names no tray and whose record came
out of the decoder with "7" in the untagged field `TrayID`. -/
def strayDrive : Drive :=
  { ID := "d7", Status := "optimal", PhysicalLocation := { Slot := 53, TrayRef := "gone" },
    TrayID := "7", Slot := "" }

/-- A drive at slot 53 whose tray reference names no tray and whose record carries
no tray label. -/
def lostDrive : Drive :=
  { ID := "d8", Status := "optimal", PhysicalLocation := { Slot := 53, TrayRef := "lost" },
    TrayID := "", Slot := "" }

/-- Another drive at slot 53 with a different unknown tray reference and no tray
label. -/
def lostDrive2 : Drive :=
  { ID := "d9", Status := "failed", PhysicalLocation := { Slot := 53, TrayRef := "nowhere" },
    TrayID := "", Slot := "" }


/-- A drive at slot 1 whose tray reference names no tray and whose record carries
the tray label "A". -/
def upperDrive : Drive :=
  { ID := "dA", Status := "optimal", PhysicalLocation := { Slot := 1, TrayRef := "refA" },
    TrayID := "A", Slot := "" }

/-- A drive at slot 1 whose tray reference names no tray and whose record carries
the tray label "a". -/
def lowerDrive : Drive :=
  { ID := "da", Status := "failed", PhysicalLocation := { Slot := 1, TrayRef := "refa" },
    TrayID := "a", Slot := "" }

/-- A drive at slot 2 whose tray reference names no tray and whose record carries
the tray label "1-". -/
def dashDrive : Drive :=
  { ID := "d1", Status := "optimal", PhysicalLocation := { Slot := 2, TrayRef := "ref1" },
    TrayID := "1-", Slot := "" }

/-- A drive at slot -2 whose tray reference names no tray and whose record carries
the tray label "1". -/
def minusDrive : Drive :=
  { ID := "d2", Status := "failed", PhysicalLocation := { Slot := -2, TrayRef := "ref2" },
    TrayID := "1", Slot := "" }
/-! # Theorems

All definitions are above this line. -/

/-! ## Basic facts about EqualFold and sliceContains -/

theorem foldRune_self (orbit : Char → Char → Bool) (c : Char) : foldRune orbit c c = true := by
  simp [foldRune]

theorem equalFoldRunes_self (orbit : Char → Char → Bool) (s : List Char) :
    equalFoldRunes orbit s s = true := by
  induction s with
  | nil => rfl
  | cons c s ih => simp [equalFoldRunes, foldRune_self, ih]

theorem EqualFold_self (orbit : Char → Char → Bool) (s : String) : EqualFold orbit s s = true :=
  equalFoldRunes_self orbit s.data

theorem sliceContains_iff (orbit : Char → Char → Bool) (slice : List String) (str : String) :
    sliceContains orbit slice str = true ↔ ∃ s ∈ slice, EqualFold orbit s str = true := by
  induction slice with
  | nil => simp [sliceContains]
  | cons a slice ih =>
    by_cases h : EqualFold orbit a str = true
    · simp [sliceContains, h]
    · simp [sliceContains, h, ih]

theorem sliceContains_of_mem (orbit : Char → Char → Bool) (slice : List String) (str : String)
    (h : str ∈ slice) : sliceContains orbit slice str = true :=
  (sliceContains_iff orbit slice str).2 ⟨str, h, EqualFold_self orbit str⟩

theorem sliceContains_append_left (orbit : Char → Char → Bool) (l r : List String) (str : String)
    (h : sliceContains orbit l str = true) : sliceContains orbit (l ++ r) str = true := by
  obtain ⟨s, hs, he⟩ := (sliceContains_iff orbit l str).1 h
  exact (sliceContains_iff orbit (l ++ r) str).2 ⟨s, List.mem_append_left r hs, he⟩

/-! ## One-hot status encoding (C1, C2 and C4) -/

theorem add_zero_zero : F64.add (F64.num 0) (F64.num 0) = F64.num 0 := by
  simp [F64.add, F64.round]

/-- C1, evaluated where it fails: for the status "OPTIMAL", which differs from the
enumerated "optimal" in letter case only, the eleven enumerated drive series and
the "unknown" series of a drive sum to 0, and so do the seven enumerated series
and the "unknown" series of a storage system; the sum is not 1.  A whole scrape
of one such drive, and of such a storage system, sends every status series with
value 0 and reports no error. -/
theorem status_sum_zero_on_case_variant (orbit : Char → Char → Bool) (id : String)
    (loc : DrivePhysicalLocation) (tray slot sysId : String) (dur : F64) :
    sumValues (driveSeries orbit
        { ID := id, Status := "OPTIMAL", PhysicalLocation := loc, TrayID := tray, Slot := slot })
      = F64.num 0 ∧
    sumValues (storageSystemSeries orbit { ID := sysId, Status := "OPTIMAL" }) = F64.num 0 ∧
    DrivesCollector.Collect orbit plainNet
        (decodeTo { Drives := [{ failedDrive with Status := "OPTIMAL" }], Trays := [tray0] })
        (testTarget none 200 "{}") dur =
      (driveStatuses ++ ["unknown"]).map (fun s =>
        { desc := driveStatusDesc, value := F64.num 0, labels := ["0", "53", s] }) ++
      [ { desc := collectError, value := F64.num 0, labels := ["drives"] },
        { desc := collectDuration, value := dur, labels := ["drives"] } ] ∧
    StorageSystemsCollector.Collect orbit plainNet
        (decodeTo { ID := "1", Status := "OPTIMAL" }) (testTarget none 200 "{}") dur =
      (storageSystemsStatuses ++ ["unknown"]).map (fun s =>
        { desc := storageSystemStatusDesc, value := F64.num 0, labels := [s] }) ++
      [ { desc := collectError, value := F64.num 0, labels := ["storage-systems"] },
        { desc := collectDuration, value := dur, labels := ["storage-systems"] } ] := by
  have hd : sliceContains orbit driveStatuses "OPTIMAL" = true := by rfl
  have hs : sliceContains orbit storageSystemsStatuses "OPTIMAL" = true := by rfl
  refine ⟨?_, ?_, by rfl, by rfl⟩
  · simp [sumValues, driveSeries, hd, add_zero_zero]
    simp [driveStatuses, add_zero_zero]
  · simp [sumValues, storageSystemSeries, hs, add_zero_zero]
    simp [storageSystemsStatuses, add_zero_zero]

/-- C2, evaluated where it fails: "OPTIMAL" is a member of neither enumeration, yet
the "unknown" series of a drive and of a storage system with that status has
value 0, because the membership test behind it folds letter case; the same holds
in a whole scrape of one such drive and of such a storage system. -/
theorem unknown_zero_on_case_variant (orbit : Char → Char → Bool) (id : String)
    (loc : DrivePhysicalLocation) (tray slot sysId : String) (dur : F64) :
    "OPTIMAL" ∉ driveStatuses ∧
    valuesAt (driveSeries orbit
        { ID := id, Status := "OPTIMAL", PhysicalLocation := loc, TrayID := tray, Slot := slot })
      [tray, slot, "unknown"] = [F64.num 0] ∧
    "OPTIMAL" ∉ storageSystemsStatuses ∧
    valuesAt (storageSystemSeries orbit { ID := sysId, Status := "OPTIMAL" }) ["unknown"]
      = [F64.num 0] ∧
    valuesAt (DrivesCollector.Collect orbit plainNet
        (decodeTo { Drives := [{ failedDrive with Status := "OPTIMAL" }], Trays := [tray0] })
        (testTarget none 200 "{}") dur) ["0", "53", "unknown"] = [F64.num 0] ∧
    valuesAt (StorageSystemsCollector.Collect orbit plainNet
        (decodeTo { ID := "1", Status := "OPTIMAL" }) (testTarget none 200 "{}") dur)
      ["unknown"] = [F64.num 0] := by
  have hd : sliceContains orbit driveStatuses "OPTIMAL" = true := by rfl
  have hs : sliceContains orbit storageSystemsStatuses "OPTIMAL" = true := by rfl
  refine ⟨by decide, ?_, by decide, ?_, by rfl, by rfl⟩
  · simp [valuesAt, driveSeries, hd, List.filter_cons]
    simp [driveStatuses]
  · simp [valuesAt, storageSystemSeries, hs, List.filter_cons]
    simp [storageSystemsStatuses]

/-- C4: "__UNDEFINED" is a member of the drive enumeration; a drive whose status
is "__UNDEFINED" has exactly one "__UNDEFINED" series, valued 1, and its "unknown"
series is valued 0; a drive whose status is no member of the enumeration has its
"__UNDEFINED" series valued 0. -/
theorem undefined_is_ordinary_member (orbit : Char → Char → Bool) (d e : Drive)
    (hd : d.Status = "__UNDEFINED") (he : e.Status ∉ driveStatuses) :
    "__UNDEFINED" ∈ driveStatuses ∧
    valuesAt (driveSeries orbit d) [d.TrayID, d.Slot, "__UNDEFINED"] = [F64.num 1] ∧
    valuesAt (driveSeries orbit d) [d.TrayID, d.Slot, "unknown"] = [F64.num 0] ∧
    valuesAt (driveSeries orbit e) [e.TrayID, e.Slot, "__UNDEFINED"] = [F64.num 0] := by
  have hd1 : sliceContains orbit driveStatuses d.Status = true :=
    sliceContains_of_mem orbit _ _ (by rw [hd]; decide)
  have he1 : ¬ ("__UNDEFINED" = e.Status) := by
    intro h
    apply he
    rw [← h]
    decide
  refine ⟨by decide, ?_, ?_, ?_⟩
  · simp [valuesAt, driveSeries, hd1, List.filter_cons]
    simp [driveStatuses, hd]
  · simp [valuesAt, driveSeries, hd1, List.filter_cons]
    simp [driveStatuses, hd]
  · simp [valuesAt, driveSeries, List.filter_cons]
    simp [driveStatuses, he1]

/-- Witness of C4 at a drive with status "__UNDEFINED" and a drive with the
status "spare", which the enumeration does not list. -/
theorem undefined_is_ordinary_member_witness :
    ({ failedDrive with Status := "__UNDEFINED" } : Drive).Status = "__UNDEFINED" ∧
    ({ failedDrive with Status := "spare" } : Drive).Status ∉ driveStatuses ∧
    ("__UNDEFINED" ∈ driveStatuses ∧
    valuesAt (driveSeries asciiOrbit { failedDrive with Status := "__UNDEFINED" })
      ["0", "53", "__UNDEFINED"] = [F64.num 1] ∧
    valuesAt (driveSeries asciiOrbit { failedDrive with Status := "__UNDEFINED" })
      ["0", "53", "unknown"] = [F64.num 0] ∧
    valuesAt (driveSeries asciiOrbit { failedDrive with Status := "spare" })
      ["0", "53", "__UNDEFINED"] = [F64.num 0]) :=
  ⟨rfl, by decide,
    undefined_is_ordinary_member asciiOrbit { failedDrive with Status := "__UNDEFINED" }
      { failedDrive with Status := "spare" } rfl (by decide)⟩

/-! ## Facts about Go maps -/

theorem mem_mapKeys_mapSet {α : Type} (m : List (String × α)) (k : String) (v : α) (x : String) :
    x ∈ mapKeys (mapSet m k v) ↔ x ∈ mapKeys m ∨ x = k := by
  induction m with
  | nil => simp [mapSet, mapKeys]
  | cons p m ih =>
    obtain ⟨a, b⟩ := p
    by_cases h : a = k
    · subst h
      simp only [mapSet, if_true, mapKeys, List.map_cons, List.mem_cons]
      tauto
    · simp only [mapSet, h, if_false]
      simp only [mapKeys, List.map_cons, List.mem_cons] at ih ⊢
      rw [ih]
      tauto

theorem mapSet_of_not_mem {α : Type} (m : List (String × α)) (k : String) (v : α)
    (h : k ∉ mapKeys m) : mapSet m k v = m ++ [(k, v)] := by
  induction m with
  | nil => rfl
  | cons p m ih =>
    obtain ⟨a, b⟩ := p
    simp only [mapKeys, List.map_cons, List.mem_cons, not_or] at h
    have hne : ¬ a = k := fun e => h.1 e.symm
    simp only [mapSet, hne, if_false, List.cons_append]
    rw [ih h.2]

theorem mapGet_isSome_of_mem {α : Type} (m : List (String × α)) (k : String)
    (h : k ∈ mapKeys m) : ∃ v, mapGet m k = some v := by
  induction m with
  | nil => simp [mapKeys] at h
  | cons p m ih =>
    obtain ⟨a, b⟩ := p
    by_cases hk : a = k
    · exact ⟨b, by simp [mapGet, hk]⟩
    · simp only [mapKeys, List.map_cons, List.mem_cons] at h
      rcases h with h | h
      · exact absurd h.symm hk
      · obtain ⟨v, hv⟩ := ih h
        exact ⟨v, by simp [mapGet, hk, hv]⟩

/-! ## Facts about the registry -/

theorem registerAll_fold_keys {κ : Type} (calls : List (String × Bool × (Target → κ)))
    (reg : Registry κ) (x : String) :
    (x ∈ mapKeys (calls.foldl (fun reg c => registerCollector reg c.1 c.2.1 c.2.2) reg).collectorState
      ↔ x ∈ mapKeys reg.collectorState ∨ x ∈ calls.map (fun c => c.1)) ∧
    (x ∈ mapKeys (calls.foldl (fun reg c => registerCollector reg c.1 c.2.1 c.2.2) reg).factories
      ↔ x ∈ mapKeys reg.factories ∨ x ∈ calls.map (fun c => c.1)) := by
  induction calls generalizing reg with
  | nil => simp only [List.foldl_nil, List.map_nil, List.not_mem_nil, or_false, and_self]
  | cons c calls ih =>
    simp only [List.foldl_cons, List.map_cons, List.mem_cons]
    rw [(ih _).1, (ih _).2]
    simp only [registerCollector, mem_mapKeys_mapSet]
    constructor <;> tauto

theorem registerAll_state_keys {κ : Type} (calls : List (String × Bool × (Target → κ)))
    (x : String) :
    x ∈ mapKeys (registerAll calls).collectorState ↔ x ∈ calls.map (fun c => c.1) := by
  have h := (registerAll_fold_keys calls (Registry.empty κ) x).1
  simp only [Registry.empty, mapKeys, List.map_nil, List.not_mem_nil, false_or] at h
  exact h

theorem registerAll_factory_keys {κ : Type} (calls : List (String × Bool × (Target → κ)))
    (x : String) :
    x ∈ mapKeys (registerAll calls).factories ↔ x ∈ calls.map (fun c => c.1) := by
  have h := (registerAll_fold_keys calls (Registry.empty κ) x).2
  simp only [Registry.empty, mapKeys, List.map_nil, List.not_mem_nil, false_or] at h
  exact h

theorem registerAll_fold_nodup {κ : Type} (calls : List (String × Bool × (Target → κ)))
    (reg : Registry κ) (hnd : (calls.map (fun c => c.1)).Nodup)
    (hdis : ∀ x ∈ calls.map (fun c => c.1), x ∉ mapKeys reg.collectorState) :
    (calls.foldl (fun reg c => registerCollector reg c.1 c.2.1 c.2.2) reg).collectorState
      = reg.collectorState ++ calls.map (fun c => (c.1, c.2.1)) := by
  induction calls generalizing reg with
  | nil => simp
  | cons c calls ih =>
    simp only [List.map_cons, List.nodup_cons] at hnd
    simp only [List.foldl_cons, List.map_cons]
    have hc : c.1 ∉ mapKeys reg.collectorState := hdis c.1 (List.mem_cons_self _ _)
    rw [ih _ hnd.2]
    · simp [registerCollector, mapSet_of_not_mem _ _ _ hc]
    · intro x hx
      simp only [registerCollector, mem_mapKeys_mapSet, not_or]
      refine ⟨hdis x (List.mem_cons_of_mem _ hx), ?_⟩
      intro e
      subst e
      exact hnd.1 hx

theorem registerAll_state_of_nodup {κ : Type} (calls : List (String × Bool × (Target → κ)))
    (hnd : (calls.map (fun c => c.1)).Nodup) :
    (registerAll calls).collectorState = calls.map (fun c => (c.1, c.2.1)) := by
  have h := registerAll_fold_nodup calls (Registry.empty κ) hnd
    (fun x _ hx => by simp only [Registry.empty, mapKeys, List.map_nil, List.not_mem_nil] at hx)
  simp only [Registry.empty, List.nil_append] at h
  exact h

theorem newCollectorLoop_spec {κ : Type} (orbit : Char → Char → Bool)
    (factories : List (String × (Target → κ))) (target : Target)
    (entries : List (String × Bool)) (acc : List (String × κ))
    (hf : ∀ p ∈ entries, p.1 ∈ mapKeys factories) :
    ∃ m, newCollectorLoop orbit factories target entries acc = some m ∧
      ∀ k, k ∈ mapKeys m ↔
        k ∈ mapKeys acc ∨ ∃ en, (k, en) ∈ entries ∧ collectorEnabled orbit target k en = true := by
  induction entries generalizing acc with
  | nil => exact ⟨acc, rfl, by simp⟩
  | cons p entries ih =>
    obtain ⟨key, enabled⟩ := p
    have hf2 : ∀ p ∈ entries, p.1 ∈ mapKeys factories := fun p hp => hf p (by simp [hp])
    by_cases he : collectorEnabled orbit target key enabled = true
    · obtain ⟨factory, hfac⟩ := mapGet_isSome_of_mem factories key (hf (key, enabled) (by simp))
      obtain ⟨m, hm, hk⟩ := ih (mapSet acc key (factory target)) hf2
      refine ⟨m, by simp [newCollectorLoop, he, hfac, hm], ?_⟩
      intro k
      rw [hk k, mem_mapKeys_mapSet]
      constructor
      · rintro ((h | h) | ⟨en, h1, h2⟩)
        · exact Or.inl h
        · exact Or.inr ⟨enabled, by simp [h], by rw [h]; exact he⟩
        · exact Or.inr ⟨en, by simp [h1], h2⟩
      · rintro (h | ⟨en, h1, h2⟩)
        · exact Or.inl (Or.inl h)
        · simp only [List.mem_cons, Prod.mk.injEq] at h1
          rcases h1 with ⟨h1, _⟩ | h1
          · exact Or.inl (Or.inr h1)
          · exact Or.inr ⟨en, h1, h2⟩
    · obtain ⟨m, hm, hk⟩ := ih acc hf2
      refine ⟨m, by simp [newCollectorLoop, he, hm], ?_⟩
      intro k
      rw [hk k]
      constructor
      · rintro (h | ⟨en, h1, h2⟩)
        · exact Or.inl h
        · exact Or.inr ⟨en, by simp [h1], h2⟩
      · rintro (h | ⟨en, h1, h2⟩)
        · exact Or.inl h
        · simp only [List.mem_cons, Prod.mk.injEq] at h1
          rcases h1 with ⟨h1, h3⟩ | h1
          · subst h1 h3
            exact absurd h2 he
          · exact Or.inr ⟨en, h1, h2⟩

theorem NewCollector_spec {κ : Type} (orbit : Char → Char → Bool)
    (calls : List (String × Bool × (Target → κ))) (target : Target) :
    ∃ m, NewCollector orbit (registerAll calls) target = some m ∧
      ∀ k, k ∈ mapKeys m ↔
        ∃ en, (k, en) ∈ (registerAll calls).collectorState ∧
          collectorEnabled orbit target k en = true := by
  have hf : ∀ p ∈ (registerAll calls).collectorState,
      p.1 ∈ mapKeys (registerAll calls).factories := by
    intro p hp
    rw [registerAll_factory_keys, ← registerAll_state_keys]
    exact List.mem_map_of_mem Prod.fst hp
  obtain ⟨m, hm, hk⟩ :=
    newCollectorLoop_spec orbit (registerAll calls).factories target
      (registerAll calls).collectorState [] hf
  exact ⟨m, hm, fun k => by simpa [mapKeys] using hk k⟩

/-! ## Selection of collectors (C5 to C7) -/

theorem collectorEnabled_nil (orbit : Char → Char → Bool) (target : Target) (key : String)
    (enabled : Bool) (h : target.Collectors = none) :
    collectorEnabled orbit target key enabled = enabled := by
  cases enabled <;> simp [collectorEnabled, h, sliceContains]

theorem collectorEnabled_some (orbit : Char → Char → Bool) (target : Target) (key : String)
    (enabled : Bool) (l : List String) (h : target.Collectors = some l) :
    collectorEnabled orbit target key enabled = sliceContains orbit l key := by
  cases hs : sliceContains orbit l key <;> simp [collectorEnabled, h, hs]

/-- C5: with a nil enabled-collector list and pairwise distinct registered names,
`NewCollector` returns a map whose keys are exactly the names registered with
default-enabled flag true, and registering the same entries in any other order
gives a map with the same keys. -/
theorem NewCollector_nil_selects_defaults {κ : Type} (orbit : Char → Char → Bool)
    (calls calls2 : List (String × Bool × (Target → κ))) (target : Target)
    (hnil : target.Collectors = none)
    (hnd : (calls.map (fun c => c.1)).Nodup)
    (hperm : calls2.Perm calls) :
    ∃ m m2, NewCollector orbit (registerAll calls) target = some m ∧
      NewCollector orbit (registerAll calls2) target = some m2 ∧
      (∀ k, k ∈ mapKeys m ↔ ∃ f, (k, true, f) ∈ calls) ∧
      (∀ k, k ∈ mapKeys m2 ↔ k ∈ mapKeys m) := by
  have key : ∀ (cs : List (String × Bool × (Target → κ))), (cs.map (fun c => c.1)).Nodup →
      ∃ m, NewCollector orbit (registerAll cs) target = some m ∧
        ∀ k, k ∈ mapKeys m ↔ ∃ f, (k, true, f) ∈ cs := by
    intro cs hcs
    obtain ⟨m, hm, hk⟩ := NewCollector_spec orbit cs target
    refine ⟨m, hm, fun k => ?_⟩
    rw [hk k, registerAll_state_of_nodup cs hcs]
    constructor
    · rintro ⟨en, hmem, hen⟩
      rw [collectorEnabled_nil orbit target k en hnil] at hen
      subst hen
      obtain ⟨c, hc, hce⟩ := List.mem_map.1 hmem
      obtain ⟨n, b, f⟩ := c
      simp only [Prod.mk.injEq] at hce
      obtain ⟨h1, h2⟩ := hce
      subst h1 h2
      exact ⟨f, hc⟩
    · rintro ⟨f, hf⟩
      refine ⟨true, List.mem_map.2 ⟨(k, true, f), hf, rfl⟩, ?_⟩
      rw [collectorEnabled_nil orbit target k true hnil]
  have hnd2 : (calls2.map (fun c => c.1)).Nodup :=
    ((hperm.map (fun c => c.1)).nodup_iff).2 hnd
  obtain ⟨m, hm, hk⟩ := key calls hnd
  obtain ⟨m2, hm2, hk2⟩ := key calls2 hnd2
  refine ⟨m, m2, hm, hm2, hk, fun k => ?_⟩
  rw [hk k, hk2 k]
  constructor
  · rintro ⟨f, hf⟩
    exact ⟨f, hperm.mem_iff.1 hf⟩
  · rintro ⟨f, hf⟩
    exact ⟨f, hperm.mem_iff.2 hf⟩

/-- Witness of C5 at the four registrations of the sources and their reverse. -/
theorem NewCollector_nil_selects_defaults_witness :
    (testTarget none 200 "").Collectors = none ∧
    (sourceCalls.map (fun c => c.1)).Nodup ∧
    sourceCalls.reverse.Perm sourceCalls ∧
    ∃ m m2, NewCollector asciiOrbit (registerAll sourceCalls) (testTarget none 200 "") = some m ∧
      NewCollector asciiOrbit (registerAll sourceCalls.reverse) (testTarget none 200 "")
        = some m2 ∧
      (∀ k, k ∈ mapKeys m ↔ ∃ f, (k, true, f) ∈ sourceCalls) ∧
      (∀ k, k ∈ mapKeys m2 ↔ k ∈ mapKeys m) :=
  ⟨rfl, by decide, List.reverse_perm sourceCalls,
    NewCollector_nil_selects_defaults asciiOrbit sourceCalls sourceCalls.reverse
      (testTarget none 200 "") rfl (by decide) (List.reverse_perm sourceCalls)⟩

/-- C6 as stated fails: with the registrations of the sources, where "drives" is
registered default-enabled, a present but empty list selects no collector at all,
while the absent list selects "drives" and "storage-systems". -/
theorem NewCollector_empty_list_counterexample :
    ("drives", true) ∈ (registerAll sourceCalls).collectorState ∧
    NewCollector asciiOrbit (registerAll sourceCalls) (testTarget (some []) 200 "") = some [] ∧
    NewCollector asciiOrbit (registerAll sourceCalls) (testTarget none 200 "")
      = some [("drives", "NewDrivesExporter"),
          ("storage-systems", "NewStorageSystemsExporter")] := by
  refine ⟨by decide, by rfl, by rfl⟩

theorem newCollectorLoop_none_enabled {κ : Type} (orbit : Char → Char → Bool)
    (factories : List (String × (Target → κ))) (target : Target)
    (entries : List (String × Bool)) (acc : List (String × κ))
    (h : ∀ p ∈ entries, collectorEnabled orbit target p.1 p.2 = false) :
    newCollectorLoop orbit factories target entries acc = some acc := by
  induction entries with
  | nil => rfl
  | cons p entries ih =>
    obtain ⟨key, enabled⟩ := p
    have h1 : collectorEnabled orbit target key enabled = false :=
      h (key, enabled) (List.mem_cons_self _ _)
    simp only [newCollectorLoop, h1]
    exact ih (fun p hp => h p (List.mem_cons_of_mem _ hp))

/-- C6 as amended: for every registry, a present but empty enabled-collector list
makes `NewCollector` return the empty map; no collector is selected. -/
theorem NewCollector_empty_list_selects_none {κ : Type} (orbit : Char → Char → Bool)
    (reg : Registry κ) (target : Target) (hempty : target.Collectors = some []) :
    NewCollector orbit reg target = some [] := by
  apply newCollectorLoop_none_enabled
  intro p _
  rw [collectorEnabled_some orbit target p.1 p.2 [] hempty]
  rfl

/-- Witness of the amended C6 at the registrations of the sources. -/
theorem NewCollector_empty_list_selects_none_witness :
    (testTarget (some []) 200 "").Collectors = some [] ∧
    NewCollector asciiOrbit (registerAll sourceCalls) (testTarget (some []) 200 "") = some [] :=
  ⟨rfl, NewCollector_empty_list_selects_none asciiOrbit (registerAll sourceCalls)
    (testTarget (some []) 200 "") rfl⟩

/-- C7: with a present enabled-collector list `l`, in particular a non-empty one,
`NewCollector` returns a map whose keys are exactly the registered names that are
`EqualFold` to some entry of `l`; the default-enabled flag plays no part, so a
listed name registered with flag false is a key and an unlisted name registered
with flag true is not. -/
theorem NewCollector_listed_iff {κ : Type} (orbit : Char → Char → Bool)
    (calls : List (String × Bool × (Target → κ))) (target : Target) (l : List String)
    (hl : target.Collectors = some l) :
    ∃ m, NewCollector orbit (registerAll calls) target = some m ∧
      (∀ k, k ∈ mapKeys m ↔
        (k ∈ calls.map (fun c => c.1) ∧ ∃ s ∈ l, EqualFold orbit s k = true)) ∧
      (∀ k f, (k, false, f) ∈ calls → (∃ s ∈ l, EqualFold orbit s k = true) → k ∈ mapKeys m) ∧
      (∀ k f, (k, true, f) ∈ calls → (¬ ∃ s ∈ l, EqualFold orbit s k = true) →
        k ∉ mapKeys m) := by
  obtain ⟨m, hm, hk⟩ := NewCollector_spec orbit calls target
  have hiff : ∀ k, k ∈ mapKeys m ↔
      (k ∈ calls.map (fun c => c.1) ∧ ∃ s ∈ l, EqualFold orbit s k = true) := by
    intro k
    rw [hk k, ← registerAll_state_keys calls k, ← sliceContains_iff]
    constructor
    · rintro ⟨en, hmem, hen⟩
      rw [collectorEnabled_some orbit target k en l hl] at hen
      exact ⟨List.mem_map.2 ⟨(k, en), hmem, rfl⟩, hen⟩
    · rintro ⟨hmem, hs⟩
      obtain ⟨p, hp, hpk⟩ := List.mem_map.1 hmem
      obtain ⟨a, en⟩ := p
      simp only at hpk
      subst hpk
      exact ⟨en, hp, by rw [collectorEnabled_some orbit target a en l hl]; exact hs⟩
  refine ⟨m, hm, hiff, ?_, ?_⟩
  · intro k f hf hs
    exact (hiff k).2 ⟨List.mem_map.2 ⟨(k, false, f), hf, rfl⟩, hs⟩
  · intro k f _ hs hmem
    exact hs ((hiff k).1 hmem).2

/-- Witness of C7 at the registrations of the sources and the list ["Volumes"]. -/
theorem NewCollector_listed_iff_witness :
    (testTarget (some ["Volumes"]) 200 "").Collectors = some ["Volumes"] ∧
    ∃ m, NewCollector asciiOrbit (registerAll sourceCalls)
        (testTarget (some ["Volumes"]) 200 "") = some m ∧
      (∀ k, k ∈ mapKeys m ↔
        (k ∈ sourceCalls.map (fun c => c.1) ∧
          ∃ s ∈ ["Volumes"], EqualFold asciiOrbit s k = true)) ∧
      (∀ k f, (k, false, f) ∈ sourceCalls →
        (∃ s ∈ ["Volumes"], EqualFold asciiOrbit s k = true) → k ∈ mapKeys m) ∧
      (∀ k f, (k, true, f) ∈ sourceCalls →
        (¬ ∃ s ∈ ["Volumes"], EqualFold asciiOrbit s k = true) → k ∉ mapKeys m) :=
  ⟨rfl, NewCollector_listed_iff asciiOrbit sourceCalls (testTarget (some ["Volumes"]) 200 "")
    ["Volumes"] rfl⟩

/-! ## The drive loop and duplicate keys (C8) -/

theorem driveStep_emits (orbit : Char → Char → Bool) (trays : List (String × Int))
    (st : DriveLoop) (d : Drive)
    (h : sliceContains orbit st.ids (driveKey (resolveDrive trays d)) = false) :
    (driveStep orbit trays st d).ch = st.ch ++ driveSeries orbit (resolveDrive trays d) ∧
    (driveStep orbit trays st d).errorMetric = st.errorMetric := by
  simp [driveStep, h]

theorem driveStep_skips (orbit : Char → Char → Bool) (trays : List (String × Int))
    (st : DriveLoop) (d : Drive)
    (h : sliceContains orbit st.ids (driveKey (resolveDrive trays d)) = true) :
    driveStep orbit trays st d = { st with errorMetric := 1 } := by
  simp [driveStep, h]

theorem driveStep_ids_mono (orbit : Char → Char → Bool) (trays : List (String × Int))
    (st : DriveLoop) (d : Drive) (k : String) (h : sliceContains orbit st.ids k = true) :
    sliceContains orbit (driveStep orbit trays st d).ids k = true := by
  unfold driveStep
  by_cases hc : sliceContains orbit st.ids (driveKey (resolveDrive trays d)) = true
  · simpa [hc] using h
  · simpa [hc] using sliceContains_append_left orbit st.ids _ k h

theorem driveStep_ids_self (orbit : Char → Char → Bool) (trays : List (String × Int))
    (st : DriveLoop) (d : Drive) :
    sliceContains orbit (driveStep orbit trays st d).ids (driveKey (resolveDrive trays d))
      = true := by
  unfold driveStep
  by_cases hc : sliceContains orbit st.ids (driveKey (resolveDrive trays d)) = true
  · simp only [hc, if_true]
  · simp only [hc]
    exact sliceContains_of_mem orbit _ _ (by simp)

theorem driveLoop_ids_mono (orbit : Char → Char → Bool) (trays : List (String × Int))
    (L : List Drive) (st : DriveLoop) (k : String) (h : sliceContains orbit st.ids k = true) :
    sliceContains orbit (L.foldl (driveStep orbit trays) st).ids k = true := by
  induction L generalizing st with
  | nil => exact h
  | cons x L ih => exact ih _ (driveStep_ids_mono orbit trays st x k h)

theorem driveLoop_ids_seen (orbit : Char → Char → Bool) (trays : List (String × Int))
    (L : List Drive) (st : DriveLoop) (x : Drive) (hx : x ∈ L) :
    sliceContains orbit (L.foldl (driveStep orbit trays) st).ids
      (driveKey (resolveDrive trays x)) = true := by
  induction L generalizing st with
  | nil => simp at hx
  | cons y L ih =>
    rcases List.mem_cons.1 hx with h | h
    · subst h
      exact driveLoop_ids_mono orbit trays L _ _ (driveStep_ids_self orbit trays st x)
    · exact ih _ h

theorem driveLoop_error_irrelevant (orbit : Char → Char → Bool) (trays : List (String × Int))
    (L : List Drive) (st st2 : DriveLoop) (hids : st.ids = st2.ids) (hch : st.ch = st2.ch) :
    (L.foldl (driveStep orbit trays) st).ids = (L.foldl (driveStep orbit trays) st2).ids ∧
    (L.foldl (driveStep orbit trays) st).ch = (L.foldl (driveStep orbit trays) st2).ch := by
  induction L generalizing st st2 with
  | nil => exact ⟨hids, hch⟩
  | cons x L ih =>
    apply ih
    · unfold driveStep
      rw [hids]
      by_cases hc : sliceContains orbit st2.ids (driveKey (resolveDrive trays x)) = true
      · simp [hc, hids]
      · simp [hc]
    · unfold driveStep
      rw [hids]
      by_cases hc : sliceContains orbit st2.ids (driveKey (resolveDrive trays x)) = true
      · simp [hc, hch]
      · simp [hc, hch]

/-- C8: when `collect` returns the drive list `L` in one scrape and `L` followed
by `d` in another, with the same trays, and the key of `d` is the key of some
drive of `L`, then both scrapes send the same series before the two trailing
gauges, hence equally many series in all, and the scrape with `d` sends the
error gauge with value 1. -/
theorem duplicate_drive_adds_no_series (orbit : Char → Char → Bool) (net : NetLib)
    (unmarshal unmarshal2 : String → DrivesInventory × Option String) (target : Target)
    (dur dur2 : F64) (L : List Drive) (d : Drive) (trays : List Tray) (e e2 : Option String)
    (hL : DrivesCollector.collect net unmarshal target = ({ Drives := L, Trays := trays }, e))
    (hLd : DrivesCollector.collect net unmarshal2 target
      = ({ Drives := L ++ [d], Trays := trays }, e2))
    (hdup : ∃ x ∈ L, driveKey (resolveDrive (trayMap trays) x)
      = driveKey (resolveDrive (trayMap trays) d)) :
    (DrivesCollector.Collect orbit net unmarshal2 target dur2).length
      = (DrivesCollector.Collect orbit net unmarshal target dur).length ∧
    ∃ ch errorMetric,
      DrivesCollector.Collect orbit net unmarshal target dur = ch ++
        [ { desc := collectError, value := errorMetric, labels := ["drives"] },
          { desc := collectDuration, value := dur, labels := ["drives"] } ] ∧
      DrivesCollector.Collect orbit net unmarshal2 target dur2 = ch ++
        [ { desc := collectError, value := F64.num 1, labels := ["drives"] },
          { desc := collectDuration, value := dur2, labels := ["drives"] } ] := by
  obtain ⟨x, hx, hkey⟩ := hdup
  have hseen := driveLoop_ids_seen orbit (trayMap trays) L
    { ids := [], errorMetric := if e2.isSome then 1 else 0, ch := [] } x hx
  rw [hkey] at hseen
  have hirr := driveLoop_error_irrelevant orbit (trayMap trays) L
    { ids := [], errorMetric := if e2.isSome then 1 else 0, ch := [] }
    { ids := [], errorMetric := if e.isSome then 1 else 0, ch := [] } rfl rfl
  have h2 : DrivesCollector.Collect orbit net unmarshal2 target dur2 =
      (L.foldl (driveStep orbit (trayMap trays))
        { ids := [], errorMetric := if e.isSome then 1 else 0, ch := [] }).ch ++
        [ { desc := collectError, value := F64.num 1, labels := ["drives"] },
          { desc := collectDuration, value := dur2, labels := ["drives"] } ] := by
    simp only [DrivesCollector.Collect, hLd, List.foldl_append, List.foldl_cons, List.foldl_nil]
    rw [← hirr.2]
    simp [driveStep, hseen]
  have h1 : DrivesCollector.Collect orbit net unmarshal target dur =
      (L.foldl (driveStep orbit (trayMap trays))
        { ids := [], errorMetric := if e.isSome then 1 else 0, ch := [] }).ch ++
        [ { desc := collectError
            value := F64.num (L.foldl (driveStep orbit (trayMap trays))
              { ids := [], errorMetric := if e.isSome then 1 else 0, ch := [] }).errorMetric
            labels := ["drives"] },
          { desc := collectDuration, value := dur, labels := ["drives"] } ] := by
    simp only [DrivesCollector.Collect, hL]
  refine ⟨?_, _, _, h1, h2⟩
  rw [h1, h2]
  simp

/-- Witness of C8: slots 53 and 58 of tray 0, then a second record for slot 53. -/
theorem duplicate_drive_adds_no_series_witness :
    DrivesCollector.collect plainNet
        (decodeTo { Drives := [failedDrive, optimalDrive], Trays := [tray0] })
        (testTarget none 200 "{}")
      = ({ Drives := [failedDrive, optimalDrive], Trays := [tray0] }, none) ∧
    DrivesCollector.collect plainNet
        (decodeTo { Drives := [failedDrive, optimalDrive] ++ [repeatedDrive], Trays := [tray0] })
        (testTarget none 200 "{}")
      = ({ Drives := [failedDrive, optimalDrive] ++ [repeatedDrive], Trays := [tray0] }, none) ∧
    (∃ x ∈ [failedDrive, optimalDrive], driveKey (resolveDrive (trayMap [tray0]) x)
      = driveKey (resolveDrive (trayMap [tray0]) repeatedDrive)) ∧
    ((DrivesCollector.Collect asciiOrbit plainNet
        (decodeTo { Drives := [failedDrive, optimalDrive] ++ [repeatedDrive], Trays := [tray0] })
        (testTarget none 200 "{}") (F64.num 0)).length
      = (DrivesCollector.Collect asciiOrbit plainNet
        (decodeTo { Drives := [failedDrive, optimalDrive], Trays := [tray0] })
        (testTarget none 200 "{}") (F64.num 0)).length ∧
    ∃ ch errorMetric,
      DrivesCollector.Collect asciiOrbit plainNet
        (decodeTo { Drives := [failedDrive, optimalDrive], Trays := [tray0] })
        (testTarget none 200 "{}") (F64.num 0) = ch ++
        [ { desc := collectError, value := errorMetric, labels := ["drives"] },
          { desc := collectDuration, value := F64.num 0, labels := ["drives"] } ] ∧
      DrivesCollector.Collect asciiOrbit plainNet
        (decodeTo { Drives := [failedDrive, optimalDrive] ++ [repeatedDrive], Trays := [tray0] })
        (testTarget none 200 "{}") (F64.num 0) = ch ++
        [ { desc := collectError, value := F64.num 1, labels := ["drives"] },
          { desc := collectDuration, value := F64.num 0, labels := ["drives"] } ]) :=
  ⟨by rfl, by rfl, ⟨failedDrive, by simp, by rfl⟩,
    duplicate_drive_adds_no_series asciiOrbit plainNet _ _ (testTarget none 200 "{}")
      (F64.num 0) (F64.num 0) [failedDrive, optimalDrive] repeatedDrive [tray0] none none
      (by rfl) (by rfl) ⟨failedDrive, by simp, by rfl⟩⟩

/-! ## Failed fetches (C9 and C10) -/

theorem getRequest_error_of_not_ok (net : NetLib) (target : Target) (path : String)
    (h : ∀ req, ∃ resp, target.HttpClient req = .ok resp ∧ resp.StatusCode ≠ StatusOK) :
    ∃ err, getRequest net target path = .error err := by
  unfold getRequest
  simp only
  split
  · exact ⟨_, rfl⟩
  · rename_i req _
    obtain ⟨resp, hresp, hcode⟩ := h
      { Method := req.Method, URL := req.URL,
        Header := mapSet req.Header "Accept" "application/json",
        BasicAuth := some (target.User, target.Password) }
    rw [hresp]
    simp only
    split
    · exact ⟨_, rfl⟩
    · rw [if_pos hcode]
      exact ⟨_, rfl⟩

/-- C9: when the backend answers every request with a status other than 200, the
Drives collector and the Storage Systems collector each send exactly two series,
the error gauge with value 1 and then the duration gauge, and no status series. -/
theorem fetch_failure_emits_two_series (orbit : Char → Char → Bool) (net : NetLib)
    (unmarshalDrives : String → DrivesInventory × Option String)
    (unmarshalSystem : String → StorageSystem × Option String) (target : Target)
    (dur dur2 : F64)
    (h : ∀ req, ∃ resp, target.HttpClient req = .ok resp ∧ resp.StatusCode ≠ StatusOK) :
    DrivesCollector.Collect orbit net unmarshalDrives target dur =
      [ { desc := collectError, value := F64.num 1, labels := ["drives"] },
        { desc := collectDuration, value := dur, labels := ["drives"] } ] ∧
    StorageSystemsCollector.Collect orbit net unmarshalSystem target dur2 =
      [ { desc := collectError, value := F64.num 1, labels := ["storage-systems"] },
        { desc := collectDuration, value := dur2, labels := ["storage-systems"] } ] := by
  obtain ⟨e1, h1⟩ := getRequest_error_of_not_ok net target
    ("/devmgr/v2/storage-systems/" ++ target.Name ++ "/hardware-inventory") h
  obtain ⟨e2, h2⟩ := getRequest_error_of_not_ok net target
    ("/devmgr/v2/storage-systems/" ++ target.Name) h
  constructor
  · simp [DrivesCollector.Collect, DrivesCollector.collect, h1]
  · simp [StorageSystemsCollector.Collect, StorageSystemsCollector.collect, h2]

/-- Witness of C9 at a backend that answers 404 with body "error". -/
theorem fetch_failure_emits_two_series_witness :
    (∀ req, ∃ resp, (testTarget none 404 "error").HttpClient req = .ok resp ∧
      resp.StatusCode ≠ StatusOK) ∧
    (DrivesCollector.Collect asciiOrbit plainNet
        (decodeTo { Drives := [failedDrive], Trays := [tray0] })
        (testTarget none 404 "error") (F64.num 0) =
      [ { desc := collectError, value := F64.num 1, labels := ["drives"] },
        { desc := collectDuration, value := F64.num 0, labels := ["drives"] } ] ∧
    StorageSystemsCollector.Collect asciiOrbit plainNet
        (decodeTo { ID := "1", Status := "optimal" })
        (testTarget none 404 "error") (F64.num 0) =
      [ { desc := collectError, value := F64.num 1, labels := ["storage-systems"] },
        { desc := collectDuration, value := F64.num 0, labels := ["storage-systems"] } ]) :=
  ⟨fun _ => ⟨_, rfl, by decide⟩,
    fetch_failure_emits_two_series asciiOrbit plainNet _ _ (testTarget none 404 "error")
      (F64.num 0) (F64.num 0) (fun _ => ⟨_, rfl, by decide⟩)⟩

/-- C10: when the fetch fails or the decoder reports an error, for the pools and
for the volumes, the Storage Pools collector and the Volumes collector each send
no series at all. -/
theorem pools_volumes_silent_on_failure (net : NetLib)
    (unmarshalPools : String → List StoragePool × Option String)
    (unmarshalVolumes : String → List Volume × Option String)
    (ParseFloat : String → F64 × Option String) (target : Target)
    (hp : (∃ err, getRequest net target
          ("/devmgr/v2/storage-systems/" ++ target.Name ++ "/storage-pools") = .error err) ∨
      (∃ body pools err, getRequest net target
          ("/devmgr/v2/storage-systems/" ++ target.Name ++ "/storage-pools") = .ok body ∧
        unmarshalPools body = (pools, some err)))
    (hv : (∃ err, getRequest net target
          ("/devmgr/v2/storage-systems/" ++ target.Name ++ "/volumes") = .error err) ∨
      (∃ body volumes err, getRequest net target
          ("/devmgr/v2/storage-systems/" ++ target.Name ++ "/volumes") = .ok body ∧
        unmarshalVolumes body = (volumes, some err))) :
    StoragePoolsCollector.Collect net unmarshalPools ParseFloat target = [] ∧
    VolumesCollector.Collect net unmarshalVolumes ParseFloat target = [] := by
  constructor
  · rcases hp with ⟨err, h⟩ | ⟨body, pools, err, h, hu⟩
    · simp [StoragePoolsCollector.Collect, StoragePoolsCollector.collectStoragePools, h]
    · simp [StoragePoolsCollector.Collect, StoragePoolsCollector.collectStoragePools, h, hu]
  · rcases hv with ⟨err, h⟩ | ⟨body, volumes, err, h, hu⟩
    · simp [VolumesCollector.Collect, VolumesCollector.collectVolumes, h]
    · simp [VolumesCollector.Collect, VolumesCollector.collectVolumes, h, hu]

/-- Witness of C10: the pools fetch is answered 404, the volumes fetch is answered
200 with a body the decoder rejects. -/
theorem pools_volumes_silent_on_failure_witness :
    ((∃ err, getRequest plainNet mixedTarget
          ("/devmgr/v2/storage-systems/" ++ mixedTarget.Name ++ "/storage-pools")
          = .error err) ∨
      (∃ body pools err, getRequest plainNet mixedTarget
          ("/devmgr/v2/storage-systems/" ++ mixedTarget.Name ++ "/storage-pools") = .ok body ∧
        decodeTo ([] : List StoragePool) body = (pools, some err))) ∧
    ((∃ err, getRequest plainNet mixedTarget
          ("/devmgr/v2/storage-systems/" ++ mixedTarget.Name ++ "/volumes") = .error err) ∨
      (∃ body volumes err, getRequest plainNet mixedTarget
          ("/devmgr/v2/storage-systems/" ++ mixedTarget.Name ++ "/volumes") = .ok body ∧
        decodeFail ([] : List Volume) body = (volumes, some err))) ∧
    (StoragePoolsCollector.Collect plainNet (decodeTo []) parseNothing mixedTarget = [] ∧
    VolumesCollector.Collect plainNet (decodeFail []) parseNothing mixedTarget = []) :=
  ⟨Or.inl ⟨"error", by rfl⟩, Or.inr ⟨"<html>", [], "invalid character", by rfl, rfl⟩,
    pools_volumes_silent_on_failure plainNet (decodeTo []) (decodeFail []) parseNothing
      mixedTarget (Or.inl ⟨"error", by rfl⟩)
      (Or.inr ⟨"<html>", [], "invalid character", by rfl, rfl⟩)⟩

/-! ## Empty results (C11) and the drive loop on distinct keys -/

/-- C11: when the inventory is fetched and decoded without error but holds no
drive, the Drives collector sends exactly the error gauge with value 1 and the
duration gauge; when the system record is fetched and decoded without error but
has an empty id, the Storage Systems collector sends exactly the error gauge with
value 1 and the duration gauge, and no status series whatever status the record
carries. -/
theorem empty_result_is_collection_error (orbit : Char → Char → Bool) (net : NetLib)
    (unmarshalDrives : String → DrivesInventory × Option String)
    (unmarshalSystem : String → StorageSystem × Option String) (target : Target)
    (dur dur2 : F64) (body body2 : String) (inv : DrivesInventory) (sys : StorageSystem)
    (hfetch : getRequest net target
      ("/devmgr/v2/storage-systems/" ++ target.Name ++ "/hardware-inventory") = .ok body)
    (hdecode : unmarshalDrives body = (inv, none))
    (hzero : inv.Drives.length = 0)
    (hfetch2 : getRequest net target ("/devmgr/v2/storage-systems/" ++ target.Name) = .ok body2)
    (hdecode2 : unmarshalSystem body2 = (sys, none))
    (hid : sys.ID = "") :
    DrivesCollector.Collect orbit net unmarshalDrives target dur =
      [ { desc := collectError, value := F64.num 1, labels := ["drives"] },
        { desc := collectDuration, value := dur, labels := ["drives"] } ] ∧
    StorageSystemsCollector.Collect orbit net unmarshalSystem target dur2 =
      [ { desc := collectError, value := F64.num 1, labels := ["storage-systems"] },
        { desc := collectDuration, value := dur2, labels := ["storage-systems"] } ] := by
  have hnil : inv.Drives = [] := List.length_eq_zero.1 hzero
  constructor
  · simp [DrivesCollector.Collect, DrivesCollector.collect, hfetch, hdecode, hnil]
  · simp [StorageSystemsCollector.Collect, StorageSystemsCollector.collect, hfetch2, hdecode2,
      hid]

/-- Witness of C11: an inventory with a tray and no drive, and a system record
with status "optimal" and no id. -/
theorem empty_result_is_collection_error_witness :
    getRequest plainNet (testTarget none 200 "{}")
      ("/devmgr/v2/storage-systems/" ++ (testTarget none 200 "{}").Name ++ "/hardware-inventory")
      = .ok "{}" ∧
    decodeTo ({ Drives := [], Trays := [tray0] } : DrivesInventory) "{}"
      = ({ Drives := [], Trays := [tray0] }, none) ∧
    ({ Drives := [], Trays := [tray0] } : DrivesInventory).Drives.length = 0 ∧
    getRequest plainNet (testTarget none 200 "{}")
      ("/devmgr/v2/storage-systems/" ++ (testTarget none 200 "{}").Name) = .ok "{}" ∧
    decodeTo ({ ID := "", Status := "optimal" } : StorageSystem) "{}"
      = ({ ID := "", Status := "optimal" }, none) ∧
    ({ ID := "", Status := "optimal" } : StorageSystem).ID = "" ∧
    (DrivesCollector.Collect asciiOrbit plainNet (decodeTo { Drives := [], Trays := [tray0] })
        (testTarget none 200 "{}") (F64.num 0) =
      [ { desc := collectError, value := F64.num 1, labels := ["drives"] },
        { desc := collectDuration, value := F64.num 0, labels := ["drives"] } ] ∧
    StorageSystemsCollector.Collect asciiOrbit plainNet
        (decodeTo { ID := "", Status := "optimal" }) (testTarget none 200 "{}") (F64.num 0) =
      [ { desc := collectError, value := F64.num 1, labels := ["storage-systems"] },
        { desc := collectDuration, value := F64.num 0, labels := ["storage-systems"] } ]) :=
  ⟨by rfl, rfl, rfl, by rfl, rfl, rfl,
    empty_result_is_collection_error asciiOrbit plainNet _ _ (testTarget none 200 "{}")
      (F64.num 0) (F64.num 0) "{}" "{}" { Drives := [], Trays := [tray0] }
      { ID := "", Status := "optimal" } (by rfl) rfl rfl (by rfl) rfl rfl⟩

theorem sliceContains_append (orbit : Char → Char → Bool) (l r : List String) (str : String) :
    sliceContains orbit (l ++ r) str = (sliceContains orbit l str || sliceContains orbit r str) := by
  induction l with
  | nil => simp [sliceContains]
  | cons a l ih =>
    by_cases h : EqualFold orbit a str = true
    · simp [sliceContains, h]
    · simp [sliceContains, h, ih]

theorem driveLoop_distinct (orbit : Char → Char → Bool) (trays : List (String × Int))
    (L : List Drive) (st : DriveLoop)
    (hpw : (L.map (fun d => driveKey (resolveDrive trays d))).Pairwise
      (fun a b => EqualFold orbit a b = false))
    (hst : ∀ x ∈ L, sliceContains orbit st.ids (driveKey (resolveDrive trays x)) = false) :
    (L.foldl (driveStep orbit trays) st).ch
        = st.ch ++ L.flatMap (fun d => driveSeries orbit (resolveDrive trays d)) ∧
    (L.foldl (driveStep orbit trays) st).errorMetric = st.errorMetric ∧
    (L.foldl (driveStep orbit trays) st).ids
        = st.ids ++ L.map (fun d => driveKey (resolveDrive trays d)) := by
  induction L generalizing st with
  | nil => simp
  | cons x L ih =>
    simp only [List.map_cons, List.pairwise_cons] at hpw
    have hx : sliceContains orbit st.ids (driveKey (resolveDrive trays x)) = false :=
      hst x (List.mem_cons_self _ _)
    have hstep : driveStep orbit trays st x =
        { ids := st.ids ++ [driveKey (resolveDrive trays x)]
          errorMetric := st.errorMetric
          ch := st.ch ++ driveSeries orbit (resolveDrive trays x) } := by
      simp [driveStep, hx]
    have hrest : ∀ y ∈ L, sliceContains orbit (driveStep orbit trays st x).ids
        (driveKey (resolveDrive trays y)) = false := by
      intro y hy
      rw [hstep]
      simp only [sliceContains_append, sliceContains, Bool.or_eq_false_iff]
      refine ⟨hst y (List.mem_cons_of_mem _ hy), ?_⟩
      have := hpw.1 (driveKey (resolveDrive trays y)) (List.mem_map.2 ⟨y, hy, rfl⟩)
      simp [this]
    obtain ⟨h1, h2, h3⟩ := ih (driveStep orbit trays st x) hpw.2 hrest
    simp only [List.foldl_cons, List.flatMap_cons, List.map_cons]
    rw [h1, h2, h3, hstep]
    simp

theorem driveSeries_length (orbit : Char → Char → Bool) (d : Drive) :
    (driveSeries orbit d).length = 12 := by
  simp [driveSeries, driveStatuses]

theorem length_flatMap_const {α β : Type} (l : List α) (f : α → List β) (n : Nat)
    (h : ∀ a, (f a).length = n) : (l.flatMap f).length = n * l.length := by
  induction l with
  | nil => simp
  | cons a l ih => simp [List.flatMap_cons, ih, h, Nat.mul_succ, Nat.add_comm]

theorem drivesCollect_ok_nonempty (net : NetLib)
    (unmarshal : String → DrivesInventory × Option String) (target : Target)
    (inv : DrivesInventory) (h : DrivesCollector.collect net unmarshal target = (inv, none)) :
    1 ≤ inv.Drives.length := by
  unfold DrivesCollector.collect at h
  split at h
  · simp at h
  · split at h
    · simp at h
    · split at h
      · simp at h
      · rename_i hlen
        simp only [Prod.mk.injEq, and_true] at h
        subst h
        omega


/-! ## Storage pools (C13 to C17) -/

theorem foldl_append_eq_flatMap {α β : Type} (l : List α) (f : α → List β) (acc : List β) :
    l.foldl (fun ch a => ch ++ f a) acc = acc ++ l.flatMap f := by
  induction l generalizing acc with
  | nil => simp
  | cons a l ih => simp [List.foldl_cons, List.flatMap_cons, ih]

theorem poolsCollect_ok (net : NetLib)
    (unmarshal : String → List StoragePool × Option String)
    (ParseFloat : String → F64 × Option String) (target : Target) (body : String)
    (pools : List StoragePool)
    (hfetch : getRequest net target
      ("/devmgr/v2/storage-systems/" ++ target.Name ++ "/storage-pools") = .ok body)
    (hdecode : unmarshal body = (pools, none)) :
    StoragePoolsCollector.Collect net unmarshal ParseFloat target
      = pools.flatMap (poolSeries ParseFloat) := by
  simp [StoragePoolsCollector.Collect, StoragePoolsCollector.collectStoragePools, hfetch,
    hdecode, foldl_append_eq_flatMap]

theorem poolSeries_descs (ParseFloat : String → F64 × Option String) (pool : StoragePool) :
    (poolSeries ParseFloat pool).map (fun m => m.desc) =
      [ "eseries_pool_capacity_bytes", "eseries_pool_used_bytes", "eseries_pool_free_bytes",
        "eseries_pool_utilization_ratio", "eseries_pool_status", "eseries_pool_state",
        "eseries_pool_offline" ] := by
  simp only [poolSeries, List.map_cons, List.map_nil]
  decide

theorem poolSeries_ratio (ParseFloat : String → F64 × Option String) (pool : StoragePool) :
    (seriesAt (poolSeries ParseFloat pool) "eseries_pool_utilization_ratio").map
        (fun m => m.value) =
      [ if (ParseFloat pool.TotalRaidedSpace).1.gtZero then
          F64.div (ParseFloat pool.UsedSpace).1 (ParseFloat pool.TotalRaidedSpace).1
        else F64.num 0 ] := by
  have h1 : BuildFQName namespace_ "pool" "capacity_bytes" ≠ "eseries_pool_utilization_ratio" := by
    decide
  have h2 : BuildFQName namespace_ "pool" "used_bytes" ≠ "eseries_pool_utilization_ratio" := by
    decide
  have h3 : BuildFQName namespace_ "pool" "free_bytes" ≠ "eseries_pool_utilization_ratio" := by
    decide
  have h4 : BuildFQName namespace_ "pool" "utilization_ratio" = "eseries_pool_utilization_ratio" := by
    decide
  have h5 : BuildFQName namespace_ "pool" "status" ≠ "eseries_pool_utilization_ratio" := by
    decide
  have h6 : BuildFQName namespace_ "pool" "state" ≠ "eseries_pool_utilization_ratio" := by
    decide
  have h7 : BuildFQName namespace_ "pool" "offline" ≠ "eseries_pool_utilization_ratio" := by
    decide
  simp [seriesAt, poolSeries, List.filter_cons, h1, h2, h3, h4, h5, h6, h7]

/-- C14, evaluated where it fails: a pool that reports 200 used of a total of 100
has its utilization ratio series at 200 / 100 = 2, above 1, also in a whole scrape;
a pool whose used space parses to NaN has its ratio at NaN. -/
theorem pool_ratio_exceeds_one :
    (sampleParseFloat overfullPool.UsedSpace) = (F64.num 200, none) ∧
    (sampleParseFloat overfullPool.TotalRaidedSpace) = (F64.num 100, none) ∧
    (seriesAt (poolSeries sampleParseFloat overfullPool) "eseries_pool_utilization_ratio").map
        (fun m => m.value) = [F64.num 2] ∧
    (1 : ℚ) < 2 ∧
    (seriesAt (StoragePoolsCollector.Collect plainNet (decodeTo [overfullPool]) sampleParseFloat
        (testTarget none 200 "[]")) "eseries_pool_utilization_ratio") =
      [ { desc := "eseries_pool_utilization_ratio", value := F64.num 2,
          labels := ["Pool_2", "raid5"] } ] ∧
    (seriesAt (poolSeries sampleParseFloat { pool2 with UsedSpace := "NaN" })
        "eseries_pool_utilization_ratio").map (fun m => m.value) = [F64.nan] := by
  refine ⟨by rfl, by rfl, ?_, by norm_num, ?_, ?_⟩
  · rw [poolSeries_ratio]
    decide!
  · have hC := poolsCollect_ok plainNet (decodeTo [overfullPool])
      sampleParseFloat (testTarget none 200 "[]") "[]" [overfullPool] (by rfl) rfl
    rw [hC]
    have : [overfullPool].flatMap (poolSeries sampleParseFloat)
        = poolSeries sampleParseFloat overfullPool := by simp
    rw [this]
    decide!
  · rw [poolSeries_ratio]
    rfl

/-- C15 as stated fails: the total capacity string "1e400" fails to parse (the
parser reports a range error) and the capacity series of that pool carries +Inf,
not 0. -/
theorem pool_parse_failure_counterexample :
    (sampleParseFloat hugePool.TotalRaidedSpace).2 = some "value out of range" ∧
    (seriesAt (poolSeries sampleParseFloat hugePool) "eseries_pool_capacity_bytes").map
        (fun m => m.value) = [F64.posInf] ∧
    F64.posInf ≠ F64.num 0 := by
  refine ⟨by rfl, by rfl, by decide⟩

/-- C15 as amended: each of the three capacity series of a pool carries the value
the parser returns for its string, whether or not the parser also returns an
error, and the record is not aborted: seven series are sent for the pool.  For
the pool whose three strings are not numbers the parser returns 0 with an error
and the three series carry 0. -/
theorem pool_parse_failure_keeps_record (ParseFloat : String → F64 × Option String)
    (pool : StoragePool) :
    (poolSeries ParseFloat pool).length = 7 ∧
    (seriesAt (poolSeries ParseFloat pool) "eseries_pool_capacity_bytes").map (fun m => m.value)
      = [(ParseFloat pool.TotalRaidedSpace).1] ∧
    (seriesAt (poolSeries ParseFloat pool) "eseries_pool_used_bytes").map (fun m => m.value)
      = [(ParseFloat pool.UsedSpace).1] ∧
    (seriesAt (poolSeries ParseFloat pool) "eseries_pool_free_bytes").map (fun m => m.value)
      = [(ParseFloat pool.FreeSpace).1] ∧
    ((sampleParseFloat garbledPool.TotalRaidedSpace).2.isSome = true ∧
      (sampleParseFloat garbledPool.UsedSpace).2.isSome = true ∧
      (sampleParseFloat garbledPool.FreeSpace).2.isSome = true ∧
      (poolSeries sampleParseFloat garbledPool).map (fun m => (m.desc, m.value)) =
        [ ("eseries_pool_capacity_bytes", F64.num 0), ("eseries_pool_used_bytes", F64.num 0),
          ("eseries_pool_free_bytes", F64.num 0), ("eseries_pool_utilization_ratio", F64.num 0),
          ("eseries_pool_status", F64.num 0), ("eseries_pool_state", F64.num 0),
          ("eseries_pool_offline", F64.num 0) ]) := by
  have d1 : BuildFQName namespace_ "pool" "capacity_bytes" = "eseries_pool_capacity_bytes" := by
    decide
  have d2 : BuildFQName namespace_ "pool" "used_bytes" = "eseries_pool_used_bytes" := by decide
  have d3 : BuildFQName namespace_ "pool" "free_bytes" = "eseries_pool_free_bytes" := by decide
  have d4 : BuildFQName namespace_ "pool" "utilization_ratio"
      = "eseries_pool_utilization_ratio" := by decide
  have d5 : BuildFQName namespace_ "pool" "status" = "eseries_pool_status" := by decide
  have d6 : BuildFQName namespace_ "pool" "state" = "eseries_pool_state" := by decide
  have d7 : BuildFQName namespace_ "pool" "offline" = "eseries_pool_offline" := by decide
  refine ⟨by simp [poolSeries], ?_, ?_, ?_, by rfl, by rfl, by rfl, by rfl⟩
  · simp [seriesAt, poolSeries, List.filter_cons, d1, d2, d3, d4, d5, d6, d7]
  · simp [seriesAt, poolSeries, List.filter_cons, d1, d2, d3, d4, d5, d6, d7]
  · simp [seriesAt, poolSeries, List.filter_cons, d1, d2, d3, d4, d5, d6, d7]

/-- C16: when the pool list is fetched and decoded without error, `Collect` sends
the seven series of every pool in input order and nothing else: 7 n series, each
pool giving capacity, used, free, utilization ratio, status, state and offline in
that order, and no series of the shared error or duration descriptor. -/
theorem pools_collect_seven_each (net : NetLib)
    (unmarshal : String → List StoragePool × Option String)
    (ParseFloat : String → F64 × Option String) (target : Target) (body : String)
    (pools : List StoragePool)
    (hfetch : getRequest net target
      ("/devmgr/v2/storage-systems/" ++ target.Name ++ "/storage-pools") = .ok body)
    (hdecode : unmarshal body = (pools, none)) :
    StoragePoolsCollector.Collect net unmarshal ParseFloat target
      = pools.flatMap (poolSeries ParseFloat) ∧
    (StoragePoolsCollector.Collect net unmarshal ParseFloat target).length = 7 * pools.length ∧
    (∀ pool : StoragePool, (poolSeries ParseFloat pool).map (fun m => m.desc) =
      [ "eseries_pool_capacity_bytes", "eseries_pool_used_bytes", "eseries_pool_free_bytes",
        "eseries_pool_utilization_ratio", "eseries_pool_status", "eseries_pool_state",
        "eseries_pool_offline" ]) ∧
    seriesAt (StoragePoolsCollector.Collect net unmarshal ParseFloat target) collectError = [] ∧
    seriesAt (StoragePoolsCollector.Collect net unmarshal ParseFloat target) collectDuration
      = [] := by
  have hC := poolsCollect_ok net unmarshal ParseFloat target body pools
    hfetch hdecode
  have hno : ∀ (name : String), name ∉
      [ "eseries_pool_capacity_bytes", "eseries_pool_used_bytes", "eseries_pool_free_bytes",
        "eseries_pool_utilization_ratio", "eseries_pool_status", "eseries_pool_state",
        "eseries_pool_offline" ] →
      seriesAt (pools.flatMap (poolSeries ParseFloat)) name = [] := by
    intro name hname
    apply List.filter_eq_nil_iff.2
    intro m hm
    obtain ⟨pool, _, hp⟩ := List.mem_flatMap.1 hm
    have hd : m.desc ∈ (poolSeries ParseFloat pool).map (fun m => m.desc) :=
      List.mem_map.2 ⟨m, hp, rfl⟩
    rw [poolSeries_descs] at hd
    intro hdec
    have heq : m.desc = name := of_decide_eq_true hdec
    exact hname (heq ▸ hd)
  refine ⟨hC, ?_, poolSeries_descs ParseFloat, ?_, ?_⟩
  · rw [hC]
    exact length_flatMap_const pools (poolSeries ParseFloat) 7 (fun p => by simp [poolSeries])
  · rw [hC]
    exact hno collectError (by decide)
  · rw [hC]
    exact hno collectDuration (by decide)

/-- Witness of C16: two pools give 14 series. -/
theorem pools_collect_seven_each_witness :
    getRequest plainNet (testTarget none 200 "[]")
      ("/devmgr/v2/storage-systems/" ++ (testTarget none 200 "[]").Name ++ "/storage-pools")
      = .ok "[]" ∧
    decodeTo [pool1, pool2] "[]" = ([pool1, pool2], none) ∧
    (StoragePoolsCollector.Collect plainNet (decodeTo [pool1, pool2]) sampleParseFloat
        (testTarget none 200 "[]")
      = [pool1, pool2].flatMap (poolSeries sampleParseFloat) ∧
    (StoragePoolsCollector.Collect plainNet (decodeTo [pool1, pool2]) sampleParseFloat
        (testTarget none 200 "[]")).length = 14 ∧
    (∀ pool : StoragePool, (poolSeries sampleParseFloat pool).map (fun m => m.desc) =
      [ "eseries_pool_capacity_bytes", "eseries_pool_used_bytes", "eseries_pool_free_bytes",
        "eseries_pool_utilization_ratio", "eseries_pool_status", "eseries_pool_state",
        "eseries_pool_offline" ]) ∧
    seriesAt (StoragePoolsCollector.Collect plainNet (decodeTo [pool1, pool2]) sampleParseFloat
        (testTarget none 200 "[]")) collectError = [] ∧
    seriesAt (StoragePoolsCollector.Collect plainNet (decodeTo [pool1, pool2]) sampleParseFloat
        (testTarget none 200 "[]")) collectDuration = []) :=
  ⟨by rfl, rfl,
    pools_collect_seven_each plainNet (decodeTo [pool1, pool2]) sampleParseFloat
      (testTarget none 200 "[]") "[]" [pool1, pool2] (by rfl) rfl⟩

/-- C17: the status series of a pool is 1 exactly when its raid status is the
string "optimal" and 0 otherwise, the state series is 1 exactly when its state is
the string "complete" and 0 otherwise and carries the state string as its state
label, and the capacity series carries the type label "disk_pool" when the
diskPool flag is set and "volume_group" otherwise.  A raid status "Optimal" or a
state "Complete" gives 0. -/
theorem pool_status_state_type (ParseFloat : String → F64 × Option String)
    (pool : StoragePool) :
    seriesAt (poolSeries ParseFloat pool) "eseries_pool_status" =
      [ { desc := "eseries_pool_status"
          value := if pool.RaidStatus = "optimal" then F64.num 1 else F64.num 0
          labels := [pool.Label, pool.RaidLevel, pool.RaidStatus] } ] ∧
    ((seriesAt (poolSeries ParseFloat pool) "eseries_pool_status").map (fun m => m.value)
      = [F64.num 1] ↔ pool.RaidStatus = "optimal") ∧
    seriesAt (poolSeries ParseFloat pool) "eseries_pool_state" =
      [ { desc := "eseries_pool_state"
          value := if pool.State = "complete" then F64.num 1 else F64.num 0
          labels := [pool.Label, pool.RaidLevel, pool.State] } ] ∧
    ((seriesAt (poolSeries ParseFloat pool) "eseries_pool_state").map (fun m => m.value)
      = [F64.num 1] ↔ pool.State = "complete") ∧
    (seriesAt (poolSeries ParseFloat pool) "eseries_pool_state").map
      (fun m => labelOf poolDescs m "state") = [some pool.State] ∧
    (seriesAt (poolSeries ParseFloat pool) "eseries_pool_capacity_bytes").map
      (fun m => labelOf poolDescs m "type")
      = [some (if pool.DiskPool then "disk_pool" else "volume_group")] ∧
    (seriesAt (poolSeries sampleParseFloat
        { pool1 with RaidStatus := "Optimal", State := "Complete" })
      "eseries_pool_status").map (fun m => m.value) = [F64.num 0] ∧
    (seriesAt (poolSeries sampleParseFloat
        { pool1 with RaidStatus := "Optimal", State := "Complete" })
      "eseries_pool_state").map (fun m => m.value) = [F64.num 0] := by
  have d1 : BuildFQName namespace_ "pool" "capacity_bytes" = "eseries_pool_capacity_bytes" := by
    decide
  have d2 : BuildFQName namespace_ "pool" "used_bytes" = "eseries_pool_used_bytes" := by decide
  have d3 : BuildFQName namespace_ "pool" "free_bytes" = "eseries_pool_free_bytes" := by decide
  have d4 : BuildFQName namespace_ "pool" "utilization_ratio"
      = "eseries_pool_utilization_ratio" := by decide
  have d5 : BuildFQName namespace_ "pool" "status" = "eseries_pool_status" := by decide
  have d6 : BuildFQName namespace_ "pool" "state" = "eseries_pool_state" := by decide
  have d7 : BuildFQName namespace_ "pool" "offline" = "eseries_pool_offline" := by decide
  have hstatus : seriesAt (poolSeries ParseFloat pool) "eseries_pool_status" =
      [ { desc := "eseries_pool_status"
          value := if pool.RaidStatus = "optimal" then F64.num 1 else F64.num 0
          labels := [pool.Label, pool.RaidLevel, pool.RaidStatus] } ] := by
    simp [seriesAt, poolSeries, List.filter_cons, d1, d2, d3, d4, d5, d6, d7]
  have hstate : seriesAt (poolSeries ParseFloat pool) "eseries_pool_state" =
      [ { desc := "eseries_pool_state"
          value := if pool.State = "complete" then F64.num 1 else F64.num 0
          labels := [pool.Label, pool.RaidLevel, pool.State] } ] := by
    simp [seriesAt, poolSeries, List.filter_cons, d1, d2, d3, d4, d5, d6, d7]
  have hcap : seriesAt (poolSeries ParseFloat pool) "eseries_pool_capacity_bytes" =
      [ { desc := "eseries_pool_capacity_bytes"
          value := (ParseFloat pool.TotalRaidedSpace).1
          labels := [pool.Label, pool.RaidLevel, pool.RaidStatus,
            if pool.DiskPool then "disk_pool" else "volume_group"] } ] := by
    simp [seriesAt, poolSeries, List.filter_cons, d1, d2, d3, d4, d5, d6, d7]
  refine ⟨hstatus, ?_, hstate, ?_, ?_, ?_, by rfl, by rfl⟩
  · rw [hstatus]
    by_cases h : pool.RaidStatus = "optimal" <;> simp [h]
  · rw [hstate]
    by_cases h : pool.State = "complete" <;> simp [h]
  · rw [hstate]
    simp only [List.map_cons, List.map_nil]
    rfl
  · rw [hcap]
    simp only [List.map_cons, List.map_nil]
    rfl

/-! ## Volumes (C18 and C19) -/

theorem volumesCollect_ok (net : NetLib)
    (unmarshal : String → List Volume × Option String)
    (ParseFloat : String → F64 × Option String) (target : Target) (body : String)
    (volumes : List Volume)
    (hfetch : getRequest net target
      ("/devmgr/v2/storage-systems/" ++ target.Name ++ "/volumes") = .ok body)
    (hdecode : unmarshal body = (volumes, none)) :
    VolumesCollector.Collect net unmarshal ParseFloat target
      = volumes.flatMap (volumeSeries ParseFloat) := by
  simp [VolumesCollector.Collect, VolumesCollector.collectVolumes, hfetch, hdecode,
    foldl_append_eq_flatMap]

theorem volumeSeries_descs (ParseFloat : String → F64 × Option String) (volume : Volume) :
    (volumeSeries ParseFloat volume).map (fun m => m.desc) =
      [ "eseries_volume_capacity_bytes", "eseries_volume_status", "eseries_volume_mapped",
        "eseries_volume_mappings_total", "eseries_volume_thin_provisioned",
        "eseries_volume_offline" ] := by
  simp only [volumeSeries, List.map_cons, List.map_nil]
  decide

/-- C19: when the volume list is fetched and decoded without error, `Collect`
sends the six series of every volume in input order and nothing else: 6 n series,
each volume giving capacity, status, mapped, mappings_total, thin_provisioned and
offline in that order, no series of the shared error or duration descriptor, and
the mappings_total series of a volume carries the length of its mapping list.
Three volumes with 1, 0 and 0 mappings give 18 series and the mapping counts 1, 0
and 0. -/
theorem volumes_collect_six_each (net : NetLib)
    (unmarshal : String → List Volume × Option String)
    (ParseFloat : String → F64 × Option String) (target : Target) (body : String)
    (volumes : List Volume)
    (hfetch : getRequest net target
      ("/devmgr/v2/storage-systems/" ++ target.Name ++ "/volumes") = .ok body)
    (hdecode : unmarshal body = (volumes, none)) :
    VolumesCollector.Collect net unmarshal ParseFloat target
      = volumes.flatMap (volumeSeries ParseFloat) ∧
    (VolumesCollector.Collect net unmarshal ParseFloat target).length = 6 * volumes.length ∧
    (∀ volume : Volume, (volumeSeries ParseFloat volume).map (fun m => m.desc) =
      [ "eseries_volume_capacity_bytes", "eseries_volume_status", "eseries_volume_mapped",
        "eseries_volume_mappings_total", "eseries_volume_thin_provisioned",
        "eseries_volume_offline" ]) ∧
    seriesAt (VolumesCollector.Collect net unmarshal ParseFloat target) collectError = [] ∧
    seriesAt (VolumesCollector.Collect net unmarshal ParseFloat target) collectDuration = [] ∧
    (∀ volume : Volume,
      (seriesAt (volumeSeries ParseFloat volume) "eseries_volume_mappings_total").map
        (fun m => m.value) = [F64.num (volume.ListOfMappings.length : ℕ)]) ∧
    (seriesAt (VolumesCollector.Collect plainNet (decodeTo [volume1, volume2, volume3])
        sampleParseFloat (testTarget none 200 "[]")) "eseries_volume_mappings_total").map
      (fun m => m.value) = [F64.num 1, F64.num 0, F64.num 0] := by
  have hC := volumesCollect_ok net unmarshal ParseFloat target body volumes
    hfetch hdecode
  have hno : ∀ (name : String), name ∉
      [ "eseries_volume_capacity_bytes", "eseries_volume_status", "eseries_volume_mapped",
        "eseries_volume_mappings_total", "eseries_volume_thin_provisioned",
        "eseries_volume_offline" ] →
      seriesAt (volumes.flatMap (volumeSeries ParseFloat)) name = [] := by
    intro name hname
    apply List.filter_eq_nil_iff.2
    intro m hm
    obtain ⟨volume, _, hp⟩ := List.mem_flatMap.1 hm
    have hd : m.desc ∈ (volumeSeries ParseFloat volume).map (fun m => m.desc) :=
      List.mem_map.2 ⟨m, hp, rfl⟩
    rw [volumeSeries_descs] at hd
    intro hdec
    have heq : m.desc = name := of_decide_eq_true hdec
    exact hname (heq ▸ hd)
  refine ⟨hC, ?_, volumeSeries_descs ParseFloat, ?_, ?_, ?_, by rfl⟩
  · rw [hC]
    exact length_flatMap_const volumes (volumeSeries ParseFloat) 6
      (fun p => by simp [volumeSeries])
  · rw [hC]
    exact hno collectError (by decide)
  · rw [hC]
    exact hno collectDuration (by decide)
  · intro volume
    rfl

/-- Witness of C19: three volumes give 18 series. -/
theorem volumes_collect_six_each_witness :
    getRequest plainNet (testTarget none 200 "[]")
      ("/devmgr/v2/storage-systems/" ++ (testTarget none 200 "[]").Name ++ "/volumes")
      = .ok "[]" ∧
    decodeTo [volume1, volume2, volume3] "[]" = ([volume1, volume2, volume3], none) ∧
    (VolumesCollector.Collect plainNet (decodeTo [volume1, volume2, volume3]) sampleParseFloat
        (testTarget none 200 "[]")).length = 18 :=
  ⟨by rfl, rfl,
    (volumes_collect_six_each plainNet (decodeTo [volume1, volume2, volume3]) sampleParseFloat
      (testTarget none 200 "[]") "[]" [volume1, volume2, volume3] (by rfl) rfl).2.1⟩

/-! ## The fetch helper and the status code (C20) -/

/-- C20: when the request can be built, the client returns a response and the
body is read without error, `getRequest` returns the body without error if the
status code is 200 and otherwise returns no body and an error whose message is the
body; so it succeeds exactly when the status code is 200. -/
theorem getRequest_ok_iff_status_200 (net : NetLib) (target : Target) (path u : String)
    (resp : Response) (body : String)
    (hparse : net.Parse (requestURL net target path) = .ok u)
    (htransport : target.HttpClient
      { Method := "GET", URL := u, Header := [("Accept", "application/json")],
        BasicAuth := some (target.User, target.Password) } = .ok resp)
    (hread : resp.Body = .ok body) :
    getRequest net target path
      = (if resp.StatusCode = 200 then .ok body else .error body) ∧
    (getRequest net target path = .ok body ↔ resp.StatusCode = 200) ∧
    (getRequest net target path = .error body ↔ resp.StatusCode ≠ 200) ∧
    ((∃ b, getRequest net target path = .ok b) ↔ resp.StatusCode = 200) := by
  have hparse2 : net.Parse
      (match net.PathUnescape (net.ResolveReference target.BaseURL path) with
        | .error _ => net.ResolveReference target.BaseURL path
        | .ok s => s) = .ok u := hparse
  have hget : getRequest net target path
      = (if resp.StatusCode = 200 then .ok body else .error body) := by
    unfold getRequest NewRequest
    simp only [hparse2, mapSet, htransport, hread, StatusOK]
    by_cases h : resp.StatusCode = 200 <;> simp [h]
  refine ⟨hget, ?_, ?_, ?_⟩
  · rw [hget]
    by_cases h : resp.StatusCode = 200 <;> simp [h]
  · rw [hget]
    by_cases h : resp.StatusCode = 200 <;> simp [h]
  · rw [hget]
    by_cases h : resp.StatusCode = 200 <;> simp [h]

/-- Witness of C20: a backend that answers 204 with body "no content". -/
theorem getRequest_ok_iff_status_200_witness :
    plainNet.Parse (requestURL plainNet (testTarget none 204 "no content") "/x")
      = .ok "http://localhost/x" ∧
    (testTarget none 204 "no content").HttpClient
      { Method := "GET", URL := "http://localhost/x", Header := [("Accept", "application/json")],
        BasicAuth := some ((testTarget none 204 "no content").User,
          (testTarget none 204 "no content").Password) }
      = .ok { StatusCode := 204, Body := .ok "no content" } ∧
    ({ StatusCode := 204, Body := .ok "no content" } : Response).Body = .ok "no content" ∧
    getRequest plainNet (testTarget none 204 "no content") "/x" = .error "no content" :=
  ⟨by rfl, rfl, rfl,
    ((getRequest_ok_iff_status_200 plainNet (testTarget none 204 "no content") "/x"
      "http://localhost/x" { StatusCode := 204, Body := .ok "no content" } "no content"
      (by rfl) rfl rfl).2.2.1).2 (by decide)⟩
/-! ## The address requested by the fetch helper (C21) -/

/-- C21 as stated fails: for the path "/a?b" the resolved address is
"http://localhost/a%3Fb" but the GET goes to its unescaped form
"http://localhost/a?b"; for a path with a line feed and for the path "/a%zz" the
resolved address could be requested, yet `getRequest` returns an error without
calling the client, because the unescaped address does not parse. -/
theorem getRequest_unescaped_counterexample :
    escapingNet.ResolveReference echoTarget.BaseURL "/a?b" = "http://localhost/a%3Fb" ∧
    getRequest escapingNet echoTarget "/a?b" = .ok "http://localhost/a?b" ∧
    requestTo escapingNet echoTarget (escapingNet.ResolveReference echoTarget.BaseURL "/a\nb")
      = .ok "http://localhost/a%0Ab" ∧
    getRequest escapingNet echoTarget "/a\nb"
      = .error "parse \"http://localhost/a\\nb\": net/url: invalid control character in URL" ∧
    requestTo escapingNet echoTarget (escapingNet.ResolveReference echoTarget.BaseURL "/a%zz")
      = .ok "http://localhost/a%25zz" ∧
    getRequest escapingNet echoTarget "/a%zz"
      = .error "parse \"http://localhost/a%zz\": invalid URL escape \"%zz\"" := by
  refine ⟨by rfl, by rfl, by rfl, by rfl, by rfl, by rfl⟩

/-- C21 as amended: `getRequest` requests the percent-unescaped form of the
resolved address when unescaping succeeds and the resolved address itself when
unescaping fails, so a failure of the unescaping never aborts the request.  With
a library whose unescaping refuses every string the resolved address is
requested. -/
theorem getRequest_requests_unescaped (net : NetLib) (target : Target) (path : String) :
    getRequest net target path =
      (match net.PathUnescape (net.ResolveReference target.BaseURL path) with
        | .error _ => requestTo net target (net.ResolveReference target.BaseURL path)
        | .ok s => requestTo net target s) ∧
    getRequest net target path = requestTo net target (requestURL net target path) ∧
    refusingNet.PathUnescape (refusingNet.ResolveReference echoTarget.BaseURL "/a%zz")
      = .error "invalid URL escape" ∧
    getRequest refusingNet echoTarget "/a%zz" = .ok "http://localhost/a%zz" := by
  have h : getRequest net target path = requestTo net target (requestURL net target path) := by
    rfl
  refine ⟨?_, h, by rfl, by rfl⟩
  rw [h, requestURL]
  split <;> rfl

/-! ## Repeated registrations and unknown requested names (C22 and C26) -/

theorem mapGet_mapSet {α : Type} (m : List (String × α)) (k : String) (v : α) (x : String) :
    mapGet (mapSet m k v) x = if k = x then some v else mapGet m x := by
  induction m with
  | nil => simp [mapSet, mapGet]
  | cons p m ih =>
    obtain ⟨a, b⟩ := p
    by_cases hak : a = k
    · subst hak
      by_cases hax : a = x
      · simp [mapSet, mapGet, hax]
      · simp [mapSet, mapGet, hax]
    · by_cases hax : a = x
      · subst hax
        simp [mapSet, mapGet, hak, Ne.symm hak]
      · simp only [mapSet, hak, if_false, mapGet, hax, ih]

theorem nodup_mapKeys_mapSet {α : Type} (m : List (String × α)) (k : String) (v : α)
    (h : (mapKeys m).Nodup) : (mapKeys (mapSet m k v)).Nodup := by
  induction m with
  | nil => simp [mapSet, mapKeys]
  | cons p m ih =>
    obtain ⟨a, b⟩ := p
    simp only [mapKeys, List.map_cons, List.nodup_cons] at h
    by_cases hak : a = k
    · subst hak
      simp only [mapSet, if_true, mapKeys, List.map_cons, List.nodup_cons]
      exact h
    · simp only [mapSet, hak, if_false, mapKeys, List.map_cons, List.nodup_cons]
      refine ⟨?_, ih h.2⟩
      intro hmem
      have := (mem_mapKeys_mapSet m k v a).1 hmem
      rcases this with h1 | h1
      · exact h.1 h1
      · exact hak h1

theorem mem_iff_mapGet {α : Type} (m : List (String × α)) (k : String) (v : α)
    (h : (mapKeys m).Nodup) : (k, v) ∈ m ↔ mapGet m k = some v := by
  induction m with
  | nil => simp [mapGet]
  | cons p m ih =>
    obtain ⟨a, b⟩ := p
    simp only [mapKeys, List.map_cons, List.nodup_cons] at h
    by_cases hak : a = k
    · subst hak
      simp only [List.mem_cons, Prod.mk.injEq, true_and, mapGet, if_true, Option.some.injEq]
      constructor
      · rintro (h1 | h1)
        · exact h1.symm
        · exact absurd (List.mem_map.2 ⟨(a, v), h1, rfl⟩) h.1
      · intro h1
        exact Or.inl h1.symm
    · simp only [List.mem_cons, Prod.mk.injEq, mapGet, hak, if_false]
      rw [← ih h.2]
      constructor
      · rintro (h1 | h1)
        · exact absurd h1.1.symm hak
        · exact h1
      · intro h1
        exact Or.inr h1

theorem registerAll_fold_nodup_keys {κ : Type} (calls : List (String × Bool × (Target → κ)))
    (reg : Registry κ) (h1 : (mapKeys reg.collectorState).Nodup)
    (h2 : (mapKeys reg.factories).Nodup) :
    (mapKeys (calls.foldl (fun reg c => registerCollector reg c.1 c.2.1 c.2.2) reg).collectorState).Nodup ∧
    (mapKeys (calls.foldl (fun reg c => registerCollector reg c.1 c.2.1 c.2.2) reg).factories).Nodup := by
  induction calls generalizing reg with
  | nil => exact ⟨h1, h2⟩
  | cons c calls ih =>
    simp only [List.foldl_cons]
    apply ih
    · exact nodup_mapKeys_mapSet _ _ _ h1
    · exact nodup_mapKeys_mapSet _ _ _ h2

theorem registerAll_fold_get_other {κ : Type} (calls : List (String × Bool × (Target → κ)))
    (reg : Registry κ) (k : String) (h : ∀ c ∈ calls, c.1 ≠ k) :
    mapGet (calls.foldl (fun reg c => registerCollector reg c.1 c.2.1 c.2.2) reg).collectorState k
      = mapGet reg.collectorState k ∧
    mapGet (calls.foldl (fun reg c => registerCollector reg c.1 c.2.1 c.2.2) reg).factories k
      = mapGet reg.factories k := by
  induction calls generalizing reg with
  | nil => exact ⟨rfl, rfl⟩
  | cons c calls ih =>
    simp only [List.foldl_cons]
    have hc : c.1 ≠ k := h c (List.mem_cons_self _ _)
    have hrest := ih (registerCollector reg c.1 c.2.1 c.2.2)
      (fun d hd => h d (List.mem_cons_of_mem _ hd))
    rw [hrest.1, hrest.2]
    simp [registerCollector, mapGet_mapSet, hc]

theorem registerAll_last {κ : Type} (pre post : List (String × Bool × (Target → κ)))
    (k : String) (b : Bool) (f : Target → κ) (hlast : ∀ c ∈ post, c.1 ≠ k) :
    mapGet (registerAll (pre ++ (k, b, f) :: post)).collectorState k = some b ∧
    mapGet (registerAll (pre ++ (k, b, f) :: post)).factories k = some f := by
  unfold registerAll
  rw [List.foldl_append, List.foldl_cons]
  have h := registerAll_fold_get_other post
    (registerCollector (pre.foldl (fun reg c => registerCollector reg c.1 c.2.1 c.2.2)
      (Registry.empty κ)) k b f) k hlast
  rw [h.1, h.2]
  simp [registerCollector, mapGet_mapSet]

theorem registerAll_nodup {κ : Type} (calls : List (String × Bool × (Target → κ))) :
    (mapKeys (registerAll calls).collectorState).Nodup ∧
    (mapKeys (registerAll calls).factories).Nodup :=
  registerAll_fold_nodup_keys calls (Registry.empty κ) List.nodup_nil List.nodup_nil

theorem newCollectorLoop_get {κ : Type} (orbit : Char → Char → Bool)
    (factories : List (String × (Target → κ))) (target : Target)
    (entries : List (String × Bool)) (acc m : List (String × κ)) (k : String)
    (hm : newCollectorLoop orbit factories target entries acc = some m) :
    ((∃ en, (k, en) ∈ entries ∧ collectorEnabled orbit target k en = true) →
      mapGet m k = (mapGet factories k).map (fun factory => factory target)) ∧
    ((¬ ∃ en, (k, en) ∈ entries ∧ collectorEnabled orbit target k en = true) →
      mapGet m k = mapGet acc k) := by
  induction entries generalizing acc with
  | nil =>
    simp only [newCollectorLoop, Option.some.injEq] at hm
    subst hm
    simp
  | cons p entries ih =>
    obtain ⟨key, enabled⟩ := p
    by_cases he : collectorEnabled orbit target key enabled = true
    · cases hfac : mapGet factories key with
      | none => simp [newCollectorLoop, he, hfac] at hm
      | some factory =>
        simp only [newCollectorLoop, he, hfac, if_true] at hm
        obtain ⟨ih1, ih2⟩ := ih (mapSet acc key (factory target)) hm
        constructor
        · rintro ⟨en, hmem, hen⟩
          by_cases hrest : ∃ en, (k, en) ∈ entries ∧ collectorEnabled orbit target k en = true
          · exact ih1 hrest
          · rw [ih2 hrest, mapGet_mapSet]
            simp only [List.mem_cons, Prod.mk.injEq] at hmem
            rcases hmem with ⟨h1, _⟩ | h1
            · subst h1
              simp [hfac]
            · exact absurd ⟨en, h1, hen⟩ hrest
        · intro hno
          have hrest : ¬ ∃ en, (k, en) ∈ entries ∧ collectorEnabled orbit target k en = true := by
            rintro ⟨en, h1, h2⟩
            exact hno ⟨en, List.mem_cons_of_mem _ h1, h2⟩
          have hkey : key ≠ k := by
            intro hk
            subst hk
            exact hno ⟨enabled, List.mem_cons_self _ _, he⟩
          rw [ih2 hrest, mapGet_mapSet]
          simp [hkey]
    · simp only [newCollectorLoop, he] at hm
      obtain ⟨ih1, ih2⟩ := ih acc hm
      constructor
      · rintro ⟨en, hmem, hen⟩
        simp only [List.mem_cons, Prod.mk.injEq] at hmem
        rcases hmem with ⟨h1, h3⟩ | h1
        · subst h1 h3
          exact absurd hen he
        · exact ih1 ⟨en, h1, hen⟩
      · intro hno
        exact ih2 (fun ⟨en, h1, h2⟩ => hno ⟨en, List.mem_cons_of_mem _ h1, h2⟩)

/-- C22: when the last `registerCollector` call for the name `k` carries the flag
`b` and the factory `f`, whatever was registered under `k` before, the registry
holds exactly one entry for `k` in each map, with flag `b` and factory `f`, and
`NewCollector` selects `k` exactly when the `enable` test holds for the flag `b`
and then stores under `k` the instance built by `f`. -/
theorem last_registration_wins {κ : Type} (orbit : Char → Char → Bool)
    (pre post : List (String × Bool × (Target → κ))) (k : String) (b : Bool)
    (f : Target → κ) (target : Target) (hlast : ∀ c ∈ post, c.1 ≠ k) :
    (mapKeys (registerAll (pre ++ (k, b, f) :: post)).collectorState).count k = 1 ∧
    (mapKeys (registerAll (pre ++ (k, b, f) :: post)).factories).count k = 1 ∧
    mapGet (registerAll (pre ++ (k, b, f) :: post)).collectorState k = some b ∧
    mapGet (registerAll (pre ++ (k, b, f) :: post)).factories k = some f ∧
    ∃ m, NewCollector orbit (registerAll (pre ++ (k, b, f) :: post)) target = some m ∧
      (k ∈ mapKeys m ↔ collectorEnabled orbit target k b = true) ∧
      mapGet m k = (if collectorEnabled orbit target k b = true then some (f target) else none) := by
  have hget := registerAll_last pre post k b f hlast
  have hnd := registerAll_nodup (pre ++ (k, b, f) :: post)
  have hmemk : k ∈ (pre ++ (k, b, f) :: post).map (fun c => c.1) :=
    List.mem_map.2 ⟨(k, b, f), List.mem_append_right _ (List.mem_cons_self _ _), rfl⟩
  have hk1 : k ∈ mapKeys (registerAll (pre ++ (k, b, f) :: post)).collectorState :=
    (registerAll_state_keys _ k).2 hmemk
  have hk2 : k ∈ mapKeys (registerAll (pre ++ (k, b, f) :: post)).factories :=
    (registerAll_factory_keys _ k).2 hmemk
  obtain ⟨m, hm, hkeys⟩ := NewCollector_spec orbit (pre ++ (k, b, f) :: post) target
  have hiff : (∃ en, (k, en) ∈ (registerAll (pre ++ (k, b, f) :: post)).collectorState ∧
      collectorEnabled orbit target k en = true) ↔ collectorEnabled orbit target k b = true := by
    constructor
    · rintro ⟨en, hmem, hen⟩
      have := (mem_iff_mapGet _ k en hnd.1).1 hmem
      rw [hget.1] at this
      cases this
      exact hen
    · intro hen
      exact ⟨b, (mem_iff_mapGet _ k b hnd.1).2 hget.1, hen⟩
  have hval := newCollectorLoop_get orbit (registerAll (pre ++ (k, b, f) :: post)).factories
    target (registerAll (pre ++ (k, b, f) :: post)).collectorState [] m k hm
  refine ⟨List.count_eq_one_of_mem hnd.1 hk1, List.count_eq_one_of_mem hnd.2 hk2, hget.1,
    hget.2, m, hm, ?_, ?_⟩
  · rw [hkeys k, hiff]
  · by_cases hen : collectorEnabled orbit target k b = true
    · rw [if_pos hen, hval.1 (hiff.2 hen), hget.2]
      rfl
    · rw [if_neg hen, hval.2 (fun h => hen (hiff.1 h))]
      rfl

/-- Witness of C22: "drives" registered default-off with one factory, then
default-on with another; the absent list selects it with the second factory. -/
theorem last_registration_wins_witness :
    (∀ c ∈ [(("volumes", false, fun _ => "NewVolumesExporter") : String × Bool × (Target → String))],
      c.1 ≠ "drives") ∧
    NewCollector asciiOrbit
        (registerAll ([("drives", false, fun _ => "first")] ++
          ("drives", true, fun _ => "second") ::
          [("volumes", false, fun _ => "NewVolumesExporter")]))
        (testTarget none 200 "") = some [("drives", "second")] ∧
    (mapKeys (registerAll ([("drives", false, fun _ => "first")] ++
          (("drives", true, fun _ => "second") : String × Bool × (Target → String)) ::
          [("volumes", false, fun _ => "NewVolumesExporter")])).collectorState).count "drives"
      = 1 :=
  ⟨by decide, by rfl,
    (last_registration_wins asciiOrbit [("drives", false, fun _ => "first")]
      [("volumes", false, fun _ => "NewVolumesExporter")] "drives" true (fun _ => "second")
      (testTarget none 200 "") (by decide)).1⟩

theorem newCollectorLoop_keys {κ : Type} (orbit : Char → Char → Bool)
    (factories : List (String × (Target → κ))) (target : Target)
    (entries : List (String × Bool)) (acc m : List (String × κ))
    (hm : newCollectorLoop orbit factories target entries acc = some m)
    (hnd : (entries.map Prod.fst).Nodup)
    (hdis : ∀ p ∈ entries, p.1 ∉ mapKeys acc) :
    mapKeys m = mapKeys acc ++
      (entries.filter (fun p => collectorEnabled orbit target p.1 p.2)).map Prod.fst := by
  induction entries generalizing acc with
  | nil =>
    simp only [newCollectorLoop, Option.some.injEq] at hm
    subst hm
    simp
  | cons p entries ih =>
    obtain ⟨key, enabled⟩ := p
    simp only [List.map_cons, List.nodup_cons] at hnd
    have hkey : key ∉ mapKeys acc := hdis (key, enabled) (List.mem_cons_self _ _)
    by_cases he : collectorEnabled orbit target key enabled = true
    · cases hfac : mapGet factories key with
      | none => simp [newCollectorLoop, he, hfac] at hm
      | some factory =>
        simp only [newCollectorLoop, he, hfac, if_true] at hm
        have hdis2 : ∀ p ∈ entries, p.1 ∉ mapKeys (mapSet acc key (factory target)) := by
          intro p hp hmem
          rcases (mem_mapKeys_mapSet acc key (factory target) p.1).1 hmem with h1 | h1
          · exact hdis p (List.mem_cons_of_mem _ hp) h1
          · exact hnd.1 (h1 ▸ List.mem_map_of_mem Prod.fst hp)
        rw [ih (mapSet acc key (factory target)) hm hnd.2 hdis2,
          mapSet_of_not_mem acc key (factory target) hkey]
        simp [mapKeys, List.filter_cons, he]
    · simp only [newCollectorLoop, he] at hm
      rw [ih acc hm hnd.2 (fun p hp => hdis p (List.mem_cons_of_mem _ hp))]
      simp [List.filter_cons, he]

theorem NewCollector_keys {κ : Type} (orbit : Char → Char → Bool)
    (calls : List (String × Bool × (Target → κ))) (target : Target)
    (m : List (String × κ))
    (hm : NewCollector orbit (registerAll calls) target = some m) :
    mapKeys m = ((registerAll calls).collectorState.filter
      (fun p => collectorEnabled orbit target p.1 p.2)).map Prod.fst := by
  have h := newCollectorLoop_keys orbit (registerAll calls).factories target
    (registerAll calls).collectorState [] m hm (registerAll_nodup calls).1
    (fun _ _ hmem => by simp [mapKeys] at hmem)
  simpa [mapKeys] using h

/-- C26: with a present requested list `l`, in particular a non-empty one,
appending a name `x` that is matched by no registered name leaves the keys of the
map `NewCollector` returns unchanged, in number and order; every key of the
result is a registered name; and a requested list whose names are all matched by
no registered name yields the empty map, not the default-enabled collectors.
`NewCollector` returns a map in each case, it has no error result. -/
theorem unknown_names_ignored {κ : Type} (orbit : Char → Char → Bool)
    (calls : List (String × Bool × (Target → κ))) (target target2 target3 : Target)
    (l l3 : List String) (x : String)
    (hl : target.Collectors = some l)
    (hl2 : target2.Collectors = some (l ++ [x]))
    (hx : ∀ c ∈ calls, EqualFold orbit x c.1 = false)
    (hl3 : target3.Collectors = some l3)
    (hl3u : ∀ s ∈ l3, ∀ c ∈ calls, EqualFold orbit s c.1 = false) :
    ∃ m m2, NewCollector orbit (registerAll calls) target = some m ∧
      NewCollector orbit (registerAll calls) target2 = some m2 ∧
      mapKeys m2 = mapKeys m ∧
      (∀ k ∈ mapKeys m, k ∈ calls.map (fun c => c.1)) ∧
      NewCollector orbit (registerAll calls) target3 = some [] := by
  obtain ⟨m, hm, hk⟩ := NewCollector_spec orbit calls target
  obtain ⟨m2, hm2, _⟩ := NewCollector_spec orbit calls target2
  have hreg : ∀ p ∈ (registerAll calls).collectorState, ∃ c ∈ calls, c.1 = p.1 := by
    intro p hp
    have h1 : p.1 ∈ mapKeys (registerAll calls).collectorState :=
      List.mem_map_of_mem Prod.fst hp
    rw [registerAll_state_keys] at h1
    obtain ⟨c, hc, hcp⟩ := List.mem_map.1 h1
    exact ⟨c, hc, hcp⟩
  refine ⟨m, m2, hm, hm2, ?_, ?_, ?_⟩
  · rw [NewCollector_keys orbit calls target m hm, NewCollector_keys orbit calls target2 m2 hm2]
    congr 1
    apply List.filter_congr
    intro p hp
    obtain ⟨c, hc, hcp⟩ := hreg p hp
    rw [collectorEnabled_some orbit target p.1 p.2 l hl,
      collectorEnabled_some orbit target2 p.1 p.2 (l ++ [x]) hl2, sliceContains_append]
    have hxp : EqualFold orbit x p.1 = false := hcp ▸ hx c hc
    simp [sliceContains, hxp]
  · intro k hkm
    obtain ⟨en, hmem, _⟩ := (hk k).1 hkm
    rw [← registerAll_state_keys]
    exact List.mem_map_of_mem Prod.fst hmem
  · apply newCollectorLoop_none_enabled
    intro p hp
    obtain ⟨c, hc, hcp⟩ := hreg p hp
    rw [collectorEnabled_some orbit target3 p.1 p.2 l3 hl3]
    cases hs : sliceContains orbit l3 p.1 with
    | false => rfl
    | true =>
      obtain ⟨s, hsl, hse⟩ := (sliceContains_iff orbit l3 p.1).1 hs
      have := hl3u s hsl c hc
      rw [hcp, hse] at this
      cases this

/-- Witness of C26: the lists ["drives"], ["drives", "dne"] and ["dne", "nope"]
against the four registrations of the sources. -/
theorem unknown_names_ignored_witness :
    (∀ c ∈ sourceCalls, EqualFold asciiOrbit "dne" c.1 = false) ∧
    (∀ s ∈ ["dne", "nope"], ∀ c ∈ sourceCalls, EqualFold asciiOrbit s c.1 = false) ∧
    NewCollector asciiOrbit (registerAll sourceCalls) (testTarget (some ["drives"]) 200 "")
      = some [("drives", "NewDrivesExporter")] ∧
    NewCollector asciiOrbit (registerAll sourceCalls)
        (testTarget (some (["drives"] ++ ["dne"])) 200 "")
      = some [("drives", "NewDrivesExporter")] ∧
    ∃ m m2, NewCollector asciiOrbit (registerAll sourceCalls)
        (testTarget (some ["drives"]) 200 "") = some m ∧
      NewCollector asciiOrbit (registerAll sourceCalls)
        (testTarget (some (["drives"] ++ ["dne"])) 200 "") = some m2 ∧
      mapKeys m2 = mapKeys m ∧
      (∀ k ∈ mapKeys m, k ∈ sourceCalls.map (fun c => c.1)) ∧
      NewCollector asciiOrbit (registerAll sourceCalls)
        (testTarget (some ["dne", "nope"]) 200 "") = some [] :=
  ⟨by decide, by decide, by rfl, by rfl,
    unknown_names_ignored asciiOrbit sourceCalls (testTarget (some ["drives"]) 200 "")
      (testTarget (some (["drives"] ++ ["dne"])) 200 "")
      (testTarget (some ["dne", "nope"]) 200 "") ["drives"] ["dne", "nope"] "dne" rfl rfl
      (by decide) rfl (by decide)⟩

/-! ## Values of the status series (C27) -/

theorem oneHot_facts (l : List String) (hnd : l.Nodup) (s : String) (c : Bool)
    (hc : s ∈ l → c = true) :
    (∀ v ∈ l.map (fun x => if x = s then F64.num 1 else F64.num 0) ++
        [if !c then F64.num 1 else F64.num 0], v = F64.num 0 ∨ v = F64.num 1) ∧
    (l.map (fun x => if x = s then F64.num 1 else F64.num 0) ++
        [if !c then F64.num 1 else F64.num 0]).count (F64.num 1) ≤ 1 ∧
    ((∀ v ∈ l.map (fun x => if x = s then F64.num 1 else F64.num 0) ++
        [if !c then F64.num 1 else F64.num 0], v = F64.num 0) ↔ (c = true ∧ s ∉ l)) := by
  have h01 : F64.num 1 ≠ F64.num 0 := by decide
  have hcount : (l.map (fun x => if x = s then F64.num 1 else F64.num 0)).count (F64.num 1)
      = l.count s := by
    clear hnd hc
    induction l with
    | nil => rfl
    | cons a l ih =>
      by_cases ha : a = s
      · subst ha
        simp [ih]
      · have hne : ¬ (a == s) = true := by simpa using ha
        have h10 : ¬ (F64.num 0 == F64.num 1) = true := by decide
        simp [List.count_cons, ha, ih, hne, h10]
  refine ⟨?_, ?_, ?_⟩
  · intro v hv
    simp only [List.mem_append, List.mem_map, List.mem_singleton] at hv
    rcases hv with ⟨x, _, rfl⟩ | rfl
    · by_cases hx : x = s <;> simp [hx]
    · cases c <;> simp
  · rw [List.count_append, hcount]
    by_cases hs : s ∈ l
    · have h1 : l.count s = 1 := List.count_eq_one_of_mem hnd hs
      have hct : c = true := hc hs
      subst hct
      rw [h1]
      have : ([if !true then F64.num 1 else F64.num 0] : List F64).count (F64.num 1) = 0 := by
        decide
      rw [this]
    · have h0 : l.count s = 0 := List.count_eq_zero_of_not_mem hs
      rw [h0]
      cases c
      · have : ([if !false then F64.num 1 else F64.num 0] : List F64).count (F64.num 1)
            = 1 := by decide
        rw [this]
      · have : ([if !true then F64.num 1 else F64.num 0] : List F64).count (F64.num 1)
            = 0 := by decide
        rw [this]
        omega
  · constructor
    · intro hall
      constructor
      · cases c
        · have := hall (F64.num 1) (by simp)
          exact absurd this h01
        · rfl
      · intro hs
        have := hall (F64.num 1)
          (List.mem_append_left _ (List.mem_map.2 ⟨s, hs, by simp⟩))
        exact h01 this
    · rintro ⟨hct, hs⟩ v hv
      subst hct
      simp only [List.mem_append, List.mem_map, List.mem_singleton] at hv
      rcases hv with ⟨x, hx, rfl⟩ | rfl
      · have : x ≠ s := fun h => hs (h ▸ hx)
        simp [this]
      · simp

theorem driveSeries_values (orbit : Char → Char → Bool) (d : Drive) :
    (driveSeries orbit d).map (fun m => m.value) =
      driveStatuses.map (fun x => if x = d.Status then F64.num 1 else F64.num 0) ++
        [if !sliceContains orbit driveStatuses d.Status then F64.num 1 else F64.num 0] := by
  simp [driveSeries]

theorem storageSystemSeries_values (orbit : Char → Char → Bool) (sys : StorageSystem) :
    (storageSystemSeries orbit sys).map (fun m => m.value) =
      storageSystemsStatuses.map (fun x => if x = sys.Status then F64.num 1 else F64.num 0) ++
        [if !sliceContains orbit storageSystemsStatuses sys.Status then F64.num 1
          else F64.num 0] := by
  simp [storageSystemSeries]

/-- C27: for every status string, in both collectors, each of the enumerated
series and the "unknown" series of an entity is valued 0 or 1, at most one of them
is valued 1, and all of them are valued 0 exactly when some enumerated name
matches the status under `EqualFold` while the status is no member of the
enumeration. -/
theorem status_values_zero_or_one (orbit : Char → Char → Bool) (d : Drive)
    (sys : StorageSystem) :
    (∀ v ∈ (driveSeries orbit d).map (fun m => m.value), v = F64.num 0 ∨ v = F64.num 1) ∧
    ((driveSeries orbit d).map (fun m => m.value)).count (F64.num 1) ≤ 1 ∧
    ((∀ v ∈ (driveSeries orbit d).map (fun m => m.value), v = F64.num 0) ↔
      ((∃ s ∈ driveStatuses, EqualFold orbit s d.Status = true) ∧ d.Status ∉ driveStatuses)) ∧
    (∀ v ∈ (storageSystemSeries orbit sys).map (fun m => m.value),
      v = F64.num 0 ∨ v = F64.num 1) ∧
    ((storageSystemSeries orbit sys).map (fun m => m.value)).count (F64.num 1) ≤ 1 ∧
    ((∀ v ∈ (storageSystemSeries orbit sys).map (fun m => m.value), v = F64.num 0) ↔
      ((∃ s ∈ storageSystemsStatuses, EqualFold orbit s sys.Status = true) ∧
        sys.Status ∉ storageSystemsStatuses)) := by
  have hd := oneHot_facts driveStatuses (by decide) d.Status
    (sliceContains orbit driveStatuses d.Status) (sliceContains_of_mem orbit _ _)
  have hs := oneHot_facts storageSystemsStatuses (by decide) sys.Status
    (sliceContains orbit storageSystemsStatuses sys.Status) (sliceContains_of_mem orbit _ _)
  rw [driveSeries_values, storageSystemSeries_values]
  refine ⟨hd.1, hd.2.1, ?_, hs.1, hs.2.1, ?_⟩
  · rw [hd.2.2, sliceContains_iff]
  · rw [hs.2.2, sliceContains_iff]

/-! ## The scrape handler (C23 and C24) -/

/-- C23, evaluated where it fails: the request of the handler test, `module=dne`
without target, names no module of the configuration and is answered with status
400 and the message of the missing target, not with 404; for every
configuration and every module name, the request that carries that module and no
target is answered with status 400, because the target is tested before the
module is looked up.  With a target, `target=test1&module=dne`, the same module
name is answered with 404. -/
theorem unknown_module_without_target_bad_request {κ : Type} (orbit : Char → Char → Bool)
    (lib : HandlerLib) (reg : Registry κ) (c : Config) (m : String) :
    mapGet testConfig.Modules "dne" = none ∧
    metricsHandler asciiOrbit plainHandlerLib (registerAll sourceCalls) testConfig
        [("module", ["dne"])]
      = .httpError 400 "'target' parameter must be specified" ∧
    (metricsHandler asciiOrbit plainHandlerLib (registerAll sourceCalls) testConfig
        [("module", ["dne"])]).errorCode ≠ some 404 ∧
    metricsHandler orbit lib reg c [("module", [m])]
      = .httpError 400 "'target' parameter must be specified" ∧
    metricsHandler asciiOrbit plainHandlerLib (registerAll sourceCalls) testConfig
        [("target", ["test1"]), ("module", ["dne"])]
      = .httpError 404 "Unknown module dne" := by
  have h : (metricsHandler asciiOrbit plainHandlerLib (registerAll sourceCalls) testConfig
        [("module", ["dne"])]).errorCode = some 400 := by rfl
  refine ⟨by rfl, by rfl, ?_, by rfl, by rfl⟩
  rw [h]
  decide

/-- C24: for every request whose target parameter is missing or empty, whatever
its module parameter and whatever the configuration, the handler answers with
status 400 and builds no collector set. -/
theorem missing_target_bad_request {κ : Type} (orbit : Char → Char → Bool)
    (lib : HandlerLib) (reg : Registry κ) (c : Config) (query : List (String × List String))
    (htarget : queryGet query "target" = "") :
    metricsHandler orbit lib reg c query =
      .httpError 400 "'target' parameter must be specified" ∧
    (metricsHandler orbit lib reg c query).errorCode = some 400 ∧
    ∀ target collectors, metricsHandler orbit lib reg c query ≠ .scrape target collectors := by
  have h : metricsHandler orbit lib reg c query =
      .httpError 400 "'target' parameter must be specified" := by
    unfold metricsHandler
    simp only [htarget, if_true]
    rfl
  refine ⟨h, by rw [h]; rfl, ?_⟩
  intro target collectors
  rw [h]
  intro hc
  cases hc

/-- Witness of C24: the empty query and the query `module=ssl`. -/
theorem missing_target_bad_request_witness :
    queryGet [("module", ["ssl"])] "target" = "" ∧
    queryGet [] "target" = "" ∧
    (metricsHandler asciiOrbit plainHandlerLib (registerAll sourceCalls) testConfig
        []).errorCode = some 400 ∧
    (metricsHandler asciiOrbit plainHandlerLib (registerAll sourceCalls) testConfig
        [("module", ["ssl"])]).errorCode = some 400 :=
  ⟨by rfl, by rfl, by rfl,
    (missing_target_bad_request asciiOrbit plainHandlerLib (registerAll sourceCalls) testConfig
      [("module", ["ssl"])] (by rfl)).2.1⟩

/-! ## Decimal texts and the drive key (C28) -/

theorem digitChar_isDig (k : Nat) (hk : k < 10) : isDig (Nat.digitChar k) := by
  unfold isDig
  interval_cases k <;> decide

theorem digitChar_value (k : Nat) (hk : k < 10) : (Nat.digitChar k).toNat - 48 = k := by
  interval_cases k <;> rfl

theorem toDigitsCore_append (fuel n : Nat) (ds : List Char) :
    Nat.toDigitsCore 10 fuel n ds = Nat.toDigitsCore 10 fuel n [] ++ ds := by
  induction fuel generalizing n ds with
  | zero => simp [Nat.toDigitsCore]
  | succ fuel ih =>
    simp only [Nat.toDigitsCore]
    by_cases h : n / 10 = 0
    · simp [h]
    · simp only [h, if_false]
      rw [ih (n / 10) (Nat.digitChar (n % 10) :: ds), ih (n / 10) [Nat.digitChar (n % 10)]]
      simp

theorem toDigitsCore_succ (fuel n : Nat) :
    Nat.toDigitsCore 10 (fuel + 1) n [] =
      (if n / 10 = 0 then [] else Nat.toDigitsCore 10 fuel (n / 10) []) ++
        [Nat.digitChar (n % 10)] := by
  simp only [Nat.toDigitsCore]
  by_cases h : n / 10 = 0
  · simp [h]
  · simp only [h, if_false]
    rw [toDigitsCore_append]

theorem toDigitsCore_isDig (fuel n : Nat) : ∀ c ∈ Nat.toDigitsCore 10 fuel n [], isDig c := by
  induction fuel generalizing n with
  | zero => simp [Nat.toDigitsCore]
  | succ fuel ih =>
    intro c hc
    rw [toDigitsCore_succ] at hc
    rcases List.mem_append.1 hc with h | h
    · by_cases hz : n / 10 = 0
      · simp [hz] at h
      · rw [if_neg hz] at h
        exact ih _ c h
    · rw [List.mem_singleton] at h
      rw [h]
      exact digitChar_isDig _ (Nat.mod_lt _ (by decide))

theorem digitsValue_append_singleton (cs : List Char) (c : Char) :
    digitsValue (cs ++ [c]) = 10 * digitsValue cs + (c.toNat - 48) := by
  simp [digitsValue, List.foldl_append]

theorem digitsValue_toDigitsCore (fuel n : Nat) (h : n < fuel) :
    digitsValue (Nat.toDigitsCore 10 fuel n []) = n := by
  induction fuel generalizing n with
  | zero => omega
  | succ fuel ih =>
    rw [toDigitsCore_succ, digitsValue_append_singleton,
      digitChar_value _ (Nat.mod_lt _ (by decide))]
    by_cases hz : n / 10 = 0
    · rw [if_pos hz]
      have : digitsValue [] = 0 := rfl
      rw [this]
      omega
    · rw [if_neg hz, ih (n / 10) (by omega)]
      omega

theorem toDigits_isNum (n : Nat) : IsNum (Nat.toDigits 10 n) := by
  unfold Nat.toDigits
  constructor
  · rw [toDigitsCore_succ]
    simp
  · exact toDigitsCore_isDig _ _

theorem toDigits_injective (a b : Nat) (h : Nat.toDigits 10 a = Nat.toDigits 10 b) : a = b := by
  have ha := digitsValue_toDigitsCore (a + 1) a (by omega)
  have hb := digitsValue_toDigitsCore (b + 1) b (by omega)
  unfold Nat.toDigits at h
  rw [h, hb] at ha
  exact ha.symm

theorem Itoa_ofNat (m : Nat) : (Itoa (Int.ofNat m)).data = Nat.toDigits 10 m := rfl

theorem Itoa_negSucc (m : Nat) :
    (Itoa (Int.negSucc m)).data = '-' :: Nat.toDigits 10 (m + 1) := rfl

theorem Itoa_isSigned (n : Int) : IsSigned (Itoa n).data := by
  cases n with
  | ofNat m => exact Or.inl (Itoa_ofNat m ▸ toDigits_isNum m)
  | negSucc m => exact Or.inr ⟨_, toDigits_isNum (m + 1), Itoa_negSucc m⟩

theorem isDig_ne_dash (c : Char) (h : isDig c) : c ≠ '-' := by
  intro hc
  subst hc
  revert h
  unfold isDig
  decide

theorem IsNum.head {cs : List Char} (h : IsNum cs) : ∃ c rest, cs = c :: rest ∧ isDig c := by
  cases cs with
  | nil => exact absurd rfl h.1
  | cons c rest => exact ⟨c, rest, rfl, h.2 c (List.mem_cons_self _ _)⟩

theorem IsNum.no_dash {cs : List Char} (h : IsNum cs) : '-' ∉ cs :=
  fun hmem => isDig_ne_dash _ (h.2 _ hmem) rfl

theorem Itoa_injective (a b : Int) (h : Itoa a = Itoa b) : a = b := by
  have hd : (Itoa a).data = (Itoa b).data := by rw [h]
  cases a with
  | ofNat m =>
    cases b with
    | ofNat k =>
      rw [Itoa_ofNat, Itoa_ofNat] at hd
      rw [toDigits_injective m k hd]
    | negSucc k =>
      rw [Itoa_ofNat, Itoa_negSucc] at hd
      obtain ⟨c, rest, hc, hdig⟩ := (toDigits_isNum m).head
      rw [hc] at hd
      exact absurd (List.cons.inj hd).1 (isDig_ne_dash c hdig)
  | negSucc m =>
    cases b with
    | ofNat k =>
      rw [Itoa_ofNat, Itoa_negSucc] at hd
      obtain ⟨c, rest, hc, hdig⟩ := (toDigits_isNum k).head
      rw [hc] at hd
      exact absurd (List.cons.inj hd).1.symm (isDig_ne_dash c hdig)
    | negSucc k =>
      rw [Itoa_negSucc, Itoa_negSucc] at hd
      have := toDigits_injective (m + 1) (k + 1) (List.cons.inj hd).2
      have hmk : m = k := by omega
      rw [hmk]

theorem split_at_dash (A B X Y : List Char) (hA : '-' ∉ A) (hB : '-' ∉ B)
    (h : A ++ '-' :: X = B ++ '-' :: Y) : A = B ∧ X = Y := by
  induction A generalizing B with
  | nil =>
    cases B with
    | nil => exact ⟨rfl, (List.cons.inj h).2⟩
    | cons b B =>
      have hb : '-' = b := (List.cons.inj h).1
      exact absurd (hb ▸ List.mem_cons_self _ _) hB
  | cons a A ih =>
    cases B with
    | nil =>
      have ha : a = '-' := (List.cons.inj h).1
      exact absurd (ha ▸ List.mem_cons_self _ _) hA
    | cons b B =>
      obtain ⟨hab, hrest⟩ := List.cons.inj h
      obtain ⟨h1, h2⟩ := ih B (fun hm => hA (List.mem_cons_of_mem _ hm))
        (fun hm => hB (List.mem_cons_of_mem _ hm)) hrest
      exact ⟨by rw [hab, h1], h2⟩

theorem IsSigned.no_dash_prefix {S D Y : List Char} (hS : IsSigned S) (hD : IsNum D)
    (h : S = D ++ '-' :: Y) : False := by
  rcases hS with hnum | ⟨ds, _, hds⟩
  · exact hnum.no_dash (h ▸ List.mem_append_right _ (List.mem_cons_self _ _))
  · obtain ⟨c, rest, hc, hdig⟩ := hD.head
    rw [hds, hc] at h
    exact isDig_ne_dash c hdig (List.cons.inj h).1.symm

theorem key_split_nil (T S1 S2 : List Char) (hT : T = [] ∨ IsSigned T) (hS1 : IsSigned S1)
    (h : '-' :: S1 = T ++ '-' :: S2) : T = [] ∧ S1 = S2 := by
  rcases hT with hT | hT | ⟨D, hD, hT⟩
  · subst hT
    exact ⟨rfl, (List.cons.inj h).2⟩
  · obtain ⟨c, rest, hc, hdig⟩ := hT.head
    rw [hc] at h
    exact absurd (List.cons.inj h).1.symm (isDig_ne_dash c hdig)
  · subst hT
    exact (hS1.no_dash_prefix hD (List.cons.inj h).2).elim

theorem key_split (T1 T2 S1 S2 : List Char) (hT1 : T1 = [] ∨ IsSigned T1)
    (hT2 : T2 = [] ∨ IsSigned T2) (hS1 : IsSigned S1) (hS2 : IsSigned S2)
    (h : T1 ++ '-' :: S1 = T2 ++ '-' :: S2) : T1 = T2 ∧ S1 = S2 := by
  rcases hT1 with h1 | h1 | ⟨D1, hD1, h1⟩
  · subst h1
    obtain ⟨ht, hs⟩ := key_split_nil T2 S1 S2 hT2 hS1 h
    exact ⟨ht.symm, hs⟩
  · rcases hT2 with h2 | h2 | ⟨D2, hD2, h2⟩
    · subst h2
      obtain ⟨ht, hs⟩ := key_split_nil T1 S2 S1 (Or.inr (Or.inl h1)) hS2 h.symm
      exact ⟨ht, hs.symm⟩
    · exact split_at_dash T1 T2 S1 S2 h1.no_dash h2.no_dash h
    · obtain ⟨c, rest, hc, hdig⟩ := h1.head
      rw [hc, h2] at h
      exact absurd (List.cons.inj h).1 (isDig_ne_dash c hdig)
  · rcases hT2 with h2 | h2 | ⟨D2, hD2, h2⟩
    · subst h2
      obtain ⟨ht, hs⟩ := key_split_nil T1 S2 S1 (Or.inr (Or.inr ⟨D1, hD1, h1⟩)) hS2 h.symm
      exact ⟨ht, hs.symm⟩
    · obtain ⟨c, rest, hc, hdig⟩ := h2.head
      rw [hc, h1] at h
      exact absurd (List.cons.inj h).1.symm (isDig_ne_dash c hdig)
    · rw [h1, h2] at h
      obtain ⟨hd, hs⟩ := split_at_dash D1 D2 S1 S2 hD1.no_dash hD2.no_dash (List.cons.inj h).2
      exact ⟨by rw [h1, h2, hd], hs⟩

theorem foldRune_eq_of_le (orbit : Char → Char → Bool) (a b : Char) (ha : a.toNat ≤ 57)
    (hb : b.toNat ≤ 57) (h : foldRune orbit a b = true) : a = b := by
  by_cases hba : b = a
  · exact hba.symm
  · have hA : 'A'.toNat = 65 := rfl
    rw [foldRune, if_neg hba] at h
    by_cases hlt : b.toNat < a.toNat
    · simp only [hlt, if_true] at h
      rw [if_pos (by omega)] at h
      simp only [decide_eq_true_eq] at h
      omega
    · simp only [hlt, if_false] at h
      rw [if_pos (by omega)] at h
      simp only [decide_eq_true_eq] at h
      omega

theorem equalFoldRunes_eq_of_le (orbit : Char → Char → Bool) (l1 l2 : List Char)
    (h1 : ∀ c ∈ l1, c.toNat ≤ 57) (h2 : ∀ c ∈ l2, c.toNat ≤ 57)
    (h : equalFoldRunes orbit l1 l2 = true) : l1 = l2 := by
  induction l1 generalizing l2 with
  | nil =>
    cases l2 with
    | nil => rfl
    | cons b l2 => simp [equalFoldRunes] at h
  | cons a l1 ih =>
    cases l2 with
    | nil => simp [equalFoldRunes] at h
    | cons b l2 =>
      simp only [equalFoldRunes, Bool.and_eq_true] at h
      have hab := foldRune_eq_of_le orbit a b (h1 a (List.mem_cons_self _ _))
        (h2 b (List.mem_cons_self _ _)) h.1
      have hrest := ih l2 (fun c hc => h1 c (List.mem_cons_of_mem _ hc))
        (fun c hc => h2 c (List.mem_cons_of_mem _ hc)) h.2
      rw [hab, hrest]

theorem IsSigned.le {cs : List Char} (h : IsSigned cs) : ∀ c ∈ cs, c.toNat ≤ 57 := by
  intro c hc
  rcases h with hnum | ⟨ds, hds, heq⟩
  · exact (hnum.2 c hc).2
  · rw [heq] at hc
    rcases List.mem_cons.1 hc with h1 | h1
    · rw [h1]
      decide
    · exact (hds.2 c h1).2

theorem label_shape (t : String) (h : t = "" ∨ ∃ n : Int, t = Itoa n) :
    t.data = [] ∨ IsSigned t.data := by
  rcases h with h | ⟨n, h⟩
  · exact Or.inl (by rw [h])
  · exact Or.inr (h ▸ Itoa_isSigned n)

theorem key_fold_injective (orbit : Char → Char → Bool) (t1 t2 : String) (s1 s2 : Int)
    (h1 : t1 = "" ∨ ∃ n : Int, t1 = Itoa n) (h2 : t2 = "" ∨ ∃ n : Int, t2 = Itoa n)
    (h : EqualFold orbit (t1 ++ "-" ++ Itoa s1) (t2 ++ "-" ++ Itoa s2) = true) :
    t1 = t2 ∧ s1 = s2 := by
  have hk1 : (t1 ++ "-" ++ Itoa s1).data = t1.data ++ '-' :: (Itoa s1).data := by
    simp [String.data_append]
  have hk2 : (t2 ++ "-" ++ Itoa s2).data = t2.data ++ '-' :: (Itoa s2).data := by
    simp [String.data_append]
  have hle : ∀ (t : String) (s : Int), (t.data = [] ∨ IsSigned t.data) →
      ∀ c ∈ t.data ++ '-' :: (Itoa s).data, c.toNat ≤ 57 := by
    intro t s ht c hc
    rcases List.mem_append.1 hc with hc1 | hc1
    · rcases ht with ht | ht
      · rw [ht] at hc1
        cases hc1
      · exact ht.le c hc1
    · rcases List.mem_cons.1 hc1 with hc2 | hc2
      · rw [hc2]
        decide
      · exact (Itoa_isSigned s).le c hc2
  unfold EqualFold at h
  rw [hk1, hk2] at h
  have heq := equalFoldRunes_eq_of_le orbit _ _ (hle t1 s1 (label_shape t1 h1))
    (hle t2 s2 (label_shape t2 h2)) h
  obtain ⟨ht, hs⟩ := key_split t1.data t2.data (Itoa s1).data (Itoa s2).data
    (label_shape t1 h1) (label_shape t2 h2) (Itoa_isSigned s1) (Itoa_isSigned s2) heq
  exact ⟨String.ext ht, Itoa_injective s1 s2 (String.ext hs)⟩


theorem driveLoop_ids_subset (orbit : Char → Char → Bool) (trays : List (String × Int))
    (L : List Drive) (st : DriveLoop) :
    ∀ id ∈ (L.foldl (driveStep orbit trays) st).ids,
      id ∈ st.ids ∨ ∃ x ∈ L, id = driveKey (resolveDrive trays x) := by
  induction L generalizing st with
  | nil =>
    intro id hid
    exact Or.inl hid
  | cons y L ih =>
    intro id hid
    rcases ih (driveStep orbit trays st y) id hid with h | ⟨x, hx, hxe⟩
    · by_cases hc : sliceContains orbit st.ids (driveKey (resolveDrive trays y)) = true
      · rw [driveStep_skips orbit trays st y hc] at h
        exact Or.inl h
      · have hstep : (driveStep orbit trays st y).ids
            = st.ids ++ [driveKey (resolveDrive trays y)] := by
          simp [driveStep, hc]
        rw [hstep] at h
        rcases List.mem_append.1 h with h1 | h1
        · exact Or.inl h1
        · rw [List.mem_singleton] at h1
          exact Or.inr ⟨y, List.mem_cons_self _ _, h1⟩
    · exact Or.inr ⟨x, List.mem_cons_of_mem _ hx, hxe⟩

theorem driveKey_resolve (trays : List (String × Int)) (d : Drive) :
    driveKey (resolveDrive trays d)
      = (resolveDrive trays d).TrayID ++ "-" ++ Itoa d.PhysicalLocation.Slot := by
  unfold driveKey resolveDrive
  cases mapGet trays d.PhysicalLocation.TrayRef <;> rfl

/-- C28: for drives whose tray labels are empty or the decimal text of an integer,
with any integer slots, two keys that match under the comparison `sliceContains`
uses belong to the same tray label and the same slot; hence a drive that the
loop skips after the drives `L` has the tray label and the slot of some drive of
`L`. -/
theorem drive_key_injective (orbit : Char → Char → Bool) (trays : List Tray)
    (L : List Drive) (d1 d2 : Drive) (errorMetric : Int)
    (h1 : (resolveDrive (trayMap trays) d1).TrayID = "" ∨
      ∃ n : Int, (resolveDrive (trayMap trays) d1).TrayID = Itoa n)
    (h2 : (resolveDrive (trayMap trays) d2).TrayID = "" ∨
      ∃ n : Int, (resolveDrive (trayMap trays) d2).TrayID = Itoa n)
    (hL : ∀ x ∈ L, (resolveDrive (trayMap trays) x).TrayID = "" ∨
      ∃ n : Int, (resolveDrive (trayMap trays) x).TrayID = Itoa n) :
    (EqualFold orbit (driveKey (resolveDrive (trayMap trays) d1))
        (driveKey (resolveDrive (trayMap trays) d2)) = true →
      (resolveDrive (trayMap trays) d1).TrayID = (resolveDrive (trayMap trays) d2).TrayID ∧
      d1.PhysicalLocation.Slot = d2.PhysicalLocation.Slot) ∧
    (sliceContains orbit
        (L.foldl (driveStep orbit (trayMap trays))
          { ids := [], errorMetric := errorMetric, ch := [] }).ids
        (driveKey (resolveDrive (trayMap trays) d1)) = true →
      ∃ x ∈ L,
        (resolveDrive (trayMap trays) x).TrayID = (resolveDrive (trayMap trays) d1).TrayID ∧
        x.PhysicalLocation.Slot = d1.PhysicalLocation.Slot) := by
  constructor
  · intro h
    rw [driveKey_resolve, driveKey_resolve] at h
    exact key_fold_injective orbit _ _ _ _ h1 h2 h
  · intro h
    obtain ⟨id, hid, hfold⟩ := (sliceContains_iff orbit _ _).1 h
    rcases driveLoop_ids_subset orbit (trayMap trays) L _ id hid with hnil | ⟨x, hx, hxe⟩
    · cases hnil
    · rw [hxe, driveKey_resolve, driveKey_resolve] at hfold
      exact ⟨x, hx, key_fold_injective orbit _ _ _ _ (hL x hx) h1 hfold⟩

/-- Witness of C28: the drives at slots 53 and 58 of tray 0 and the second record
for slot 53. -/
theorem drive_key_injective_witness :
    ((resolveDrive (trayMap [tray0]) repeatedDrive).TrayID = "" ∨
      ∃ n : Int, (resolveDrive (trayMap [tray0]) repeatedDrive).TrayID = Itoa n) ∧
    ((resolveDrive (trayMap [tray0]) optimalDrive).TrayID = "" ∨
      ∃ n : Int, (resolveDrive (trayMap [tray0]) optimalDrive).TrayID = Itoa n) ∧
    (∃ x ∈ [failedDrive, optimalDrive],
      (resolveDrive (trayMap [tray0]) x).TrayID
        = (resolveDrive (trayMap [tray0]) repeatedDrive).TrayID ∧
      x.PhysicalLocation.Slot = repeatedDrive.PhysicalLocation.Slot) :=
  ⟨Or.inr ⟨0, by rfl⟩, Or.inr ⟨0, by rfl⟩,
    (drive_key_injective asciiOrbit [tray0] [failedDrive, optimalDrive] repeatedDrive
      optimalDrive 0 (Or.inr ⟨0, by rfl⟩) (Or.inr ⟨0, by rfl⟩)
      (by
        intro x hx
        simp only [List.mem_cons, List.mem_singleton, List.not_mem_nil, or_false] at hx
        rcases hx with rfl | rfl
        · exact Or.inr ⟨0, by rfl⟩
        · exact Or.inr ⟨0, by rfl⟩)).2 (by rfl)⟩

/-! ## Repeated keys dropped, first record kept (C25) -/

theorem resolveDrive_slot (trays : List (String × Int)) (d : Drive) :
    (resolveDrive trays d).Slot = Itoa d.PhysicalLocation.Slot := by
  unfold resolveDrive
  cases mapGet trays d.PhysicalLocation.TrayRef <;> rfl

theorem driveKey_traySlot (trays : List Tray) (d : Drive) :
    driveKey (resolveDrive (trayMap trays) d)
      = (traySlot trays d).1 ++ "-" ++ (traySlot trays d).2 := rfl

theorem traySlot_eq_of_fold (orbit : Char → Char → Bool) (trays : List Tray) (x d : Drive)
    (hx : (resolveDrive (trayMap trays) x).TrayID = "" ∨
      ∃ n : Int, (resolveDrive (trayMap trays) x).TrayID = Itoa n)
    (hd : (resolveDrive (trayMap trays) d).TrayID = "" ∨
      ∃ n : Int, (resolveDrive (trayMap trays) d).TrayID = Itoa n)
    (h : EqualFold orbit (driveKey (resolveDrive (trayMap trays) x))
      (driveKey (resolveDrive (trayMap trays) d)) = true) :
    traySlot trays x = traySlot trays d := by
  rw [driveKey_resolve, driveKey_resolve] at h
  obtain ⟨ht, hs⟩ := key_fold_injective orbit _ _ _ _ hx hd h
  unfold traySlot
  rw [resolveDrive_slot, resolveDrive_slot, ht, hs]

theorem driveLoop_refines (orbit : Char → Char → Bool) (trays : List Tray) (L : List Drive)
    (st : DriveLoop) (earlier : List (String × String))
    (hdom : ∀ d ∈ L, (resolveDrive (trayMap trays) d).TrayID = "" ∨
      ∃ n : Int, (resolveDrive (trayMap trays) d).TrayID = Itoa n)
    (hinv1 : ∀ id ∈ st.ids, ∃ x : Drive,
      ((resolveDrive (trayMap trays) x).TrayID = "" ∨
        ∃ n : Int, (resolveDrive (trayMap trays) x).TrayID = Itoa n) ∧
      id = driveKey (resolveDrive (trayMap trays) x) ∧ traySlot trays x ∈ earlier)
    (hinv2 : ∀ p ∈ earlier, ∃ x : Drive,
      ((resolveDrive (trayMap trays) x).TrayID = "" ∨
        ∃ n : Int, (resolveDrive (trayMap trays) x).TrayID = Itoa n) ∧
      p = traySlot trays x ∧ driveKey (resolveDrive (trayMap trays) x) ∈ st.ids) :
    (L.foldl (driveStep orbit (trayMap trays)) st).ch = st.ch ++
      (dropRepeatedFrom trays earlier L).flatMap
        (fun d => driveSeries orbit (resolveDrive (trayMap trays) d)) := by
  induction L generalizing st earlier with
  | nil => simp [dropRepeatedFrom]
  | cons d L ih =>
    have hd := hdom d (List.mem_cons_self _ _)
    have hdomL : ∀ y ∈ L, (resolveDrive (trayMap trays) y).TrayID = "" ∨
        ∃ n : Int, (resolveDrive (trayMap trays) y).TrayID = Itoa n :=
      fun y hy => hdom y (List.mem_cons_of_mem _ hy)
    have hiff : sliceContains orbit st.ids (driveKey (resolveDrive (trayMap trays) d)) = true ↔
        traySlot trays d ∈ earlier := by
      constructor
      · intro h
        obtain ⟨id, hid, hfold⟩ := (sliceContains_iff orbit _ _).1 h
        obtain ⟨x, hx, hxe, hxp⟩ := hinv1 id hid
        rw [hxe] at hfold
        rw [← traySlot_eq_of_fold orbit trays x d hx hd hfold]
        exact hxp
      · intro h
        obtain ⟨x, _, hxp, hxk⟩ := hinv2 _ h
        apply sliceContains_of_mem
        rw [driveKey_traySlot, hxp, ← driveKey_traySlot]
        exact hxk
    simp only [List.foldl_cons]
    by_cases hc : sliceContains orbit st.ids (driveKey (resolveDrive (trayMap trays) d)) = true
    · have hmem := hiff.1 hc
      rw [driveStep_skips orbit (trayMap trays) st d hc]
      rw [ih { st with errorMetric := 1 } (earlier ++ [traySlot trays d]) hdomL]
      · simp [dropRepeatedFrom, hmem]
      · intro id hid
        obtain ⟨x, hx, hxe, hxp⟩ := hinv1 id hid
        exact ⟨x, hx, hxe, List.mem_append_left _ hxp⟩
      · intro p hp
        rcases List.mem_append.1 hp with h1 | h1
        · exact hinv2 p h1
        · rw [List.mem_singleton] at h1
          rw [h1]
          exact hinv2 _ hmem
    · have hmem : traySlot trays d ∉ earlier := fun h => hc (hiff.2 h)
      have hstep : driveStep orbit (trayMap trays) st d =
          { ids := st.ids ++ [driveKey (resolveDrive (trayMap trays) d)]
            errorMetric := st.errorMetric
            ch := st.ch ++ driveSeries orbit (resolveDrive (trayMap trays) d) } := by
        simp [driveStep, hc]
      rw [hstep, ih _ (earlier ++ [traySlot trays d]) hdomL]
      · simp [dropRepeatedFrom, hmem]
      · intro id hid
        rcases List.mem_append.1 hid with h1 | h1
        · obtain ⟨x, hx, hxe, hxp⟩ := hinv1 id h1
          exact ⟨x, hx, hxe, List.mem_append_left _ hxp⟩
        · rw [List.mem_singleton] at h1
          exact ⟨d, hd, h1, List.mem_append_right _ (List.mem_singleton.2 rfl)⟩
      · intro p hp
        rcases List.mem_append.1 hp with h1 | h1
        · obtain ⟨x, hx, hxp, hxk⟩ := hinv2 p h1
          exact ⟨x, hx, hxp, List.mem_append_left _ hxk⟩
        · rw [List.mem_singleton] at h1
          exact ⟨d, hd, h1, List.mem_append_right _ (List.mem_singleton.2 rfl)⟩

theorem dropRepeatedFrom_mem (trays : List Tray) (earlier : List (String × String))
    (L : List Drive) : ∀ x ∈ dropRepeatedFrom trays earlier L, x ∈ L := by
  induction L generalizing earlier with
  | nil => simp [dropRepeatedFrom]
  | cons d L ih =>
    intro x hx
    by_cases h : traySlot trays d ∈ earlier
    · simp only [dropRepeatedFrom, h, if_true] at hx
      exact List.mem_cons_of_mem _ (ih _ x hx)
    · simp only [dropRepeatedFrom, h, if_false, List.mem_cons] at hx
      rcases hx with h1 | h1
      · rw [h1]
        exact List.mem_cons_self _ _
      · exact List.mem_cons_of_mem _ (ih _ x h1)

theorem dropRepeatedFrom_nodup (trays : List Tray) (earlier : List (String × String))
    (L : List Drive) :
    ((dropRepeatedFrom trays earlier L).map (traySlot trays)).Nodup ∧
    ∀ x ∈ dropRepeatedFrom trays earlier L, traySlot trays x ∉ earlier := by
  induction L generalizing earlier with
  | nil => simp [dropRepeatedFrom]
  | cons d L ih =>
    obtain ⟨ih1, ih2⟩ := ih (earlier ++ [traySlot trays d])
    by_cases h : traySlot trays d ∈ earlier
    · simp only [dropRepeatedFrom, h, if_true]
      exact ⟨ih1, fun x hx hm => ih2 x hx (List.mem_append_left _ hm)⟩
    · simp only [dropRepeatedFrom, h, if_false, List.map_cons, List.nodup_cons]
      refine ⟨⟨?_, ih1⟩, ?_⟩
      · intro hm
        obtain ⟨x, hx, hxe⟩ := List.mem_map.1 hm
        exact ih2 x hx (List.mem_append_right _ (List.mem_singleton.2 hxe))
      · intro x hx
        rcases List.mem_cons.1 hx with h1 | h1
        · rw [h1]
          exact h
        · exact fun hm => ih2 x h1 (List.mem_append_left _ hm)

theorem seriesAt_drive_status (orbit : Char → Char → Bool) (trays : List (String × Int))
    (X : List Drive) (tail : List Metric)
    (htail : ∀ m ∈ tail, m.desc ≠ "eseries_drive_status") :
    seriesAt (X.flatMap (fun d => driveSeries orbit (resolveDrive trays d)) ++ tail)
      "eseries_drive_status"
      = X.flatMap (fun d => driveSeries orbit (resolveDrive trays d)) := by
  rw [seriesAt, List.filter_append]
  have h1 : (X.flatMap (fun d => driveSeries orbit (resolveDrive trays d))).filter
      (fun m => decide (m.desc = "eseries_drive_status"))
      = X.flatMap (fun d => driveSeries orbit (resolveDrive trays d)) := by
    apply List.filter_eq_self.2
    intro m hm
    obtain ⟨d, _, hd⟩ := List.mem_flatMap.1 hm
    simp only [driveSeries, List.mem_append, List.mem_map, List.mem_singleton] at hd
    rcases hd with ⟨s, _, rfl⟩ | rfl <;> rfl
  have h2 : tail.filter (fun m => decide (m.desc = "eseries_drive_status")) = [] := by
    apply List.filter_eq_nil_iff.2
    intro m hm
    simpa using htail m hm
  rw [h1, h2, List.append_nil]

/-- C25 (amended): for an inventory whose tray labels are empty or decimal, the drive_status
series `Collect` sends are, in input order, the series of the drive list with
every record removed whose (tray, slot) key occurred earlier in the list, and
they are exactly the drive_status series `Collect` sends when `collect` returns
that shortened list. -/
theorem drives_collect_drops_repeated_keys (orbit : Char → Char → Bool) (net : NetLib)
    (unmarshal unmarshal2 : String → DrivesInventory × Option String) (target : Target)
    (dur dur2 : F64) (L : List Drive) (trays : List Tray) (e e2 : Option String)
    (hL : DrivesCollector.collect net unmarshal target = ({ Drives := L, Trays := trays }, e))
    (hD : DrivesCollector.collect net unmarshal2 target
      = ({ Drives := dropRepeated trays L, Trays := trays }, e2))
    (hdom : ∀ d ∈ L, (resolveDrive (trayMap trays) d).TrayID = "" ∨
      ∃ n : Int, (resolveDrive (trayMap trays) d).TrayID = Itoa n) :
    seriesAt (DrivesCollector.Collect orbit net unmarshal target dur) "eseries_drive_status"
      = (dropRepeated trays L).flatMap
          (fun d => driveSeries orbit (resolveDrive (trayMap trays) d)) ∧
    seriesAt (DrivesCollector.Collect orbit net unmarshal target dur) "eseries_drive_status"
      = seriesAt (DrivesCollector.Collect orbit net unmarshal2 target dur2)
          "eseries_drive_status" := by
  have htail : ∀ (v w : F64), ∀ m ∈
      ([ { desc := collectError, value := v, labels := ["drives"] },
         { desc := collectDuration, value := w, labels := ["drives"] } ] : List Metric),
      m.desc ≠ "eseries_drive_status" := by
    intro v w m hm
    simp only [List.mem_cons, List.mem_singleton, List.not_mem_nil, or_false] at hm
    rcases hm with rfl | rfl
    · show collectError ≠ "eseries_drive_status"
      decide
    · show collectDuration ≠ "eseries_drive_status"
      decide
  have h1 : seriesAt (DrivesCollector.Collect orbit net unmarshal target dur)
      "eseries_drive_status"
      = (dropRepeated trays L).flatMap
          (fun d => driveSeries orbit (resolveDrive (trayMap trays) d)) := by
    have hloop := driveLoop_refines orbit trays L
      { ids := [], errorMetric := if e.isSome then 1 else 0, ch := [] } [] hdom
      (fun _ h => by cases h) (fun _ h => by cases h)
    simp only [DrivesCollector.Collect, hL]
    rw [hloop]
    simp only [List.nil_append]
    exact seriesAt_drive_status orbit (trayMap trays) _ _ (htail _ _)
  have h2 : seriesAt (DrivesCollector.Collect orbit net unmarshal2 target dur2)
      "eseries_drive_status"
      = (dropRepeated trays L).flatMap
          (fun d => driveSeries orbit (resolveDrive (trayMap trays) d)) := by
    have hnd := dropRepeatedFrom_nodup trays [] L
    have hpw : (driveKeys trays (dropRepeated trays L)).Pairwise
        (fun a b => EqualFold orbit a b = false) := by
      unfold driveKeys
      rw [List.pairwise_map]
      have hp : (dropRepeated trays L).Pairwise
          (fun x y => traySlot trays x ≠ traySlot trays y) := by
        have := hnd.1
        unfold List.Nodup at this
        rw [List.pairwise_map] at this
        exact this
      refine hp.imp_of_mem ?_
      intro x y hx hy hne
      cases hf : EqualFold orbit (driveKey (resolveDrive (trayMap trays) x))
          (driveKey (resolveDrive (trayMap trays) y)) with
      | false => rfl
      | true =>
        exact absurd (traySlot_eq_of_fold orbit trays x y
          (hdom x (dropRepeatedFrom_mem trays [] L x hx))
          (hdom y (dropRepeatedFrom_mem trays [] L y hy)) hf) hne
    have hloop := driveLoop_distinct orbit (trayMap trays) (dropRepeated trays L)
      { ids := [], errorMetric := if e2.isSome then 1 else 0, ch := [] } hpw (fun _ _ => rfl)
    simp only [DrivesCollector.Collect, hD]
    rw [hloop.1]
    simp only [List.nil_append]
    exact seriesAt_drive_status orbit (trayMap trays) _ _ (htail _ _)
  exact ⟨h1, h1.trans h2.symm⟩

/-- Witness of C25 (amended): slots 53 and 58 of tray 0 followed by a second record for slot
53; the shortened list is the first two records. -/
theorem drives_collect_drops_repeated_keys_witness :
    dropRepeated [tray0] [failedDrive, optimalDrive, repeatedDrive]
      = [failedDrive, optimalDrive] ∧
    seriesAt (DrivesCollector.Collect asciiOrbit plainNet
        (decodeTo { Drives := [failedDrive, optimalDrive, repeatedDrive], Trays := [tray0] })
        (testTarget none 200 "{}") (F64.num 0)) "eseries_drive_status"
      = seriesAt (DrivesCollector.Collect asciiOrbit plainNet
        (decodeTo { Drives := dropRepeated [tray0] [failedDrive, optimalDrive, repeatedDrive],
                    Trays := [tray0] })
        (testTarget none 200 "{}") (F64.num 0)) "eseries_drive_status" :=
  ⟨by rfl,
    (drives_collect_drops_repeated_keys asciiOrbit plainNet
      (decodeTo { Drives := [failedDrive, optimalDrive, repeatedDrive], Trays := [tray0] })
      (decodeTo { Drives := dropRepeated [tray0] [failedDrive, optimalDrive, repeatedDrive],
                  Trays := [tray0] })
      (testTarget none 200 "{}") (F64.num 0) (F64.num 0)
      [failedDrive, optimalDrive, repeatedDrive] [tray0] none none (by rfl) (by rfl)
      (by
        intro x hx
        simp only [List.mem_cons, List.mem_singleton, List.not_mem_nil, or_false] at hx
        rcases hx with rfl | rfl | rfl
        · exact Or.inr ⟨0, by rfl⟩
        · exact Or.inr ⟨0, by rfl⟩
        · exact Or.inr ⟨0, by rfl⟩)).2⟩

/-! ## Drives whose tray reference matches no tray (C29) -/

theorem trayMap_fold_get_other (ts : List Tray) (m : List (String × Int)) (k : String)
    (h : ∀ u ∈ ts, u.TrayRef ≠ k) :
    mapGet (ts.foldl (fun m t => mapSet m t.TrayRef t.ID) m) k = mapGet m k := by
  induction ts generalizing m with
  | nil => rfl
  | cons u ts ih =>
    rw [List.foldl_cons, ih _ (fun x hx => h x (List.mem_cons_of_mem _ hx)), mapGet_mapSet,
      if_neg (h u (List.mem_cons_self _ _))]

theorem trayMap_last (pre post : List Tray) (t : Tray)
    (h : ∀ u ∈ post, u.TrayRef ≠ t.TrayRef) :
    mapGet (trayMap (pre ++ t :: post)) t.TrayRef = some t.ID := by
  unfold trayMap
  rw [List.foldl_append, List.foldl_cons, trayMap_fold_get_other _ _ _ h, mapGet_mapSet,
    if_pos rfl]

theorem resolveDrive_unmatched (trays : List (String × Int)) (d : Drive)
    (h : mapGet trays d.PhysicalLocation.TrayRef = none) :
    resolveDrive trays d = { d with Slot := Itoa d.PhysicalLocation.Slot } := by
  unfold resolveDrive
  rw [h]

/-- Counterexample to C29: the drive at slot 53 whose tray reference "gone" matches
no tray and whose decoded record carries the tray label "7" is sent with tray label
"7", not with an empty one, and the drive at slot 53 with the unmatched reference
"lost" and no carried label is sent as well: the two unmatched drives with equal
slot numbers are not duplicates and the error gauge stays 0. -/
theorem unmatched_tray_label_counterexample :
    mapGet (trayMap [tray0]) strayDrive.PhysicalLocation.TrayRef = none ∧
    mapGet (trayMap [tray0]) lostDrive.PhysicalLocation.TrayRef = none ∧
    strayDrive.PhysicalLocation.Slot = lostDrive.PhysicalLocation.Slot ∧
    (seriesAt (DrivesCollector.Collect asciiOrbit plainNet
        (decodeTo { Drives := [strayDrive, lostDrive], Trays := [tray0] })
        (testTarget none 200 "{}") (F64.num 0)) "eseries_drive_status").map
        (fun m => m.labels.take 2)
      = List.replicate 12 ["7", "53"] ++ List.replicate 12 ["", "53"] ∧
    valuesAt (DrivesCollector.Collect asciiOrbit plainNet
        (decodeTo { Drives := [strayDrive, lostDrive], Trays := [tray0] })
        (testTarget none 200 "{}") (F64.num 0)) ["drives"]
      = [F64.num 0, F64.num 0] := by
  refine ⟨by rfl, by rfl, by rfl, by rfl, by rfl⟩

/-- C29 (amended): a drive whose trayRef matches no tray keeps the tray label its
decoded record carries in the field `TrayID` and gets its slot number as slot
label; when its key was not seen before, its twelve series are sent with these two
labels and the error flag is left as it was; a second unmatched drive with the same
carried tray label and the same slot number is skipped after it with the error flag
set, whatever the two trayRefs are; and a trayRef shared by several trays maps to
the id of the last of them. -/
theorem unmatched_tray_keeps_carried_label (orbit : Char → Char → Bool)
    (trays pre post : List Tray) (t : Tray) (d d2 : Drive) (st : DriveLoop)
    (hun : mapGet (trayMap trays) d.PhysicalLocation.TrayRef = none)
    (hun2 : mapGet (trayMap trays) d2.PhysicalLocation.TrayRef = none)
    (hlabel : d2.TrayID = d.TrayID)
    (hslot : d2.PhysicalLocation.Slot = d.PhysicalLocation.Slot)
    (hlast : ∀ u ∈ post, u.TrayRef ≠ t.TrayRef) :
    resolveDrive (trayMap trays) d = { d with Slot := Itoa d.PhysicalLocation.Slot } ∧
    (∀ m ∈ driveSeries orbit (resolveDrive (trayMap trays) d),
      m.labels.take 2 = [d.TrayID, Itoa d.PhysicalLocation.Slot]) ∧
    (sliceContains orbit st.ids (d.TrayID ++ "-" ++ Itoa d.PhysicalLocation.Slot) = false →
      (driveStep orbit (trayMap trays) st d).ch
        = st.ch ++ driveSeries orbit { d with Slot := Itoa d.PhysicalLocation.Slot } ∧
      (driveStep orbit (trayMap trays) st d).errorMetric = st.errorMetric) ∧
    driveStep orbit (trayMap trays) (driveStep orbit (trayMap trays) st d) d2
      = { driveStep orbit (trayMap trays) st d with errorMetric := 1 } ∧
    mapGet (trayMap (pre ++ t :: post)) t.TrayRef = some t.ID := by
  have hr := resolveDrive_unmatched (trayMap trays) d hun
  have hr2 := resolveDrive_unmatched (trayMap trays) d2 hun2
  refine ⟨hr, ?_, ?_, ?_, trayMap_last pre post t hlast⟩
  · intro m hm
    rw [hr] at hm
    simp only [driveSeries, List.mem_append, List.mem_map, List.mem_singleton] at hm
    rcases hm with ⟨s, _, rfl⟩ | rfl <;> rfl
  · intro h
    have h2 : sliceContains orbit st.ids (driveKey (resolveDrive (trayMap trays) d)) = false := by
      rw [hr]
      exact h
    have := driveStep_emits orbit (trayMap trays) st d h2
    rw [hr] at this
    exact this
  · apply driveStep_skips
    have hk : driveKey (resolveDrive (trayMap trays) d2)
        = driveKey (resolveDrive (trayMap trays) d) := by
      rw [hr, hr2]
      simp only [driveKey, hlabel, hslot]
    rw [hk]
    exact driveStep_ids_self orbit (trayMap trays) st d

/-- Witness of C29 (amended): two drives at slot 53 with the unmatched references
"lost" and "nowhere" and no carried tray label: the second is skipped after the
first; and of two trays with reference "tray0" the later id 9 is the one used. -/
theorem unmatched_tray_keeps_carried_label_witness :
    (∀ m ∈ driveSeries asciiOrbit (resolveDrive (trayMap [tray0]) lostDrive),
      m.labels.take 2 = ["", "53"]) ∧
    driveStep asciiOrbit (trayMap [tray0])
        (driveStep asciiOrbit (trayMap [tray0]) { ids := [], errorMetric := 0, ch := [] }
          lostDrive) lostDrive2
      = { driveStep asciiOrbit (trayMap [tray0]) { ids := [], errorMetric := 0, ch := [] }
            lostDrive with errorMetric := 1 } ∧
    mapGet (trayMap ([tray0] ++ { TrayRef := "tray0", ID := 9 } ::
      [{ TrayRef := "tray1", ID := 1 }])) "tray0" = some 9 :=
  have h := unmatched_tray_keeps_carried_label asciiOrbit [tray0] [tray0]
    [{ TrayRef := "tray1", ID := 1 }] { TrayRef := "tray0", ID := 9 } lostDrive lostDrive2
    { ids := [], errorMetric := 0, ch := [] } (by rfl) (by rfl) (by rfl) (by rfl)
    (by
      intro u hu
      rw [List.mem_singleton] at hu
      rw [hu]
      decide)
  ⟨h.2.1, h.2.2.2.1, h.2.2.2.2⟩

/-! ## Exact status at collector level (C3) -/

theorem driveKeys_pairwise_of_nodup (orbit : Char → Char → Bool) (trays : List Tray)
    (L : List Drive)
    (hdom : ∀ d ∈ L, (resolveDrive (trayMap trays) d).TrayID = "" ∨
      ∃ n : Int, (resolveDrive (trayMap trays) d).TrayID = Itoa n)
    (hnd : (L.map (traySlot trays)).Nodup) :
    (driveKeys trays L).Pairwise (fun a b => EqualFold orbit a b = false) := by
  unfold driveKeys
  rw [List.pairwise_map]
  have hp : L.Pairwise (fun x y => traySlot trays x ≠ traySlot trays y) := by
    unfold List.Nodup at hnd
    rw [List.pairwise_map] at hnd
    exact hnd
  refine hp.imp_of_mem ?_
  intro x y hx hy hne
  cases hf : EqualFold orbit (driveKey (resolveDrive (trayMap trays) x))
      (driveKey (resolveDrive (trayMap trays) y)) with
  | false => rfl
  | true => exact absurd (traySlot_eq_of_fold orbit trays x y (hdom x hx) (hdom y hy) hf) hne

/-- Counterexample to C12: two drives at slot 1 whose decoded records carry the
tray labels "A" and "a" have distinct (tray, slot) keys and are fetched and
decoded without error, yet `Collect` sends 12 status series and 14 series in
all, with the error gauge at 1; likewise the drives with tray label "1-" at slot
2 and tray label "1" at slot -2, whose key texts are both "1--2". -/
theorem drives_distinct_pairs_counterexample :
    ([upperDrive, lowerDrive].map (traySlot [])).Nodup ∧
    DrivesCollector.collect plainNet (decodeTo { Drives := [upperDrive, lowerDrive], Trays := [] })
        (testTarget none 200 "{}")
      = ({ Drives := [upperDrive, lowerDrive], Trays := [] }, none) ∧
    (seriesAt (DrivesCollector.Collect asciiOrbit plainNet
        (decodeTo { Drives := [upperDrive, lowerDrive], Trays := [] })
        (testTarget none 200 "{}") (F64.num 0)) "eseries_drive_status").length = 12 ∧
    (DrivesCollector.Collect asciiOrbit plainNet
        (decodeTo { Drives := [upperDrive, lowerDrive], Trays := [] })
        (testTarget none 200 "{}") (F64.num 0)).length = 14 ∧
    valuesAt (DrivesCollector.Collect asciiOrbit plainNet
        (decodeTo { Drives := [upperDrive, lowerDrive], Trays := [] })
        (testTarget none 200 "{}") (F64.num 0)) ["drives"] = [F64.num 1, F64.num 0] ∧
    ([dashDrive, minusDrive].map (traySlot [])).Nodup ∧
    driveKeys [] [dashDrive, minusDrive] = ["1--2", "1--2"] ∧
    (DrivesCollector.Collect asciiOrbit plainNet
        (decodeTo { Drives := [dashDrive, minusDrive], Trays := [] })
        (testTarget none 200 "{}") (F64.num 0)).length = 14 ∧
    valuesAt (DrivesCollector.Collect asciiOrbit plainNet
        (decodeTo { Drives := [dashDrive, minusDrive], Trays := [] })
        (testTarget none 200 "{}") (F64.num 0)) ["drives"] = [F64.num 1, F64.num 0] := by
  refine ⟨by decide, by rfl, by rfl, by rfl, by rfl, by decide, by rfl, by rfl, by rfl⟩

/-- C12 (amended): when `collect` succeeds with inventory `inv` (hence at least one
drive), every tray label is empty or the decimal text of an integer, and the
(tray, slot) keys of the drives are pairwise distinct, `Collect` sends the twelve
series of every drive in input order, then the error gauge with value 0 and the
duration gauge: 12 n status series and 12 n + 2 series in all.  The twelve series
of a drive are drive_status series labelled with its tray label, its slot and, in
order, the eleven enumerated statuses and "unknown"; the tray label is the decimal
text of the id of the tray the drive refers to, or the label the record carries
when it refers to no tray, and the slot label is the decimal text of the slot. -/
theorem drives_collect_distinct_keys (orbit : Char → Char → Bool) (net : NetLib)
    (unmarshal : String → DrivesInventory × Option String) (target : Target) (dur : F64)
    (inv : DrivesInventory)
    (hok : DrivesCollector.collect net unmarshal target = (inv, none))
    (hdom : ∀ d ∈ inv.Drives, (resolveDrive (trayMap inv.Trays) d).TrayID = "" ∨
      ∃ n : Int, (resolveDrive (trayMap inv.Trays) d).TrayID = Itoa n)
    (hdistinct : (inv.Drives.map (traySlot inv.Trays)).Nodup) :
    1 ≤ inv.Drives.length ∧
    DrivesCollector.Collect orbit net unmarshal target dur =
      inv.Drives.flatMap (fun d => driveSeries orbit (resolveDrive (trayMap inv.Trays) d)) ++
      [ { desc := collectError, value := F64.num 0, labels := ["drives"] },
        { desc := collectDuration, value := dur, labels := ["drives"] } ] ∧
    (seriesAt (DrivesCollector.Collect orbit net unmarshal target dur)
      "eseries_drive_status").length = 12 * inv.Drives.length ∧
    (DrivesCollector.Collect orbit net unmarshal target dur).length
      = 12 * inv.Drives.length + 2 ∧
    (∀ d : Drive, (driveSeries orbit d).map (fun m => (m.desc, m.labels)) =
      (driveStatuses ++ ["unknown"]).map (fun s =>
        ("eseries_drive_status", [d.TrayID, d.Slot, s]))) ∧
    ∀ d : Drive,
      (resolveDrive (trayMap inv.Trays) d).TrayID =
        (match mapGet (trayMap inv.Trays) d.PhysicalLocation.TrayRef with
          | some trayId => Itoa trayId
          | none => d.TrayID) ∧
      (resolveDrive (trayMap inv.Trays) d).Slot = Itoa d.PhysicalLocation.Slot := by
  have hpw := driveKeys_pairwise_of_nodup orbit inv.Trays inv.Drives hdom hdistinct
  have hloop := driveLoop_distinct orbit (trayMap inv.Trays) inv.Drives
    { ids := [], errorMetric := 0, ch := [] } hpw (fun _ _ => rfl)
  have hC : DrivesCollector.Collect orbit net unmarshal target dur =
      inv.Drives.flatMap (fun d => driveSeries orbit (resolveDrive (trayMap inv.Trays) d)) ++
      [ { desc := collectError, value := F64.num 0, labels := ["drives"] },
        { desc := collectDuration, value := dur, labels := ["drives"] } ] := by
    simp only [DrivesCollector.Collect, hok]
    simp [hloop.1, hloop.2.1]
  have hlen := length_flatMap_const inv.Drives
    (fun d => driveSeries orbit (resolveDrive (trayMap inv.Trays) d)) 12
    (fun d => driveSeries_length orbit _)
  have htail : ∀ m ∈
      ([ { desc := collectError, value := F64.num 0, labels := ["drives"] },
         { desc := collectDuration, value := dur, labels := ["drives"] } ] : List Metric),
      m.desc ≠ "eseries_drive_status" := by
    intro m hm
    simp only [List.mem_cons, List.mem_singleton, List.not_mem_nil, or_false] at hm
    rcases hm with rfl | rfl
    · show collectError ≠ "eseries_drive_status"
      decide
    · show collectDuration ≠ "eseries_drive_status"
      decide
  refine ⟨drivesCollect_ok_nonempty net unmarshal target inv hok, hC, ?_, ?_, ?_, ?_⟩
  · rw [hC, seriesAt_drive_status orbit (trayMap inv.Trays) inv.Drives _ htail, hlen]
  · rw [hC, List.length_append, hlen]
    simp
  · intro d
    simp [driveSeries, driveStatuses]
    decide
  · intro d
    refine ⟨?_, resolveDrive_slot _ d⟩
    unfold resolveDrive
    cases mapGet (trayMap inv.Trays) d.PhysicalLocation.TrayRef <;> rfl

/-- Witness of C12 (amended): the drives at slots 53 and 58 of tray 0 give 24
status series and 26 series in all. -/
theorem drives_collect_distinct_keys_witness :
    DrivesCollector.collect plainNet
        (decodeTo { Drives := [failedDrive, optimalDrive], Trays := [tray0] })
        (testTarget none 200 "{}")
      = ({ Drives := [failedDrive, optimalDrive], Trays := [tray0] }, none) ∧
    ([failedDrive, optimalDrive].map (traySlot [tray0])).Nodup ∧
    (seriesAt (DrivesCollector.Collect asciiOrbit plainNet
        (decodeTo { Drives := [failedDrive, optimalDrive], Trays := [tray0] })
        (testTarget none 200 "{}") (F64.num 0)) "eseries_drive_status").length = 12 * 2 ∧
    (DrivesCollector.Collect asciiOrbit plainNet
        (decodeTo { Drives := [failedDrive, optimalDrive], Trays := [tray0] })
        (testTarget none 200 "{}") (F64.num 0)).length = 12 * 2 + 2 ∧
    (DrivesCollector.Collect asciiOrbit plainNet
        (decodeTo { Drives := [failedDrive, optimalDrive], Trays := [tray0] })
        (testTarget none 200 "{}") (F64.num 0)).length = 26 :=
  have h := drives_collect_distinct_keys asciiOrbit plainNet
    (decodeTo { Drives := [failedDrive, optimalDrive], Trays := [tray0] })
    (testTarget none 200 "{}") (F64.num 0)
    { Drives := [failedDrive, optimalDrive], Trays := [tray0] } (by rfl)
    (by
      intro x hx
      simp only [List.mem_cons, List.mem_singleton, List.not_mem_nil, or_false] at hx
      rcases hx with rfl | rfl
      · exact Or.inr ⟨0, by rfl⟩
      · exact Or.inr ⟨0, by rfl⟩)
    (by decide)
  ⟨by rfl, by decide, h.2.2.1, h.2.2.2.1, h.2.2.2.1⟩

/-- Counterexample to C25: of two drives at slot 1 whose decoded records carry the
tray labels "A" and "a", neither repeats the (tray, slot) key of an earlier record,
so the shortened list keeps both and has 24 status series; `Collect` sends the
twelve series of the first drive only and none for tray "a". -/
theorem drives_drop_repeated_counterexample :
    dropRepeated [] [upperDrive, lowerDrive] = [upperDrive, lowerDrive] ∧
    ((dropRepeated [] [upperDrive, lowerDrive]).flatMap
      (fun d => driveSeries asciiOrbit (resolveDrive (trayMap []) d))).length = 24 ∧
    seriesAt (DrivesCollector.Collect asciiOrbit plainNet
        (decodeTo { Drives := [upperDrive, lowerDrive], Trays := [] })
        (testTarget none 200 "{}") (F64.num 0)) "eseries_drive_status"
      = driveSeries asciiOrbit (resolveDrive (trayMap []) upperDrive) ∧
    (seriesAt (DrivesCollector.Collect asciiOrbit plainNet
        (decodeTo { Drives := [upperDrive, lowerDrive], Trays := [] })
        (testTarget none 200 "{}") (F64.num 0)) "eseries_drive_status").length = 12 ∧
    valuesAt (DrivesCollector.Collect asciiOrbit plainNet
        (decodeTo { Drives := [upperDrive, lowerDrive], Trays := [] })
        (testTarget none 200 "{}") (F64.num 0)) ["a", "1", "failed"] = [] := by
  refine ⟨by rfl, by rfl, by rfl, by rfl, by rfl⟩

end Eseries
